import Mathlib

/-!
# Finalizer coordinator and diagnostic port multiplexer

A shallow embedding of `src/coreclr/vm/finalizerthread.cpp` and
`src/native/eventpipe/ds-ipc.c`, followed by theorems about the embedded code.

Conventions of the embedding:

* C integers are `Nat`/`Int` with explicit reduction modulo `2^32`.
* Pointers into the port array are indices into the list of ports.
* Calls that leave the translated files (the GC heap, the managed drain, the
  IPC transport, other threads) are environment parameters; what the code does
  with their results is translated line by line.
* Heap allocation of vectors and objects is taken to succeed.
* The container and string helpers of the runtime are outside the translated
  files: `DN_VECTOR_PTR_FOREACH_BEGIN` visits a vector from its first element
  to its last and `DN_VECTOR_PTR_FOREACH_RBEGIN` from its last to its first.
-/

namespace FinalizerThread

/-! ## 32-bit arithmetic used by the finalization barrier -/

/-- Conversion `(int)n` of an unsigned value: two's complement reading of the low 32 bits. -/
def toSigned (n : Nat) : Int :=
  if n % 4294967296 < 2147483648 then ((n % 4294967296 : Nat) : Int)
  else ((n % 4294967296 : Nat) : Int) - 4294967296

/-- Initialisation of an `int` from the `size_t` result of `CollectionCount`. -/
def sizeToInt (count : Nat) : Int := toSigned count

/-- Observable operations of the finalizer worker. -/
inductive WorkerStep where
  | waitForFinalizerEvent
  | setThreadPriorityHighest
  | initializationForManagedThreadInNative
  | jitHostReclaim
  | finalizeAllObjects
  | storeFullGcCountSeen (v : Int)
  | setFinalizerDone
  | cleanUpForManagedThreadInNative
  | enableFinalization
  | raiseExitProcessEvent
  | setFinalizerToShutDown
  deriving DecidableEq, Repr

/-- Process-wide state read and written by the finalizer worker. -/
structure World where
  fQuitFinalizer : Bool
  collectionCountMaxGen : Nat
  g_fullGcCountSeenByFinalization : Int
  hEventFinalizerDone : Bool
  s_InitializedFinalizerThreadForPlatform : Bool
  steps : List WorkerStep

/-- Environment of one finalization cycle: what the called-out code and the
other threads do to the process state while the worker waits and does its
housekeeping (`beforeDrain`), whether `SetThreadPriority` succeeds, what happens
between the housekeeping and the snapshot (`beforeSnapshot`), and what happens
while `FinalizeAllObjects` runs (`duringDrain`). -/
structure CycleEnv where
  beforeDrain : World → World
  setThreadPriorityOk : Bool
  beforeSnapshot : World → World
  duringDrain : World → World

/-- Append one operation to the record of operations. -/
def record (st : WorkerStep) (w : World) : World := { w with steps := w.steps ++ [st] }

/-- `FinalizerThread::SignalFinalizationDone`. -/
def SignalFinalizationDone (observedFullGcCount : Int) (w : World) : World :=
  let w1 := record (WorkerStep.storeFullGcCountSeen observedFullGcCount)
    { w with g_fullGcCountSeenByFinalization := observedFullGcCount }
  record WorkerStep.setFinalizerDone { w1 with hEventFinalizerDone := true }

/-- Lines 237-348 of the loop body of `FinalizerThreadWorker`: the wait, the
pending work, the one-time initialisation and the reclaim hook.  Returns the
state at the point where the full GC count is read, and the updated local
`bPriorityBoosted`. -/
def cycleUntilSnapshot (e : CycleEnv) (bPriorityBoosted : Bool) (w : World) : World × Bool :=
  let w1 := e.beforeDrain (record WorkerStep.waitForFinalizerEvent w)
  let (w2, boosted) :=
    if !bPriorityBoosted then
      (record WorkerStep.setThreadPriorityHighest w1, e.setThreadPriorityOk)
    else (w1, bPriorityBoosted)
  let w3 :=
    if !w2.s_InitializedFinalizerThreadForPlatform then
      record WorkerStep.initializationForManagedThreadInNative
        { w2 with s_InitializedFinalizerThreadForPlatform := true }
    else w2
  let w4 := record WorkerStep.jitHostReclaim w3
  (e.beforeSnapshot w4, boosted)

/-- The state handed to `SignalFinalizationDone`: the state after
`FinalizeAllObjects` has run from the snapshot state `w`. -/
def afterDrain (e : CycleEnv) (w : World) : World :=
  e.duringDrain (record WorkerStep.finalizeAllObjects w)

/-- One iteration of the `while (!fQuitFinalizer)` loop of `FinalizerThreadWorker`. -/
def workerCycle (e : CycleEnv) (bPriorityBoosted : Bool) (w : World) : World × Bool :=
  let (w5, boosted) := cycleUntilSnapshot e bPriorityBoosted w
  let observedFullGcCount := sizeToInt w5.collectionCountMaxGen
  (SignalFinalizationDone observedFullGcCount (afterDrain e w5), boosted)

/-- The `while (!fQuitFinalizer)` loop of `FinalizerThreadWorker`, one
environment per cycle; `none` when the environments are used up while the loop
is still running. -/
def workerLoop : List CycleEnv → Bool → World → Option World
  | es, boosted, w =>
    if w.fQuitFinalizer then some w
    else match es with
      | [] => none
      | e :: rest =>
        let (w1, b1) := workerCycle e boosted w
        workerLoop rest b1 w1

end FinalizerThread

namespace DsIpc

/-! ## Constants, strings and enumerations of the IPC core -/

/-- The macros of the IPC header that `ds-ipc.c` uses.  The header is not one
of the translated files, so their values are parameters.  The `float` macro
`DS_IPC_POLL_TIMEOUT_FALLOFF_FACTOR` is the ratio `falloffNum / falloffDen`. -/
structure IpcConsts where
  DS_IPC_TIMEOUT_INFINITE : Nat
  DS_IPC_POLL_TIMEOUT_MIN_MS : Nat
  DS_IPC_POLL_TIMEOUT_MAX_MS : Nat
  falloffNum : Nat
  falloffDen : Nat
  deriving DecidableEq, Repr

/-- The values the macros have in the runtime's IPC header: `(uint32_t)-1`,
`10`, `500` and `(float)1.25`. -/
def dsIpcConsts : IpcConsts :=
  { DS_IPC_TIMEOUT_INFINITE := 4294967295
    DS_IPC_POLL_TIMEOUT_MIN_MS := 10
    DS_IPC_POLL_TIMEOUT_MAX_MS := 500
    falloffNum := 5
    falloffDen := 4 }

/-- The expression `(uint32_t)((float)current_timeout_ms * DS_IPC_POLL_TIMEOUT_FALLOFF_FACTOR)`:
the product truncated towards zero.  The product is computed exactly here; the
`float` product is exact whenever it fits in 24 bits, which covers every
argument below `DS_IPC_POLL_TIMEOUT_MAX_MS` for `dsIpcConsts`. -/
def scaleTimeout (c : IpcConsts) (current_timeout_ms : Nat) : Nat :=
  (current_timeout_ms * c.falloffNum / c.falloffDen) % 4294967296

/-- `ipc_stream_factory_get_next_timeout`. -/
def ipc_stream_factory_get_next_timeout (c : IpcConsts) (current_timeout_ms : Nat) : Nat :=
  if current_timeout_ms = c.DS_IPC_TIMEOUT_INFINITE then
    c.DS_IPC_POLL_TIMEOUT_MIN_MS
  else if current_timeout_ms ≥ c.DS_IPC_POLL_TIMEOUT_MAX_MS then
    c.DS_IPC_POLL_TIMEOUT_MAX_MS
  else
    scaleTimeout c current_timeout_ms

/-- Tokens returned by the successive calls of `ep_rt_utf8_string_strtok` on one
string.  The function is a runtime shim over C `strtok_r` (`strtok_s` on
Windows) and is not part of the translated file: delimiters before a token are
skipped, so no token is empty.  `cur` is the token being read, reversed. -/
def strtokAux (delimiters : List Char) : List Char → List Char → List (List Char)
  | [], cur => if cur.isEmpty then [] else [cur.reverse]
  | ch :: rest, cur =>
    if delimiters.contains ch then
      if cur.isEmpty then strtokAux delimiters rest []
      else cur.reverse :: strtokAux delimiters rest []
    else strtokAux delimiters rest (ch :: cur)

/-- `ipc_stream_factory_split_port_config`: every token is pushed onto `config_array`. -/
def ipc_stream_factory_split_port_config (config delimiters : List Char)
    (config_array : List (List Char)) : List (List Char) :=
  config_array ++ strtokAux delimiters config []

/-- Modelled from the spec: `ep_rt_utf8_string_compare_ignore_case` is a runtime
shim that is not part of the translated file; tags are compared
"case-insensitive".  As C `strcasecmp`: both strings are walked with every
letter lowered, the result is `0` when they agree and otherwise has the sign of
the first difference. -/
def ep_rt_utf8_string_compare_ignore_case : List Char → List Char → Int
  | [], [] => 0
  | [], _ :: _ => -1
  | _ :: _, [] => 1
  | a :: as, b :: bs =>
    if a.toLower = b.toLower then ep_rt_utf8_string_compare_ignore_case as bs
    else if a.toLower < b.toLower then -1 else 1

/-- `ep_rt_utf8_string_is_null_or_empty`. -/
def ep_rt_utf8_string_is_null_or_empty : Option (List Char) → Bool
  | none => true
  | some s => s.isEmpty

inductive DiagnosticsPortType where
  | DS_PORT_TYPE_LISTEN
  | DS_PORT_TYPE_CONNECT
  deriving DecidableEq, Repr

inductive DiagnosticsPortSuspendMode where
  | DS_PORT_SUSPEND_MODE_NOSUSPEND
  | DS_PORT_SUSPEND_MODE_SUSPEND
  deriving DecidableEq, Repr

inductive DiagnosticsIpcConnectionMode where
  | DS_IPC_CONNECTION_MODE_CONNECT
  | DS_IPC_CONNECTION_MODE_LISTEN
  deriving DecidableEq, Repr

open DiagnosticsPortType DiagnosticsPortSuspendMode DiagnosticsIpcConnectionMode

/-! ## Port builder -/

structure DiagnosticsPortBuilder where
  path : Option (List Char)
  suspend_mode : DiagnosticsPortSuspendMode
  type : DiagnosticsPortType
  deriving DecidableEq, Repr

/-- `ds_port_builder_init`. -/
def ds_port_builder_init : DiagnosticsPortBuilder :=
  { path := none
    suspend_mode := DS_PORT_SUSPEND_MODE_SUSPEND
    type := DS_PORT_TYPE_CONNECT }

/-- `ds_port_builder_set_tag`. -/
def ds_port_builder_set_tag (builder : DiagnosticsPortBuilder) (tag : List Char) :
    DiagnosticsPortBuilder :=
  if ep_rt_utf8_string_compare_ignore_case tag "listen".toList = 0 then
    { builder with type := DS_PORT_TYPE_LISTEN }
  else if ep_rt_utf8_string_compare_ignore_case tag "connect".toList = 0 then
    { builder with type := DS_PORT_TYPE_CONNECT }
  else if ep_rt_utf8_string_compare_ignore_case tag "nosuspend".toList = 0 then
    { builder with suspend_mode := DS_PORT_SUSPEND_MODE_NOSUSPEND }
  else if ep_rt_utf8_string_compare_ignore_case tag "suspend".toList = 0 then
    { builder with suspend_mode := DS_PORT_SUSPEND_MODE_SUSPEND }
  else
    builder

/-! ## Ports and the port array -/

/-- The transport of a port: what `ds_ipc_alloc` was given. -/
structure DiagnosticsIpc where
  path : Option (List Char)
  mode : DiagnosticsIpcConnectionMode
  deriving DecidableEq, Repr

/-- `DiagnosticsPort`.  The vtable is determined by `type`; a stream is
identified by a number. -/
structure DiagnosticsPort where
  type : DiagnosticsPortType
  suspend_mode : DiagnosticsPortSuspendMode
  ipc : Option DiagnosticsIpc
  stream : Option Nat
  has_resumed_runtime : Bool
  deriving DecidableEq, Repr

/-- `ds_port_init`, as called by `ds_listen_port_alloc` and `ds_connect_port_alloc`. -/
def ds_port_init (ipc : DiagnosticsIpc) (builder : DiagnosticsPortBuilder) : DiagnosticsPort :=
  { type := builder.type
    suspend_mode := builder.suspend_mode
    ipc := some ipc
    stream := none
    has_resumed_runtime := false }

/-- Build-time switches tested by `#ifdef` in `ds-ipc.c`. -/
structure BuildFlags where
  DS_IPC_DISABLE_DEFAULT_LISTEN_PORT : Bool
  DS_IPC_DISABLE_LISTEN_PORTS : Bool
  DS_IPC_DISABLE_CONNECT_PORTS : Bool
  PERFTRACING_DISABLE_THREADS : Bool
  deriving DecidableEq, Repr

/-- The build with every switch off. -/
def defaultBuild : BuildFlags :=
  { DS_IPC_DISABLE_DEFAULT_LISTEN_PORT := false
    DS_IPC_DISABLE_LISTEN_PORTS := false
    DS_IPC_DISABLE_CONNECT_PORTS := false
    PERFTRACING_DISABLE_THREADS := false }

/-- Results of the transport and configuration calls made by
`ds_ipc_stream_factory_configure`: whether `ds_ipc_alloc` returns a transport
for a path and mode, whether `ds_ipc_listen` succeeds on it, and the two
configuration values. -/
structure ConfigEnv where
  ds_ipc_alloc_ok : Option (List Char) → DiagnosticsIpcConnectionMode → Bool
  ds_ipc_listen_ok : DiagnosticsIpc → Bool
  ds_rt_config_value_get_ports : Option (List Char)
  ds_rt_config_value_get_default_port_suspend : Nat

/-- `ipc_stream_factory_build_and_add_port`: the result and the port array. -/
def ipc_stream_factory_build_and_add_port (flags : BuildFlags) (env : ConfigEnv)
    (builder : DiagnosticsPortBuilder) (default_port : Bool)
    (_ds_port_array : List DiagnosticsPort) : Bool × List DiagnosticsPort :=
  if !flags.DS_IPC_DISABLE_DEFAULT_LISTEN_PORT && !default_port
      && decide (builder.type = DS_PORT_TYPE_LISTEN) then
    (true, _ds_port_array)
  else
    match builder.type with
    | DS_PORT_TYPE_LISTEN =>
      if flags.DS_IPC_DISABLE_LISTEN_PORTS then (false, _ds_port_array)
      else if !env.ds_ipc_alloc_ok builder.path DS_IPC_CONNECTION_MODE_LISTEN then
        (false, _ds_port_array)
      else if !env.ds_ipc_listen_ok
          { path := builder.path, mode := DS_IPC_CONNECTION_MODE_LISTEN } then
        (false, _ds_port_array)
      else
        (true, _ds_port_array ++
          [ds_port_init { path := builder.path, mode := DS_IPC_CONNECTION_MODE_LISTEN } builder])
    | DS_PORT_TYPE_CONNECT =>
      if flags.DS_IPC_DISABLE_CONNECT_PORTS then (false, _ds_port_array)
      else if !env.ds_ipc_alloc_ok builder.path DS_IPC_CONNECTION_MODE_CONNECT then
        (false, _ds_port_array)
      else
        (true, _ds_port_array ++
          [ds_port_init { path := builder.path, mode := DS_IPC_CONNECTION_MODE_CONNECT } builder])

/-- The loop of lines 293-299 of `ds_ipc_stream_factory_configure`: `parts` are
the parts still to visit, last part of the port-config first, and
`port_config_parts_index` counts down from the number of parts. -/
def applyConfigParts : List (List Char) → Nat → DiagnosticsPortBuilder → DiagnosticsPortBuilder
  | [], _, port_builder => port_builder
  | port_config_part :: rest, port_config_parts_index, port_builder =>
    applyConfigParts rest (port_config_parts_index - 1)
      (if port_config_parts_index = 1 then { port_builder with path := some port_config_part }
       else ds_port_builder_set_tag port_builder port_config_part)

/-- The builder that `ds_ipc_stream_factory_configure` fills from the parts of
one port-config (lines 289-299). -/
def builderOfParts (port_config_parts : List (List Char)) : DiagnosticsPortBuilder :=
  applyConfigParts port_config_parts.reverse port_config_parts.length ds_port_builder_init

/-- The body of the loop over port-configs (lines 284-314) for one port-config:
`st` holds `result` and the port array. -/
def configurePortConfig (flags : BuildFlags) (env : ConfigEnv) (port_config : List Char)
    (st : Bool × List DiagnosticsPort) : Bool × List DiagnosticsPort :=
  let port_config_parts := ipc_stream_factory_split_port_config port_config [','] []
  if port_config_parts.length ≠ 0 then
    let port_builder := builderOfParts port_config_parts
    if !ep_rt_utf8_string_is_null_or_empty port_builder.path then
      let built := ipc_stream_factory_build_and_add_port flags env port_builder false st.2
      (st.1 && built.1, built.2)
    else st
  else (false, st.2)

/-- The part of `ds_ipc_stream_factory_configure` that reads the ports string
(lines 269-323): the port-configs are visited from the last to the first. -/
def configureFromString (flags : BuildFlags) (env : ConfigEnv)
    (_ds_port_array : List DiagnosticsPort) : Bool × List DiagnosticsPort :=
  match env.ds_rt_config_value_get_ports with
  | none => (true, _ds_port_array)
  | some ports =>
    (ipc_stream_factory_split_port_config ports [';'] []).reverse.foldl
      (fun st port_config => configurePortConfig flags env port_config st) (true, _ds_port_array)

/-- The builder of the default listen port (lines 329-333). -/
def defaultPortBuilder (env : ConfigEnv) : DiagnosticsPortBuilder :=
  { ds_port_builder_init with
    path := none
    suspend_mode :=
      if env.ds_rt_config_value_get_default_port_suspend > 0 then DS_PORT_SUSPEND_MODE_SUSPEND
      else DS_PORT_SUSPEND_MODE_NOSUSPEND
    type := DS_PORT_TYPE_LISTEN }

/-- `ds_ipc_stream_factory_configure`: the result and the port array. -/
def ds_ipc_stream_factory_configure (flags : BuildFlags) (env : ConfigEnv)
    (_ds_port_array : List DiagnosticsPort) : Bool × List DiagnosticsPort :=
  let st := configureFromString flags env _ds_port_array
  if !flags.DS_IPC_DISABLE_DEFAULT_LISTEN_PORT then
    let built := ipc_stream_factory_build_and_add_port flags env (defaultPortBuilder env) true st.2
    (st.1 && built.1, built.2)
  else st

/-! ## Stream factory: polling -/

/-- Values of `DiagnosticsIpcPollEvents` as distinguished by the `switch` of
`ds_ipc_stream_factory_get_next_available_stream`; `DS_IPC_POLL_EVENTS_UNKNOWN`
stands for every value handled by the `default` label. -/
inductive DiagnosticsIpcPollEvents where
  | DS_IPC_POLL_EVENTS_NONE
  | DS_IPC_POLL_EVENTS_SIGNALED
  | DS_IPC_POLL_EVENTS_HANGUP
  | DS_IPC_POLL_EVENTS_ERR
  | DS_IPC_POLL_EVENTS_UNKNOWN
  deriving DecidableEq, Repr

open DiagnosticsIpcPollEvents

/-- `DiagnosticsIpcPollHandle`; `user_data` is the index of the owning port. -/
structure DiagnosticsIpcPollHandle where
  ipc : Option DiagnosticsIpc
  stream : Option Nat
  events : DiagnosticsIpcPollEvents
  user_data : Nat
  deriving DecidableEq, Repr

/-- Calls into the transport layer and the runtime made by the stream factory,
in program order. -/
inductive IpcCall where
  | ds_ipc_connect (port : Nat)
  | ds_ipc_advertise_v1_send (stream : Nat)
  | ds_ipc_stream_free (stream : Option Nat)
  | ds_ipc_poll (handles : List DiagnosticsIpcPollHandle) (timeout_ms : Nat)
  | ep_rt_thread_sleep (timeout_ms : Nat)
  | ds_ipc_accept (port : Nat)
  | ds_ipc_reset (port : Nat)
  | ds_ipc_listen (port : Nat)
  | ds_ipc_close (port : Nat) (is_shutdown : Bool)
  | ds_ipc_stream_close (stream : Nat)
  deriving DecidableEq, Repr

/-- The globals of `ds-ipc.c` together with the record of outgoing calls. -/
structure Factory where
  _ds_shutting_down_state : Bool
  _ds_port_array : List DiagnosticsPort
  _ds_current_port : Option Nat
  calls : List IpcCall
  deriving DecidableEq, Repr

/-- Result of `ds_ipc_connect` followed by `ds_ipc_advertise_v1_send`. -/
inductive ConnectResult where
  | failed (timed_out : Bool)
  | connected (stream : Nat) (advertise_ok : Bool)
  deriving DecidableEq, Repr

/-- What the transport answers during one pass of the `while (!stream)` loop:
the outcome of a connect attempt per port, the return value of `ds_ipc_poll`,
the events it leaves in the handle at each position of the handle array, and the
stream returned by `ds_ipc_accept` per port. -/
structure PollRound where
  connect : Nat → ConnectResult
  poll_ret : Int
  events : Nat → DiagnosticsIpcPollEvents
  accept : Nat → Option Nat

/-- Record one outgoing call. -/
def Factory.call (f : Factory) (c : IpcCall) : Factory := { f with calls := f.calls ++ [c] }

/-- Assignment through a port pointer: apply `g` to the port at index `i`. -/
def updatePort (g : DiagnosticsPort → DiagnosticsPort) :
    Nat → List DiagnosticsPort → List DiagnosticsPort
  | _, [] => []
  | 0, p :: ps => g p :: ps
  | i + 1, p :: ps => p :: updatePort g i ps

/-- `listen_port_get_ipc_poll_handle_func`. -/
def listen_port_get_ipc_poll_handle_func (port : Nat) (p : DiagnosticsPort) (f : Factory) :
    Factory × Option DiagnosticsIpcPollHandle :=
  (f, some { ipc := p.ipc, stream := none, events := DS_IPC_POLL_EVENTS_NONE, user_data := port })

/-- `connect_port_get_ipc_poll_handle_func`. -/
def connect_port_get_ipc_poll_handle_func (r : PollRound) (port : Nat) (p : DiagnosticsPort)
    (f : Factory) : Factory × Option DiagnosticsIpcPollHandle :=
  match p.stream with
  | none =>
    let f1 := f.call (IpcCall.ds_ipc_connect port)
    match r.connect port with
    | ConnectResult.failed _ => (f1.call (IpcCall.ds_ipc_stream_free none), none)
    | ConnectResult.connected connection advertise_ok =>
      let f2 := f1.call (IpcCall.ds_ipc_advertise_v1_send connection)
      if !advertise_ok then (f2.call (IpcCall.ds_ipc_stream_free (some connection)), none)
      else
        ({ f2 with _ds_port_array :=
              updatePort (fun q => { q with stream := some connection }) port f2._ds_port_array },
          some { ipc := none, stream := some connection, events := DS_IPC_POLL_EVENTS_NONE,
                 user_data := port })
  | some cached =>
    (f, some { ipc := none, stream := some cached, events := DS_IPC_POLL_EVENTS_NONE,
               user_data := port })

/-- `ds_port_get_ipc_poll_handle_vcall`: dispatch on the vtable of the port. -/
def ds_port_get_ipc_poll_handle_vcall (r : PollRound) (port : Nat) (f : Factory) :
    Factory × Option DiagnosticsIpcPollHandle :=
  match f._ds_port_array[port]? with
  | none => (f, none)
  | some p =>
    match p.type with
    | DS_PORT_TYPE_LISTEN => listen_port_get_ipc_poll_handle_func port p f
    | DS_PORT_TYPE_CONNECT => connect_port_get_ipc_poll_handle_func r port p f

/-- `ds_port_get_connected_stream_vcall`: `connect_port_get_connected_stream_func`
hands out the cached stream, `listen_port_get_connected_stream_func` accepts. -/
def ds_port_get_connected_stream_vcall (r : PollRound) (port : Nat) (f : Factory) :
    Factory × Option Nat :=
  match f._ds_port_array[port]? with
  | none => (f, none)
  | some p =>
    match p.type with
    | DS_PORT_TYPE_LISTEN => (f.call (IpcCall.ds_ipc_accept port), r.accept port)
    | DS_PORT_TYPE_CONNECT =>
      ({ f with _ds_port_array :=
            updatePort (fun q => { q with stream := none }) port f._ds_port_array },
        p.stream)

/-- `ds_port_reset_vcall`: `connect_port_reset` frees and drops the cached
stream, `listen_port_reset` resets the transport and listens again. -/
def ds_port_reset_vcall (port : Nat) (f : Factory) : Factory :=
  match f._ds_port_array[port]? with
  | none => f
  | some p =>
    match p.type with
    | DS_PORT_TYPE_LISTEN =>
      (f.call (IpcCall.ds_ipc_reset port)).call (IpcCall.ds_ipc_listen port)
    | DS_PORT_TYPE_CONNECT =>
      { f.call (IpcCall.ds_ipc_stream_free p.stream) with
        _ds_port_array :=
          updatePort (fun q => { q with stream := none }) port f._ds_port_array }

/-- Lines 376-382: collect a poll handle from the ports with the given indices,
in order; `hs` is `ipc_poll_handles` and `ok` is `connect_success`. -/
def gatherPollHandles (r : PollRound) :
    List Nat → Factory → List DiagnosticsIpcPollHandle → Bool →
      Factory × List DiagnosticsIpcPollHandle × Bool
  | [], f, hs, ok => (f, hs, ok)
  | port :: rest, f, hs, ok =>
    match ds_port_get_ipc_poll_handle_vcall r port f with
    | (f1, some h) => gatherPollHandles r rest f1 (hs ++ [h]) ok
    | (f1, none) => gatherPollHandles r rest f1 hs false

/-- Locals of `ds_ipc_stream_factory_get_next_available_stream` that the loop
over the polled handles reads and writes, with the globals. -/
structure PollState where
  f : Factory
  stream : Option Nat
  saw_error : Bool
  poll_timeout_ms : Nat

/-- One pass of the `switch` of lines 408-438 for a handle whose events are `ev`. -/
def handlePollEvent (c : IpcConsts) (r : PollRound) (h : DiagnosticsIpcPollHandle)
    (ev : DiagnosticsIpcPollEvents) (st : PollState) : PollState :=
  match ev with
  | DS_IPC_POLL_EVENTS_HANGUP =>
    { st with f := ds_port_reset_vcall h.user_data st.f
              poll_timeout_ms := c.DS_IPC_POLL_TIMEOUT_MIN_MS }
  | DS_IPC_POLL_EVENTS_SIGNALED =>
    match st.stream with
    | none =>
      let got := ds_port_get_connected_stream_vcall r h.user_data st.f
      { st with f := { got.1 with _ds_current_port := some h.user_data }
                stream := got.2
                saw_error := st.saw_error || got.2.isNone }
    | some _ => st
  | DS_IPC_POLL_EVENTS_ERR =>
    { st with f := ds_port_reset_vcall h.user_data st.f, saw_error := true }
  | DS_IPC_POLL_EVENTS_NONE => st
  | DS_IPC_POLL_EVENTS_UNKNOWN =>
    { st with f := ds_port_reset_vcall h.user_data st.f, saw_error := true }

/-- Lines 406-441: the loop over `ipc_poll_handles`; `connection_id` is the
position of the first handle of `hs` in the array. -/
def handlePollEvents (c : IpcConsts) (r : PollRound) :
    List DiagnosticsIpcPollHandle → Nat → PollState → PollState
  | [], _, st => st
  | h :: rest, connection_id, st =>
    handlePollEvents c r rest (connection_id + 1) (handlePollEvent c r h (r.events connection_id) st)

/-- Lines 375-400: gather the handles, choose the timeout, and poll or sleep.
Returns the state before the handles are examined, the handles, and `ret_val`. -/
def pollOrSleep (c : IpcConsts) (r : PollRound) (f : Factory) (poll_timeout_ms : Nat) :
    PollState × List DiagnosticsIpcPollHandle × Int :=
  let (f1, hs, connect_success) :=
    gatherPollHandles r (List.range f._ds_port_array.length) f [] true
  let t1 :=
    if connect_success then c.DS_IPC_TIMEOUT_INFINITE
    else ipc_stream_factory_get_next_timeout c poll_timeout_ms
  if hs.length > 0 then
    ({ f := f1.call (IpcCall.ds_ipc_poll hs t1), stream := none, saw_error := false,
       poll_timeout_ms := t1 }, hs, r.poll_ret)
  else
    let t2 := if t1 = c.DS_IPC_TIMEOUT_INFINITE then c.DS_IPC_POLL_TIMEOUT_MAX_MS else t1
    ({ f := f1.call (IpcCall.ep_rt_thread_sleep t2), stream := none, saw_error := false,
       poll_timeout_ms := t2 }, hs, 0)

/-- The state at line 444, after the polled handles have been examined. -/
def pollRound (c : IpcConsts) (r : PollRound) (f : Factory) (poll_timeout_ms : Nat) : PollState :=
  let polled := pollOrSleep c r f poll_timeout_ms
  if polled.2.2 ≠ 0 then handlePollEvents c r polled.2.1 0 polled.1 else polled.1

/-- The `while (!stream)` loop of `ds_ipc_stream_factory_get_next_available_stream`,
one `PollRound` per pass.  The second component is `none` while the loop is
still running when the rounds are used up, and `some stream` when the function
returns `stream`. -/
def pollLoop (c : IpcConsts) (flags : BuildFlags) :
    List PollRound → Factory → Nat → Factory × Option (Option Nat)
  | [], f, _ => (f, none)
  | r :: rest, f, poll_timeout_ms =>
    let st := pollRound c r f poll_timeout_ms
    if st.stream.isNone && st.saw_error then
      let t := if st.poll_timeout_ms = c.DS_IPC_TIMEOUT_INFINITE
        then c.DS_IPC_POLL_TIMEOUT_MAX_MS else st.poll_timeout_ms
      ({ st.f.call (IpcCall.ep_rt_thread_sleep t) with _ds_current_port := none }, some none)
    else if flags.PERFTRACING_DISABLE_THREADS then (st.f, some st.stream)
    else
      match st.stream with
      | some s => (st.f, some (some s))
      | none => pollLoop c flags rest st.f st.poll_timeout_ms

/-- `ds_ipc_stream_factory_get_next_available_stream`. -/
def ds_ipc_stream_factory_get_next_available_stream (c : IpcConsts) (flags : BuildFlags)
    (rounds : List PollRound) (f : Factory) : Factory × Option (Option Nat) :=
  pollLoop c flags rounds f c.DS_IPC_TIMEOUT_INFINITE

/-- The timeouts handed to `ds_ipc_poll` and to `ep_rt_thread_sleep`, in call order. -/
def timeoutsUsed : List IpcCall → List Nat
  | [] => []
  | IpcCall.ds_ipc_poll _ t :: rest => t :: timeoutsUsed rest
  | IpcCall.ep_rt_thread_sleep t :: rest => t :: timeoutsUsed rest
  | _ :: rest => timeoutsUsed rest

/-! ## Stream factory: suspension bookkeeping and shutdown -/

/-- `ds_ipc_stream_factory_resume_current_port`. -/
def ds_ipc_stream_factory_resume_current_port (f : Factory) : Factory :=
  match f._ds_current_port with
  | some port =>
    { f with _ds_port_array :=
        updatePort (fun q => { q with has_resumed_runtime := true }) port f._ds_port_array }
  | none => f

/-- `ds_ipc_stream_factory_any_suspended_ports`. -/
def ds_ipc_stream_factory_any_suspended_ports (f : Factory) : Bool :=
  f._ds_port_array.foldl
    (fun any_suspended_ports port =>
      any_suspended_ports ||
        !(decide (port.suspend_mode = DS_PORT_SUSPEND_MODE_NOSUSPEND) || port.has_resumed_runtime))
    false

/-- `ds_ipc_stream_factory_has_active_ports`. -/
def ds_ipc_stream_factory_has_active_ports (f : Factory) : Bool :=
  !f._ds_shutting_down_state && decide (f._ds_port_array.length > 0)

/-- `ds_port_close` on the port at index `port`. -/
def ds_port_close (port : Nat) (p : DiagnosticsPort) (is_shutdown : Bool) (f : Factory) :
    Factory :=
  let f1 := if p.ipc.isSome then f.call (IpcCall.ds_ipc_close port is_shutdown) else f
  match p.stream with
  | some s => if !is_shutdown then f1.call (IpcCall.ds_ipc_stream_close s) else f1
  | none => f1

/-- The loop `DN_VECTOR_PTR_FOREACH_BEGIN ... ds_port_close (port, is_shutdown, callback)`;
`port` is the index of the first port of the list. -/
def closeEachPort (is_shutdown : Bool) : List DiagnosticsPort → Nat → Factory → Factory
  | [], _, f => f
  | p :: rest, port, f => closeEachPort is_shutdown rest (port + 1) (ds_port_close port p is_shutdown f)

/-- `ds_ipc_stream_factory_close_ports`. -/
def ds_ipc_stream_factory_close_ports (f : Factory) : Factory :=
  closeEachPort false f._ds_port_array 0 f

/-- `ds_ipc_stream_factory_shutdown`: the globals afterwards and the result. -/
def ds_ipc_stream_factory_shutdown (f : Factory) : Factory × Bool :=
  if f._ds_shutting_down_state then (f, true)
  else
    let f1 := closeEachPort true f._ds_port_array 0 { f with _ds_shutting_down_state := true }
    ({ f1 with _ds_current_port := none }, true)

/-- The operations of the stream factory that are called after configuration. -/
inductive FactoryOp where
  | get_next_available_stream (rounds : List PollRound)
  | resume_current_port
  | any_suspended_ports
  | has_active_ports
  | close_ports
  | shutdown

/-- The globals after one operation of the stream factory. -/
def applyOp (c : IpcConsts) (flags : BuildFlags) (f : Factory) : FactoryOp → Factory
  | FactoryOp.get_next_available_stream rounds =>
    (ds_ipc_stream_factory_get_next_available_stream c flags rounds f).1
  | FactoryOp.resume_current_port => ds_ipc_stream_factory_resume_current_port f
  | FactoryOp.any_suspended_ports => f
  | FactoryOp.has_active_ports => f
  | FactoryOp.close_ports => ds_ipc_stream_factory_close_ports f
  | FactoryOp.shutdown => (ds_ipc_stream_factory_shutdown f).1

/-- The globals after a sequence of operations. -/
def applyOps (c : IpcConsts) (flags : BuildFlags) (f : Factory) (ops : List FactoryOp) : Factory :=
  ops.foldl (applyOp c flags) f

end DsIpc

/-! ## Concrete inputs: finalizer coordinator -/

namespace FinalizerThread

/-- A process state in which seven full collections have been counted. -/
def worldSeven : World :=
  { fQuitFinalizer := false
    collectionCountMaxGen := 7
    g_fullGcCountSeenByFinalization := 0
    hEventFinalizerDone := false
    s_InitializedFinalizerThreadForPlatform := false
    steps := [] }

/-- A cycle in which a full collection completes before the snapshot and another one while
the drain runs, and in which the drain requests the worker to quit. -/
def envRacingGc : CycleEnv :=
  { beforeDrain := fun w => w
    setThreadPriorityOk := true
    beforeSnapshot := fun w => { w with collectionCountMaxGen := w.collectionCountMaxGen + 1 }
    duringDrain := fun w =>
      { w with collectionCountMaxGen := w.collectionCountMaxGen + 1, fQuitFinalizer := true } }

end FinalizerThread

/-! ## Specification-side notions for the IPC core -/

namespace DsIpc

/-- Two strings are equal ignoring letter case: they agree once every letter is lowered. -/
def eqIgnoreCase (a b : List Char) : Prop := a.map Char.toLower = b.map Char.toLower

instance (a b : List Char) : Decidable (eqIgnoreCase a b) := by
  unfold eqIgnoreCase; infer_instance

/-- A port is suspended: its mode is `Suspend` and it has not resumed the runtime. -/
def isSuspendedPort (p : DiagnosticsPort) : Prop :=
  p.suspend_mode = DiagnosticsPortSuspendMode.DS_PORT_SUSPEND_MODE_SUSPEND ∧
    p.has_resumed_runtime = false

end DsIpc

/-! ## Concrete inputs and derived notions: configuration -/

namespace DsIpc

/-- The ports that one port-config adds to the port array: the array left by
`configurePortConfig` when it starts from the empty array. -/
def portsOfConfig (flags : BuildFlags) (env : ConfigEnv) (port_config : List Char) :
    List DiagnosticsPort :=
  (configurePortConfig flags env port_config (true, [])).2

/-- An environment in which every transport call succeeds, the default port does not
suspend, and the ports string is `ports`. -/
def envWithPorts (ports : String) : ConfigEnv :=
  { ds_ipc_alloc_ok := fun _ _ => true
    ds_ipc_listen_ok := fun _ => true
    ds_rt_config_value_get_ports := some ports.toList
    ds_rt_config_value_get_default_port_suspend := 0 }

/-- A connect port as built by `ds_connect_port_alloc` for the address `path`. -/
def connectPortAt (path : String) (suspend_mode : DiagnosticsPortSuspendMode) : DiagnosticsPort :=
  { type := DiagnosticsPortType.DS_PORT_TYPE_CONNECT
    suspend_mode := suspend_mode
    ipc := some { path := some path.toList,
                  mode := DiagnosticsIpcConnectionMode.DS_IPC_CONNECTION_MODE_CONNECT }
    stream := none
    has_resumed_runtime := false }

/-- The default listen port as built by `ds_listen_port_alloc`: no path. -/
def defaultListenPort (suspend_mode : DiagnosticsPortSuspendMode) : DiagnosticsPort :=
  { type := DiagnosticsPortType.DS_PORT_TYPE_LISTEN
    suspend_mode := suspend_mode
    ipc := some { path := none,
                  mode := DiagnosticsIpcConnectionMode.DS_IPC_CONNECTION_MODE_LISTEN }
    stream := none
    has_resumed_runtime := false }

end DsIpc

/-! ## Concrete inputs and derived notions: polling -/

namespace DsIpc

/-- The suspend mode and the resume flag of a port. -/
def suspendKey (p : DiagnosticsPort) : DiagnosticsPortSuspendMode × Bool :=
  (p.suspend_mode, p.has_resumed_runtime)

/-- A connect attempt leaves the port without a cached stream: the connect failed or the
advertise message could not be sent. -/
def connectFails : ConnectResult → Bool
  | ConnectResult.failed _ => true
  | ConnectResult.connected _ advertise_ok => !advertise_ok

/-- The timeout that the specification gives for round `k` of consecutive failures:
`min(POLL_MAX_MS, POLL_MIN_MS × FALLOFF^(k-1))`. -/
def specBackoffTimeout (c : IpcConsts) (k : Nat) : ℚ :=
  min (c.DS_IPC_POLL_TIMEOUT_MAX_MS : ℚ)
    ((c.DS_IPC_POLL_TIMEOUT_MIN_MS : ℚ) * ((c.falloffNum : ℚ) / (c.falloffDen : ℚ)) ^ (k - 1))

/-- A round in which every connect attempt times out and the poll reports nothing. -/
def failingRound : PollRound :=
  { connect := fun _ => ConnectResult.failed true
    poll_ret := 0
    events := fun _ => DiagnosticsIpcPollEvents.DS_IPC_POLL_EVENTS_NONE
    accept := fun _ => none }

/-- The globals after configuration with the given ports. -/
def factoryWith (ports : List DiagnosticsPort) : Factory :=
  { _ds_shutting_down_state := false
    _ds_port_array := ports
    _ds_current_port := none
    calls := [] }

end DsIpc

namespace DsIpc

/-- Between two port arrays of the same length, position by position the suspend mode is
kept and a resume flag that is set stays set. -/
def resumeMonotone (ps ps' : List DiagnosticsPort) : Prop :=
  ps'.length = ps.length ∧
    ∀ (i : Nat) (p p' : DiagnosticsPort), ps[i]? = some p → ps'[i]? = some p' →
      p'.suspend_mode = p.suspend_mode ∧
        (p.has_resumed_runtime = true → p'.has_resumed_runtime = true)

/-- A round in which every connect attempt yields stream 7 with the advertise message
sent, and the poll reports every handle signalled. -/
def signalledRound : PollRound :=
  { connect := fun _ => ConnectResult.connected 7 true
    poll_ret := 1
    events := fun _ => DiagnosticsIpcPollEvents.DS_IPC_POLL_EVENTS_SIGNALED
    accept := fun _ => none }

end DsIpc

/-! ## Repeated shutdown -/

namespace DsIpc

/-- The given number of consecutive calls of `ds_ipc_stream_factory_shutdown`: the globals
after the last call and the results of the calls in order. -/
def shutdownTimes : Nat → Factory → Factory × List Bool
  | 0, f => (f, [])
  | n + 1, f =>
    ((shutdownTimes n (ds_ipc_stream_factory_shutdown f).1).1,
      (ds_ipc_stream_factory_shutdown f).2 ::
        (shutdownTimes n (ds_ipc_stream_factory_shutdown f).1).2)

/-- Two listen ports and a connect port that holds the cached stream 3. -/
def threePorts : List DiagnosticsPort :=
  [defaultListenPort DiagnosticsPortSuspendMode.DS_PORT_SUSPEND_MODE_NOSUSPEND,
    defaultListenPort DiagnosticsPortSuspendMode.DS_PORT_SUSPEND_MODE_SUSPEND,
    { connectPortAt "/tmp/a" DiagnosticsPortSuspendMode.DS_PORT_SUSPEND_MODE_SUSPEND with
      stream := some 3 }]

end DsIpc

namespace DsIpc

/-- The globals with the shutdown flag set to `b`. -/
def withShuttingDown (b : Bool) (f : Factory) : Factory := { f with _ds_shutting_down_state := b }

/-- A round in which every connect attempt times out, the poll reports every handle
signalled, and `ds_ipc_accept` returns stream 5 on port 0 and fails on the other ports. -/
def acceptingRound : PollRound :=
  { connect := fun _ => ConnectResult.failed true
    poll_ret := 1
    events := fun _ => DiagnosticsIpcPollEvents.DS_IPC_POLL_EVENTS_SIGNALED
    accept := fun port => if port = 0 then some 5 else none }

end DsIpc

namespace DsIpc

/-- A round in which every connect attempt times out, the poll reports every handle
signalled, and `ds_ipc_accept` fails on port 0 and returns stream 9 on the other ports. -/
def secondAcceptsRound : PollRound :=
  { connect := fun _ => ConnectResult.failed true
    poll_ret := 2
    events := fun _ => DiagnosticsIpcPollEvents.DS_IPC_POLL_EVENTS_SIGNALED
    accept := fun port => if port = 0 then none else some 9 }

/-- A round in which the poll reports an error on every handle. -/
def errorRound : PollRound :=
  { connect := fun _ => ConnectResult.failed true
    poll_ret := 1
    events := fun _ => DiagnosticsIpcPollEvents.DS_IPC_POLL_EVENTS_ERR
    accept := fun _ => none }

end DsIpc

namespace DsIpc

/-- The ports on which `ds_ipc_accept` was called, in call order. -/
def acceptedPorts : List IpcCall → List Nat
  | [] => []
  | IpcCall.ds_ipc_accept port :: rest => port :: acceptedPorts rest
  | _ :: rest => acceptedPorts rest

/-- Two listen ports on the default address. -/
def twoListenPorts : List DiagnosticsPort :=
  [defaultListenPort DiagnosticsPortSuspendMode.DS_PORT_SUSPEND_MODE_NOSUSPEND,
    defaultListenPort DiagnosticsPortSuspendMode.DS_PORT_SUSPEND_MODE_NOSUSPEND]

end DsIpc

/-! ## Life cycle of one port -/

namespace DsIpc

/-- The operations of a port that are reached through its vtable. -/
inductive PortOp where
  | getPollHandle (r : PollRound)
  | acceptStream (r : PollRound)
  | reset

/-- The globals after one vtable operation on the port at index `port`. -/
def applyPortOp (port : Nat) (f : Factory) : PortOp → Factory
  | PortOp.getPollHandle r => (ds_port_get_ipc_poll_handle_vcall r port f).1
  | PortOp.acceptStream r => (ds_port_get_connected_stream_vcall r port f).1
  | PortOp.reset => ds_port_reset_vcall port f

/-- The cached stream of the port at index `port`. -/
def cachedStreamAt (port : Nat) (f : Factory) : Option Nat :=
  match f._ds_port_array[port]? with
  | some p => p.stream
  | none => none

/-- What has happened to a connect port, kept beside the globals and not read by the code:
whether a `ds_ipc_connect` call has returned a stream since the last reset, whether a
connect followed by a successful advertise send has happened since the last reset or
`acceptStream`, and the streams on which the advertise send has succeeded. -/
structure ConnectHistory where
  connectedSinceReset : Bool
  cachedSince : Bool
  advertised : List Nat
  deriving DecidableEq, Repr

/-- The history after one operation on the port at index `port`, started in the globals
`f`.  A connect is attempted by `getPollHandle` exactly when the cache is empty. -/
def historyStep (port : Nat) (f : Factory) (h : ConnectHistory) : PortOp → ConnectHistory
  | PortOp.getPollHandle r =>
    match cachedStreamAt port f with
    | some _ => h
    | none =>
      match r.connect port with
      | ConnectResult.failed _ => h
      | ConnectResult.connected s advertise_ok =>
        { connectedSinceReset := true
          cachedSince := h.cachedSince || advertise_ok
          advertised := if advertise_ok then s :: h.advertised else h.advertised }
  | PortOp.acceptStream _ => { h with cachedSince := false }
  | PortOp.reset => { h with connectedSinceReset := false, cachedSince := false }

/-- The history of a port fresh from `ds_port_init`. -/
def freshHistory : ConnectHistory :=
  { connectedSinceReset := false, cachedSince := false, advertised := [] }

/-- The globals and the history after a sequence of operations on the port at `port`. -/
def runPortOps (port : Nat) : Factory → ConnectHistory → List PortOp → Factory × ConnectHistory
  | f, h, [] => (f, h)
  | f, h, op :: rest =>
    runPortOps port (applyPortOp port f op) (historyStep port f h op) rest

/-- The cached stream of a connect port after an operation, as the component design
describes it: `getPollHandle` keeps a cached stream and otherwise caches the stream of a
connect whose advertise send succeeded; `acceptStream` and `reset` leave the cache empty. -/
def specCachedStream (port : Nat) (cached : Option Nat) : PortOp → Option Nat
  | PortOp.getPollHandle r =>
    match cached with
    | some s => some s
    | none =>
      match r.connect port with
      | ConnectResult.connected s true => some s
      | _ => none
  | PortOp.acceptStream _ => none
  | PortOp.reset => none

/-- A round in which the connect yields stream 8 but the advertise send fails. -/
def advertiseFailsRound : PollRound :=
  { connect := fun _ => ConnectResult.connected 8 false
    poll_ret := 0
    events := fun _ => DiagnosticsIpcPollEvents.DS_IPC_POLL_EVENTS_NONE
    accept := fun _ => none }

end DsIpc

/-! ## `FinalizerThreadStart`: activations of the worker and exceptions -/

namespace FinalizerThread

/-- How a cycle of the worker ends: it completes, or an exception leaves
`FinalizerThreadWorker` from a pending work item callback (line 267), from the extra work
before the snapshot (line 347), or from `FinalizeAllObjects` (line 353). -/
inductive CycleExit where
  | completes
  | throwsInPendingWork
  | throwsInExtraWork
  | throwsInDrain
  deriving DecidableEq, Repr

/-- The state in which a cycle ends. -/
def cycleEnd (e : CycleEnv) (bPriorityBoosted : Bool) (w : World) : CycleExit → World
  | CycleExit.completes => (workerCycle e bPriorityBoosted w).1
  | CycleExit.throwsInPendingWork => e.beforeDrain (record WorkerStep.waitForFinalizerEvent w)
  | CycleExit.throwsInExtraWork => (cycleUntilSnapshot e bPriorityBoosted w).1
  | CycleExit.throwsInDrain => afterDrain e (cycleUntilSnapshot e bPriorityBoosted w).1

/-- The `while (!fQuitFinalizer)` loop of `FinalizerThreadWorker` when cycles may throw.
The result is the state in which the loop is left and whether it is left by the loop
condition (`true`) or by an exception (`false`); `none` when the cycles are used up while
the loop is still running. -/
def workerRun : List (CycleEnv × CycleExit) → Bool → World → Option (World × Bool)
  | cycles, boosted, w =>
    if w.fQuitFinalizer then some (w, true)
    else match cycles with
      | [] => none
      | (e, CycleExit.completes) :: rest =>
        workerRun rest (workerCycle e boosted w).2 (workerCycle e boosted w).1
      | (e, CycleExit.throwsInPendingWork) :: _ =>
        some (cycleEnd e boosted w CycleExit.throwsInPendingWork, false)
      | (e, CycleExit.throwsInExtraWork) :: _ =>
        some (cycleEnd e boosted w CycleExit.throwsInExtraWork, false)
      | (e, CycleExit.throwsInDrain) :: _ =>
        some (cycleEnd e boosted w CycleExit.throwsInDrain, false)

/-- Lines 362-363 of `FinalizerThreadWorker`, reached only when the loop is left by its
condition. -/
def workerExit : World × Bool → World
  | (w, true) =>
    if w.s_InitializedFinalizerThreadForPlatform then
      record WorkerStep.cleanUpForManagedThreadInNative w
    else w
  | (w, false) => w

/-- Lines 410-411 of `FinalizerThreadStart`: after `KickOff` has returned. -/
def afterKickOff (w : World) : World :=
  if !w.fQuitFinalizer then record WorkerStep.enableFinalization w else w

/-- The `while (!fQuitFinalizer)` loop of `FinalizerThreadStart`: each element of
`activations` holds the cycles of one activation of `FinalizerThreadWorker` by `KickOff`,
which starts with `bPriorityBoosted` false. -/
def kickOffLoop : List (List (CycleEnv × CycleExit)) → World → Option World
  | activations, w =>
    if w.fQuitFinalizer then some w
    else match activations with
      | [] => none
      | cycles :: rest =>
        match workerRun cycles false w with
        | none => none
        | some r => kickOffLoop rest (afterKickOff (workerExit r))

/-- Lines 414-420 of `FinalizerThreadStart`: the exit event is raised and
`hEventFinalizerToShutDown` is set. -/
def finishStart (w : World) : World :=
  record WorkerStep.setFinalizerToShutDown (record WorkerStep.raiseExitProcessEvent w)

/-- `FinalizerThread::FinalizerThreadStart` up to the final parking loop;
`s_FinalizerThreadOK` is the result of `HasStarted`. -/
def FinalizerThreadStart (s_FinalizerThreadOK : Bool)
    (activations : List (List (CycleEnv × CycleExit))) (w : World) : Option World :=
  if s_FinalizerThreadOK then
    match kickOffLoop activations w with
    | none => none
    | some w1 => some (finishStart w1)
  else some w

/-- The rest of `FinalizerThreadStart` from a test of the loop condition of
`FinalizerThreadWorker`: the current activation continues with `cycles` and the local
`bPriorityBoosted`, then the `KickOff` loop continues with `activations`. -/
def threadFrom (cycles : List (CycleEnv × CycleExit)) (bPriorityBoosted : Bool)
    (activations : List (List (CycleEnv × CycleExit))) (w : World) : Option World :=
  match workerRun cycles bPriorityBoosted w with
  | none => none
  | some r =>
    match kickOffLoop activations (afterKickOff (workerExit r)) with
    | none => none
    | some w1 => some (finishStart w1)

/-- The number of invocations of `FinalizeAllObjects` in a record of operations. -/
def drains (steps : List WorkerStep) : Nat := steps.count WorkerStep.finalizeAllObjects

/-- A function of the environment leaves the worker's own records alone (the record of
operations and `s_InitializedFinalizerThreadForPlatform`) and does not clear a quit
request. -/
def keepsWorkerRecords (g : World → World) : Prop :=
  ∀ w, (g w).steps = w.steps ∧
    (g w).s_InitializedFinalizerThreadForPlatform = w.s_InitializedFinalizerThreadForPlatform ∧
    (w.fQuitFinalizer = true → (g w).fQuitFinalizer = true)

/-- The environment of a cycle leaves the worker's own records alone. -/
def CycleEnv.wellBehaved (e : CycleEnv) : Prop :=
  keepsWorkerRecords e.beforeDrain ∧ keepsWorkerRecords e.beforeSnapshot ∧
    keepsWorkerRecords e.duringDrain

/-- A cycle in which nothing happens around the worker and `SetThreadPriority` fails. -/
def envPriorityFails : CycleEnv :=
  { beforeDrain := fun w => w
    setThreadPriorityOk := false
    beforeSnapshot := fun w => w
    duringDrain := fun w => w }

/-- A cycle in which nothing happens around the worker and `SetThreadPriority` succeeds. -/
def envQuiet : CycleEnv :=
  { beforeDrain := fun w => w
    setThreadPriorityOk := true
    beforeSnapshot := fun w => w
    duringDrain := fun w => w }

/-- A cycle in which the worker is asked to quit while it waits for the finalizer event. -/
def envQuitWhileWaiting : CycleEnv :=
  { beforeDrain := fun w => { w with fQuitFinalizer := true }
    setThreadPriorityOk := true
    beforeSnapshot := fun w => w
    duringDrain := fun w => w }

end FinalizerThread

namespace FinalizerThread

/-- The number of calls of `InitializationForManagedThreadInNative` in a record of
operations. -/
def platformInits (steps : List WorkerStep) : Nat :=
  steps.count WorkerStep.initializationForManagedThreadInNative

/-- The number of calls of `SetThreadPriority (THREAD_PRIORITY_HIGHEST)` in a record of
operations. -/
def priorityAttempts (steps : List WorkerStep) : Nat :=
  steps.count WorkerStep.setThreadPriorityHighest

/-- The record of operations holds one platform initialisation when the static flag
`s_InitializedFinalizerThreadForPlatform` is set, and none when it is clear. -/
def initRecorded (w : World) : Prop :=
  platformInits w.steps = if w.s_InitializedFinalizerThreadForPlatform then 1 else 0

end FinalizerThread

/-! ## `WaitForFinalizerEvent` -/

namespace FinalizerThread

/-- The Windows wait codes that `WaitForFinalizerEvent` compares with; their values are
those of the Windows API (`WAIT_FAILED` is `(DWORD)-1`). -/
def WAIT_OBJECT_0 : Nat := 0

def WAIT_ABANDONED : Nat := 128

def WAIT_TIMEOUT : Nat := 258

def WAIT_FAILED : Nat := 4294967295

/-- The macro `LINUX_HEAP_DUMP_TIME_OUT` (line 21). -/
def LINUX_HEAP_DUMP_TIME_OUT : Nat := 10000

/-- `MHandleType`: the indices of `MHandles`.  The enumeration is declared in the header
of the class; the function asserts `kLowMemoryNotification == 0` and `kFinalizer == 1`,
and `kHandleCount` is the number of handles. -/
inductive MHandleType where
  | kLowMemoryNotification
  | kFinalizer
  deriving DecidableEq, Repr

/-- The numeric value of an `MHandleType`. -/
def MHandleType.value : MHandleType → Nat
  | MHandleType.kLowMemoryNotification => 0
  | MHandleType.kFinalizer => 1

def kHandleCount : Nat := 2

/-- The slots of the array `MHandles`, in index order. -/
def MHandles : List MHandleType :=
  [MHandleType.kLowMemoryNotification, MHandleType.kFinalizer]

/-- What the process answers during one pass of the `while (1)` loop of
`WaitForFinalizerEvent`: whether `MHandles[kLowMemoryNotification]` is non-null, the value
of `g_fEEStarted`, the `DWORD` returned by `WaitForMultipleObjectsEx`, the result of the
two-second wait on the event after a low-memory collection, and `g_TriggerHeapDump`. -/
structure WaitPass where
  lowMemoryHandle : Bool
  g_fEEStarted : Bool
  multiWait : Nat
  eventWait : Nat
  g_TriggerHeapDump : Bool
  deriving DecidableEq, Repr

/-- Calls made by `WaitForFinalizerEvent`; a timeout of `none` is `INFINITE`. -/
inductive WaitCall where
  | eventWait (timeout_ms : Nat)
  | waitForMultipleObjectsEx (handles : List MHandleType) (timeout_ms : Option Nat)
  | garbageCollectGen0
  | assertBadReturnCode
  deriving DecidableEq, Repr

/-- The low-memory handle is left out of the wait (line 174). -/
def lowMemoryExcluded (p : WaitPass) : Bool := !p.lowMemoryHandle || !p.g_fEEStarted

/-- `uiEventIndexOffsetForWait` at the call of `WaitForMultipleObjectsEx`. -/
def uiEventIndexOffsetForWait (p : WaitPass) : Nat :=
  if lowMemoryExcluded p then MHandleType.kLowMemoryNotification.value + 1 else 0

/-- `cEventsForWait` at the call of `WaitForMultipleObjectsEx`. -/
def cEventsForWait (p : WaitPass) : Nat :=
  if lowMemoryExcluded p then kHandleCount - 1 else kHandleCount

/-- The handles passed to `WaitForMultipleObjectsEx`: `cEventsForWait` slots of
`MHandles` starting at `uiEventIndexOffsetForWait`. -/
def waitedHandles (p : WaitPass) : List MHandleType :=
  (MHandles.drop (uiEventIndexOffsetForWait p)).take (cEventsForWait p)

/-- The value the `switch` of line 180 dispatches on: the `DWORD` result plus the offset,
in 32-bit unsigned arithmetic. -/
def switchValue (p : WaitPass) : Nat :=
  (p.multiWait + uiEventIndexOffsetForWait p) % 4294967296

/-- The two-second wait on the event returns from the function (lines 137-145, 198-206). -/
def eventWaitReturns (result : Nat) : Bool :=
  decide (result = WAIT_OBJECT_0) || decide (result = WAIT_ABANDONED)

/-- One pass of the `while (1)` loop: the calls made and whether the function returns.
`linuxHeapDump` is the build condition `__linux__ && FEATURE_EVENT_TRACE`. -/
def phase2Pass (linuxHeapDump : Bool) (p : WaitPass) : List WaitCall × Bool :=
  let wait := WaitCall.waitForMultipleObjectsEx (waitedHandles p)
    (if linuxHeapDump then some LINUX_HEAP_DUMP_TIME_OUT else none)
  if switchValue p = WAIT_OBJECT_0 + MHandleType.kLowMemoryNotification.value then
    ([wait, WaitCall.garbageCollectGen0, WaitCall.eventWait 2000], eventWaitReturns p.eventWait)
  else if switchValue p = WAIT_OBJECT_0 + MHandleType.kFinalizer.value then
    ([wait], true)
  else if linuxHeapDump &&
      (decide (switchValue p = WAIT_TIMEOUT + MHandleType.kLowMemoryNotification.value) ||
        decide (switchValue p = WAIT_TIMEOUT + MHandleType.kFinalizer.value)) then
    ([wait], p.g_TriggerHeapDump)
  else
    ([wait, WaitCall.assertBadReturnCode], true)

/-- The `while (1)` loop, one `WaitPass` per pass; `none` when the passes are used up
while the loop is still running. -/
def phase2Loop (linuxHeapDump : Bool) : List WaitPass → Option (List WaitCall)
  | [] => none
  | p :: rest =>
    if (phase2Pass linuxHeapDump p).2 then some (phase2Pass linuxHeapDump p).1
    else
      match phase2Loop linuxHeapDump rest with
      | none => none
      | some calls => some ((phase2Pass linuxHeapDump p).1 ++ calls)

/-- `FinalizerThread::WaitForFinalizerEvent`: the calls made until the function returns;
`phase1` is the result of the first two-second wait on the event. -/
def WaitForFinalizerEvent (linuxHeapDump : Bool) (phase1 : Nat) (passes : List WaitPass) :
    Option (List WaitCall) :=
  if eventWaitReturns phase1 then some [WaitCall.eventWait 2000]
  else
    match phase2Loop linuxHeapDump passes with
    | none => none
    | some calls => some (WaitCall.eventWait 2000 :: calls)

end FinalizerThread

/-! ## `GetNextFinalizableObject` -/

namespace FinalizerThread

/-- `MethodTable`, as far as `GetNextFinalizableObject` reads it: the results of
`HasPreciseInitCctors()`, `GetClass()->IsBeforeFieldInit()` and `IsInitError()`,
and the table returned by `GetParentMethodTable()` (`none` is `NULL`). -/
inductive MethodTable where
  | mk (HasPreciseInitCctors IsBeforeFieldInit IsInitError : Bool)
      (GetParentMethodTable : Option MethodTable)

/-- `MethodTable::HasPreciseInitCctors`. -/
def MethodTable.HasPreciseInitCctors : MethodTable → Bool
  | MethodTable.mk b _ _ _ => b

/-- `GetClass()->IsBeforeFieldInit()` of a method table. -/
def MethodTable.IsBeforeFieldInit : MethodTable → Bool
  | MethodTable.mk _ b _ _ => b

/-- `MethodTable::IsInitError`. -/
def MethodTable.IsInitError : MethodTable → Bool
  | MethodTable.mk _ _ b _ => b

/-- The type chain of a method table: the table itself, then its parents up to
the one whose `GetParentMethodTable()` is `NULL`. -/
def MethodTable.typeChain : MethodTable → List MethodTable
  | MethodTable.mk a b c none => [MethodTable.mk a b c none]
  | MethodTable.mk a b c (some parent) => MethodTable.mk a b c (some parent) :: parent.typeChain

/-- The `do ... while (pMTCur != NULL)` loop of lines 94-105, entered with
`pMTCur`: `true` when it is left through `goto Again`, `false` when it runs off
the end of the parent chain. -/
def preciseInitFailed : MethodTable → Bool
  | MethodTable.mk _ isBeforeFieldInit isInitError parent =>
    if !isBeforeFieldInit && isInitError then true
    else
      match parent with
      | some pMTCur => preciseInitFailed pMTCur
      | none => false

/-- Lines 91-106: the test made on the type of an object whose
`BIT_SBLK_FINALIZER_RUN` is clear; `true` when the object is passed over. -/
def skipsForInitError (pMT : MethodTable) : Bool :=
  pMT.HasPreciseInitCctors && preciseInitFailed pMT

/-- Modelled from the spec: `ObjHeader::ClrBit` is outside the translated file;
the bit is "cleared" in the 32-bit header word, `m_SyncBlockValue &= ~bit`. -/
def ClrBit (bits bit : Nat) : Nat := bits &&& (4294967295 ^^^ bit)

/-- The part of the GC heap that `GetNextFinalizableObject` reads and writes.
An object is identified by its address; `header obj` is the result of
`obj->GetHeader()->GetBits()`, `methodTable obj` that of `obj->GetMethodTable()`.
Modelled from the spec: `GetNextFinalizable` is outside the translated files; it
dequeues the object at the front of the "finalization queue" and returns `NULL`
when the queue is empty. -/
structure GCHeap where
  header : Nat → Nat
  methodTable : Nat → MethodTable
  finalizationQueue : List Nat

/-- The code from the label `Again` to the `return`s of
`GetNextFinalizableObject`.  `quitAt k` is the value of `fQuitFinalizer` read by
execution number `k` of the label (the flag is written by other threads),
`BIT_SBLK_FINALIZER_RUN` the header mask of that name.  The logging, the event
trace and the debug-only `_ASSERTE` do not affect the result and are left out.
Returns the object (`none` is `NULL`), the queue and the headers. -/
def Again (BIT_SBLK_FINALIZER_RUN : Nat) (quitAt : Nat → Bool) (methodTable : Nat → MethodTable) :
    Nat → List Nat → (Nat → Nat) → Option Nat × List Nat × (Nat → Nat)
  | k, queue, header =>
    if quitAt k then (none, queue, header)
    else
      match queue with
      | [] => (none, [], header)
      | obj :: rest =>
        if header obj &&& BIT_SBLK_FINALIZER_RUN ≠ 0 then
          Again BIT_SBLK_FINALIZER_RUN quitAt methodTable (k + 1) rest
            (Function.update header obj (ClrBit (header obj) BIT_SBLK_FINALIZER_RUN))
        else if skipsForInitError (methodTable obj) then
          Again BIT_SBLK_FINALIZER_RUN quitAt methodTable (k + 1) rest header
        else (some obj, rest, header)

/-- `FinalizerThread::GetNextFinalizableObject`: the returned object and the
heap after the call. -/
def GetNextFinalizableObject (BIT_SBLK_FINALIZER_RUN : Nat) (quitAt : Nat → Bool)
    (heap : GCHeap) : Option Nat × GCHeap :=
  let r := Again BIT_SBLK_FINALIZER_RUN quitAt heap.methodTable 0 heap.finalizationQueue
    heap.header
  (r.1, { heap with finalizationQueue := r.2.1, header := r.2.2 })

/-- The value of `BIT_SBLK_FINALIZER_RUN` in the runtime's object header
definitions, `0x40000000`. -/
def finalizerRunBit : Nat := 1073741824

/-- A type without precise-init class constructors. -/
def plainType : MethodTable := MethodTable.mk false true false none

/-- A type with precise-init class constructors whose parent is not
before-field-init and is in the init-error state. -/
def failedParentType : MethodTable :=
  MethodTable.mk true true false (some (MethodTable.mk false false true none))

/-- Four queued objects at addresses 1 to 4: object 1 has `BIT_SBLK_FINALIZER_RUN`
and one more bit set, object 2 has a type whose parent failed its precise
initialisation, objects 3 and 4 are ordinary. -/
def heapFour : GCHeap :=
  { header := fun obj => if obj = 1 then 1073741824 + 5 else 0
    methodTable := fun obj => if obj = 2 then failedParentType else plainType
    finalizationQueue := [1, 2, 3, 4] }

/-- No quit request is ever read. -/
def neverQuit : Nat → Bool := fun _ => false

end FinalizerThread

/-! ## Specification-side notions: conflicting tags -/

namespace DsIpc

open DiagnosticsPortType DiagnosticsPortSuspendMode

/-- A part is one of the two tags that select the port type, ignoring letter case. -/
def isTypeTag (tag : List Char) : Prop :=
  eqIgnoreCase tag "listen".toList ∨ eqIgnoreCase tag "connect".toList

instance (tag : List Char) : Decidable (isTypeTag tag) := by
  unfold isTypeTag; infer_instance

/-- A part is one of the two tags that select the suspend mode, ignoring letter case. -/
def isSuspendTag (tag : List Char) : Prop :=
  eqIgnoreCase tag "suspend".toList ∨ eqIgnoreCase tag "nosuspend".toList

instance (tag : List Char) : Decidable (isSuspendTag tag) := by
  unfold isSuspendTag; infer_instance

/-- The port type that a type tag selects. -/
def typeOfTag (tag : List Char) : DiagnosticsPortType :=
  if eqIgnoreCase tag "listen".toList then DS_PORT_TYPE_LISTEN else DS_PORT_TYPE_CONNECT

/-- The suspend mode that a suspend tag selects. -/
def suspendModeOfTag (tag : List Char) : DiagnosticsPortSuspendMode :=
  if eqIgnoreCase tag "suspend".toList then DS_PORT_SUSPEND_MODE_SUSPEND
  else DS_PORT_SUSPEND_MODE_NOSUSPEND

end DsIpc

/-! ## Concrete inputs: a hang-up -/

namespace DsIpc

/-- A round in which every connect attempt succeeds with stream 7, and the poll reports
a hang-up on the first handle and nothing on the others. -/
def hangupRound : PollRound :=
  { connect := fun _ => ConnectResult.connected 7 true
    poll_ret := 1
    events := fun connection_id =>
      if connection_id = 0 then DiagnosticsIpcPollEvents.DS_IPC_POLL_EVENTS_HANGUP
      else DiagnosticsIpcPollEvents.DS_IPC_POLL_EVENTS_NONE
    accept := fun _ => none }

/-- A connect port followed by the default listen port. -/
def connectAndListenPorts : List DiagnosticsPort :=
  [connectPortAt "/tmp/a" DiagnosticsPortSuspendMode.DS_PORT_SUSPEND_MODE_NOSUSPEND,
    defaultListenPort DiagnosticsPortSuspendMode.DS_PORT_SUSPEND_MODE_NOSUSPEND]

end DsIpc

/-! ## The state in which a pass of the polling loop starts -/

namespace DsIpc

/-- The globals and the value of `poll_timeout_ms` with which the `while (!stream)` loop
of `ds_ipc_stream_factory_get_next_available_stream` starts the pass that follows the
given passes; `none` when the function has returned during one of them. -/
def pollLoopState (c : IpcConsts) (flags : BuildFlags) :
    List PollRound → Factory → Nat → Option (Factory × Nat)
  | [], f, poll_timeout_ms => some (f, poll_timeout_ms)
  | r :: rest, f, poll_timeout_ms =>
    let st := pollRound c r f poll_timeout_ms
    if st.stream.isNone && st.saw_error then none
    else if flags.PERFTRACING_DISABLE_THREADS then none
    else
      match st.stream with
      | some _ => none
      | none => pollLoopState c flags rest st.f st.poll_timeout_ms

end DsIpc

/-! # Theorems: finalizer coordinator -/

namespace FinalizerThread

/-- C2: in a cycle of the worker loop that starts with `fQuitFinalizer` clear, the loop
continues from the state left by `workerCycle`; the value published in
`g_fullGcCountSeenByFinalization` is the `int` conversion of the Gen-MAX collection count in
the state in which `FinalizeAllObjects` is invoked, whatever the drain does to the state;
and `SignalFinalizationDone` stores that value and then sets `hEventFinalizerDone`, as the
last two operations of the cycle. -/
theorem workerCycle_publishes_pre_drain_count (e : CycleEnv) (es : List CycleEnv)
    (bPriorityBoosted : Bool) (w : World) (hq : w.fQuitFinalizer = false) :
    workerLoop (e :: es) bPriorityBoosted w =
      workerLoop es (workerCycle e bPriorityBoosted w).2 (workerCycle e bPriorityBoosted w).1 ∧
    (workerCycle e bPriorityBoosted w).1.g_fullGcCountSeenByFinalization =
      sizeToInt (cycleUntilSnapshot e bPriorityBoosted w).1.collectionCountMaxGen ∧
    ((cycleUntilSnapshot e bPriorityBoosted w).1.collectionCountMaxGen < 2147483648 →
      (workerCycle e bPriorityBoosted w).1.g_fullGcCountSeenByFinalization =
        ((cycleUntilSnapshot e bPriorityBoosted w).1.collectionCountMaxGen : Int)) ∧
    (workerCycle e bPriorityBoosted w).1.hEventFinalizerDone = true ∧
    (workerCycle e bPriorityBoosted w).1.steps =
      (e.duringDrain
          (record WorkerStep.finalizeAllObjects (cycleUntilSnapshot e bPriorityBoosted w).1)).steps ++
        [WorkerStep.storeFullGcCountSeen
            (sizeToInt (cycleUntilSnapshot e bPriorityBoosted w).1.collectionCountMaxGen),
          WorkerStep.setFinalizerDone] := by
  refine ⟨?_, ?_, ?_, ?_, ?_⟩
  · rw [workerLoop]
    simp [hq]
  · simp [workerCycle, SignalFinalizationDone, record]
  · intro hlt
    have h1 : (cycleUntilSnapshot e bPriorityBoosted w).1.collectionCountMaxGen % 4294967296 =
        (cycleUntilSnapshot e bPriorityBoosted w).1.collectionCountMaxGen :=
      Nat.mod_eq_of_lt (by omega)
    simp [workerCycle, SignalFinalizationDone, record, sizeToInt, toSigned, h1, hlt]
  · simp [workerCycle, SignalFinalizationDone, record]
  · simp [workerCycle, SignalFinalizationDone, record, afterDrain]

/-- Witness for C2: from a count of 7, with one full collection before the snapshot and one
during the drain, the worker publishes 8 although the count is 9 afterwards. -/
theorem workerCycle_publishes_pre_drain_count_witness :
    worldSeven.fQuitFinalizer = false ∧
    (workerCycle envRacingGc false worldSeven).1.g_fullGcCountSeenByFinalization = 8 ∧
    (workerCycle envRacingGc false worldSeven).1.collectionCountMaxGen = 9 ∧
    (workerCycle envRacingGc false worldSeven).1.hEventFinalizerDone = true :=
  ⟨rfl,
    (workerCycle_publishes_pre_drain_count envRacingGc [] false worldSeven rfl).2.1.trans
      (by decide),
    by decide,
    (workerCycle_publishes_pre_drain_count envRacingGc [] false worldSeven rfl).2.2.2.1⟩

end FinalizerThread

/-! # Theorems: diagnostic port multiplexer -/

namespace DsIpc

open DiagnosticsPortType DiagnosticsPortSuspendMode DiagnosticsIpcConnectionMode
open DiagnosticsIpcPollEvents

/-! ## Back-off timeout -/

/-- C3: with the constants of the runtime header, `ipc_stream_factory_get_next_timeout`
maps `INFINITE` to `POLL_MIN_MS`, but for the timeout 457 (which the poll loop reaches after
19 failing rounds) it returns 571, which is above `POLL_MAX_MS = 500` and differs from
`min(POLL_MAX_MS, 457 × 1.25) = 500`. -/
theorem ipc_stream_factory_get_next_timeout_exceeds_max :
    ipc_stream_factory_get_next_timeout dsIpcConsts dsIpcConsts.DS_IPC_TIMEOUT_INFINITE =
      dsIpcConsts.DS_IPC_POLL_TIMEOUT_MIN_MS ∧
    (ipc_stream_factory_get_next_timeout dsIpcConsts)^[19] dsIpcConsts.DS_IPC_TIMEOUT_INFINITE
      = 457 ∧
    ipc_stream_factory_get_next_timeout dsIpcConsts 457 = 571 ∧
    dsIpcConsts.DS_IPC_POLL_TIMEOUT_MAX_MS < ipc_stream_factory_get_next_timeout dsIpcConsts 457 ∧
    min dsIpcConsts.DS_IPC_POLL_TIMEOUT_MAX_MS
      (457 * dsIpcConsts.falloffNum / dsIpcConsts.falloffDen) = 500 := by
  refine ⟨by decide, by decide, by decide, by decide, by decide⟩

/-! ## Port builder and configuration parsing -/

/-- The loop over the parts, when the part visited last is `first`: every other part is
applied as a tag in visiting order and `first` becomes the path. -/
theorem applyConfigParts_append_singleton (first : List Char) (tags : List (List Char)) :
    ∀ b : DiagnosticsPortBuilder,
      applyConfigParts (tags ++ [first]) (tags.length + 1) b =
        { tags.foldl ds_port_builder_set_tag b with path := some first } := by
  induction tags with
  | nil => intro b; simp [applyConfigParts]
  | cons t ts ih =>
    intro b
    have h : applyConfigParts ((t :: ts) ++ [first]) ((t :: ts).length + 1) b =
        applyConfigParts (ts ++ [first]) (ts.length + 1) (ds_port_builder_set_tag b t) := by
      simp [applyConfigParts]
    rw [h, ih]
    simp

/-- The builder filled from a non-empty list of parts, in closed form. -/
theorem builderOfParts_cons (first : List Char) (later : List (List Char)) :
    builderOfParts (first :: later) =
      { later.reverse.foldl ds_port_builder_set_tag ds_port_builder_init with
        path := some first } := by
  unfold builderOfParts
  have h : (first :: later).reverse = later.reverse ++ [first] := by simp
  have hl : (first :: later).length = later.reverse.length + 1 := by simp
  rw [h, hl]
  exact applyConfigParts_append_singleton first later.reverse ds_port_builder_init

/-- C5 (as stated, refuted): for the port-config `connect,suspend,/tmp/a` the builder's
address is `connect`, not `/tmp/a`. -/
theorem builderOfParts_last_part_is_not_address :
    (builderOfParts
        (ipc_stream_factory_split_port_config "connect,suspend,/tmp/a".toList [','] [])).path
      = some "connect".toList ∧
    (builderOfParts
        (ipc_stream_factory_split_port_config "connect,suspend,/tmp/a".toList [','] [])).path
      ≠ some "/tmp/a".toList := by
  constructor <;> decide

/-- C5 (amended): the builder filled from the parts of a port-config has the first part as
its path, and its other fields are those of a fresh builder to which every later part has
been applied as a tag, from the last part back to the second. -/
theorem builderOfParts_first_part_is_address (first : List Char) (later : List (List Char)) :
    builderOfParts (first :: later) =
      { later.reverse.foldl ds_port_builder_set_tag ds_port_builder_init with
        path := some first } :=
  builderOfParts_cons first later

/-- The comparison returns `0` exactly for strings that are equal ignoring letter case. -/
theorem compare_ignore_case_eq_zero_iff (a : List Char) :
    ∀ b : List Char, ep_rt_utf8_string_compare_ignore_case a b = 0 ↔ eqIgnoreCase a b := by
  induction a with
  | nil =>
    intro b
    cases b <;> simp [ep_rt_utf8_string_compare_ignore_case, eqIgnoreCase]
  | cons x xs ih =>
    intro b
    cases b with
    | nil => simp [ep_rt_utf8_string_compare_ignore_case, eqIgnoreCase]
    | cons y ys =>
      by_cases h : x.toLower = y.toLower
      · have := ih ys
        simp [ep_rt_utf8_string_compare_ignore_case, eqIgnoreCase, h] at this ⊢
        exact this
      · by_cases h2 : x.toLower < y.toLower <;>
          simp [ep_rt_utf8_string_compare_ignore_case, eqIgnoreCase, h, h2]

/-- C8: a fresh builder has no path, type Connect and suspend mode Suspend; a tag equal,
ignoring letter case, to `listen`, `connect`, `nosuspend` or `suspend` sets the type or the
suspend mode to the corresponding value and changes no other field; any other tag leaves
the builder unchanged. -/
theorem ds_port_builder_set_tag_spec (builder : DiagnosticsPortBuilder) (tag : List Char) :
    ds_port_builder_init =
      { path := none, suspend_mode := DS_PORT_SUSPEND_MODE_SUSPEND, type := DS_PORT_TYPE_CONNECT } ∧
    (eqIgnoreCase tag "listen".toList →
      ds_port_builder_set_tag builder tag = { builder with type := DS_PORT_TYPE_LISTEN }) ∧
    (eqIgnoreCase tag "connect".toList →
      ds_port_builder_set_tag builder tag = { builder with type := DS_PORT_TYPE_CONNECT }) ∧
    (eqIgnoreCase tag "nosuspend".toList →
      ds_port_builder_set_tag builder tag =
        { builder with suspend_mode := DS_PORT_SUSPEND_MODE_NOSUSPEND }) ∧
    (eqIgnoreCase tag "suspend".toList →
      ds_port_builder_set_tag builder tag =
        { builder with suspend_mode := DS_PORT_SUSPEND_MODE_SUSPEND }) ∧
    (¬ eqIgnoreCase tag "listen".toList → ¬ eqIgnoreCase tag "connect".toList →
      ¬ eqIgnoreCase tag "nosuspend".toList → ¬ eqIgnoreCase tag "suspend".toList →
      ds_port_builder_set_tag builder tag = builder) := by
  have hne : ∀ a b : List Char, a.map Char.toLower ≠ b.map Char.toLower →
      eqIgnoreCase tag a → ep_rt_utf8_string_compare_ignore_case tag b ≠ 0 := by
    intro a b hab ha hb
    exact hab (ha.symm.trans ((compare_ignore_case_eq_zero_iff tag b).mp hb))
  have hno : ∀ b : List Char, ¬ eqIgnoreCase tag b →
      ep_rt_utf8_string_compare_ignore_case tag b ≠ 0 :=
    fun b hb h0 => hb ((compare_ignore_case_eq_zero_iff tag b).mp h0)
  refine ⟨rfl, ?_, ?_, ?_, ?_, ?_⟩
  · intro h
    unfold ds_port_builder_set_tag
    rw [if_pos ((compare_ignore_case_eq_zero_iff tag _).mpr h)]
  · intro h
    unfold ds_port_builder_set_tag
    rw [if_neg (hne _ "listen".toList (by decide) h),
      if_pos ((compare_ignore_case_eq_zero_iff tag _).mpr h)]
  · intro h
    unfold ds_port_builder_set_tag
    rw [if_neg (hne _ "listen".toList (by decide) h),
      if_neg (hne _ "connect".toList (by decide) h),
      if_pos ((compare_ignore_case_eq_zero_iff tag _).mpr h)]
  · intro h
    unfold ds_port_builder_set_tag
    rw [if_neg (hne _ "listen".toList (by decide) h),
      if_neg (hne _ "connect".toList (by decide) h),
      if_neg (hne _ "nosuspend".toList (by decide) h),
      if_pos ((compare_ignore_case_eq_zero_iff tag _).mpr h)]
  · intro h1 h2 h3 h4
    unfold ds_port_builder_set_tag
    rw [if_neg (hno _ h1), if_neg (hno _ h2), if_neg (hno _ h3), if_neg (hno _ h4)]

/-- The fold of `ds_ipc_stream_factory_any_suspended_ports` started from `acc`. -/
theorem any_suspended_fold (ports : List DiagnosticsPort) :
    ∀ acc : Bool,
      ports.foldl
          (fun any_suspended_ports port =>
            any_suspended_ports ||
              !(decide (port.suspend_mode = DS_PORT_SUSPEND_MODE_NOSUSPEND) ||
                port.has_resumed_runtime))
          acc = true ↔
        acc = true ∨ ∃ p, p ∈ ports ∧ isSuspendedPort p := by
  induction ports with
  | nil => intro acc; simp
  | cons q qs ih =>
    intro acc
    rw [List.foldl_cons, ih]
    constructor
    · rintro (h | ⟨p, hp, hs⟩)
      · cases hacc : acc
        · right
          refine ⟨q, List.mem_cons_self _ _, ?_⟩
          rw [hacc] at h
          unfold isSuspendedPort
          cases hm : q.suspend_mode <;> cases hr : q.has_resumed_runtime <;>
            simp [hm, hr] at h ⊢
        · left; rfl
      · exact Or.inr ⟨p, List.mem_cons_of_mem _ hp, hs⟩
    · rintro (h | ⟨p, hp, hs⟩)
      · left; simp [h]
      · rcases List.mem_cons.mp hp with rfl | hmem
        · left
          obtain ⟨hm, hr⟩ := hs
          simp [hm, hr]
        · exact Or.inr ⟨p, hmem, hs⟩

/-- C9: `ds_ipc_stream_factory_any_suspended_ports` returns true exactly when some port of
the port array has suspend mode Suspend and has not resumed the runtime; for the empty
port array it returns false. -/
theorem any_suspended_ports_iff (f : Factory) :
    (ds_ipc_stream_factory_any_suspended_ports f = true ↔
      ∃ p, p ∈ f._ds_port_array ∧
        p.suspend_mode = DS_PORT_SUSPEND_MODE_SUSPEND ∧ p.has_resumed_runtime = false) ∧
    (f._ds_port_array = [] → ds_ipc_stream_factory_any_suspended_ports f = false) := by
  constructor
  · unfold ds_ipc_stream_factory_any_suspended_ports
    rw [any_suspended_fold]
    simp [isSuspendedPort]
  · intro h
    simp [ds_ipc_stream_factory_any_suspended_ports, h]

/-- No token produced by the tokenizer is empty. -/
theorem strtokAux_tokens_nonempty (delimiters : List Char) (s : List Char) :
    ∀ cur : List Char, ∀ t, t ∈ strtokAux delimiters s cur → t ≠ [] := by
  induction s with
  | nil =>
    intro cur t ht
    unfold strtokAux at ht
    cases cur with
    | nil => simp at ht
    | cons c cs =>
      simp at ht
      subst ht
      simp
  | cons ch rest ih =>
    intro cur t ht
    unfold strtokAux at ht
    by_cases hd : delimiters.contains ch = true
    · rw [if_pos hd] at ht
      cases cur with
      | nil =>
        simp at ht
        exact ih [] t ht
      | cons c cs =>
        simp at ht
        rcases ht with rfl | ht
        · simp
        · exact ih [] t ht
    · rw [if_neg hd] at ht
      exact ih _ t ht

/-- The port array after `ipc_stream_factory_build_and_add_port` extends the one before by
what the call adds to an empty array, and the result does not depend on the array. -/
theorem build_and_add_port_append (flags : BuildFlags) (env : ConfigEnv)
    (b : DiagnosticsPortBuilder) (d : Bool) (ports : List DiagnosticsPort) :
    (ipc_stream_factory_build_and_add_port flags env b d ports).2 =
      ports ++ (ipc_stream_factory_build_and_add_port flags env b d []).2 ∧
    (ipc_stream_factory_build_and_add_port flags env b d ports).1 =
      (ipc_stream_factory_build_and_add_port flags env b d []).1 := by
  unfold ipc_stream_factory_build_and_add_port
  split
  · simp
  · split <;> (split_ifs <;> simp)

/-- The port array after one port-config extends the one before by `portsOfConfig`. -/
theorem configurePortConfig_append (flags : BuildFlags) (env : ConfigEnv)
    (port_config : List Char) (st : Bool × List DiagnosticsPort) :
    (configurePortConfig flags env port_config st).2 =
      st.2 ++ portsOfConfig flags env port_config := by
  unfold portsOfConfig configurePortConfig
  simp only []
  split_ifs
  · simp
    exact (build_and_add_port_append flags env _ false st.2).1
  · simp
  · simp

/-- The port array after a run of port-configs, visited in list order. -/
theorem configure_foldl_append (flags : BuildFlags) (env : ConfigEnv)
    (configs : List (List Char)) :
    ∀ st : Bool × List DiagnosticsPort,
      (configs.foldl (fun st port_config => configurePortConfig flags env port_config st) st).2 =
        st.2 ++ (configs.map (portsOfConfig flags env)).flatten := by
  induction configs with
  | nil => intro st; simp
  | cons c cs ih =>
    intro st
    rw [List.foldl_cons, ih, configurePortConfig_append]
    simp

/-- C6 (as stated, refuted): for `connect,suspend,/tmp/a;listen,/tmp/b;,/tmp/empty` the port
array is Connect `/tmp/empty`, Connect `listen`, Connect `connect` and the default listen
port: the third port-config is built, no Listen port `/tmp/b` and no port `/tmp/a` exist;
and the port-config `/tmp/b,listen`, whose address is not empty, contributes no port. -/
theorem configure_scenario_builds_other_ports :
    (ds_ipc_stream_factory_configure defaultBuild
        (envWithPorts "connect,suspend,/tmp/a;listen,/tmp/b;,/tmp/empty") []).2 =
      [connectPortAt "/tmp/empty" DS_PORT_SUSPEND_MODE_SUSPEND,
        connectPortAt "listen" DS_PORT_SUSPEND_MODE_SUSPEND,
        connectPortAt "connect" DS_PORT_SUSPEND_MODE_SUSPEND,
        defaultListenPort DS_PORT_SUSPEND_MODE_NOSUSPEND] ∧
    (ds_ipc_stream_factory_configure defaultBuild (envWithPorts "/tmp/b,listen") []).2 =
      [defaultListenPort DS_PORT_SUSPEND_MODE_NOSUSPEND] := by
  constructor <;> decide

/-- C6 (amended): a port-config extends the port array by `portsOfConfig`, which holds at
most one port.  With no parts it adds none.  Otherwise the address is the first part, which
is never empty, and: a builder of type Connect adds exactly one Connect port with that
address and the builder's suspend mode when connect ports are enabled and the transport is
allocated, and none otherwise; a builder of type Listen adds none when the default listen
port is part of the build, and exactly one Listen port when it is not and listen ports are
enabled and the transport is allocated and listens. -/
theorem portsOfConfig_cases (flags : BuildFlags) (env : ConfigEnv) (port_config : List Char) :
    (∀ st, (configurePortConfig flags env port_config st).2 =
      st.2 ++ portsOfConfig flags env port_config) ∧
    (ipc_stream_factory_split_port_config port_config [','] [] = [] →
      portsOfConfig flags env port_config = []) ∧
    (∀ first later, ipc_stream_factory_split_port_config port_config [','] [] = first :: later →
      first ≠ [] ∧
      (builderOfParts (first :: later)).path = some first ∧
      ((builderOfParts (first :: later)).type = DS_PORT_TYPE_CONNECT →
        flags.DS_IPC_DISABLE_CONNECT_PORTS = false →
        env.ds_ipc_alloc_ok (some first) DS_IPC_CONNECTION_MODE_CONNECT = true →
        portsOfConfig flags env port_config =
          [{ type := DS_PORT_TYPE_CONNECT
             suspend_mode := (builderOfParts (first :: later)).suspend_mode
             ipc := some { path := some first, mode := DS_IPC_CONNECTION_MODE_CONNECT }
             stream := none
             has_resumed_runtime := false }]) ∧
      ((builderOfParts (first :: later)).type = DS_PORT_TYPE_CONNECT →
        (flags.DS_IPC_DISABLE_CONNECT_PORTS = true ∨
          env.ds_ipc_alloc_ok (some first) DS_IPC_CONNECTION_MODE_CONNECT = false) →
        portsOfConfig flags env port_config = []) ∧
      ((builderOfParts (first :: later)).type = DS_PORT_TYPE_LISTEN →
        flags.DS_IPC_DISABLE_DEFAULT_LISTEN_PORT = false →
        portsOfConfig flags env port_config = []) ∧
      ((builderOfParts (first :: later)).type = DS_PORT_TYPE_LISTEN →
        flags.DS_IPC_DISABLE_DEFAULT_LISTEN_PORT = true →
        flags.DS_IPC_DISABLE_LISTEN_PORTS = false →
        env.ds_ipc_alloc_ok (some first) DS_IPC_CONNECTION_MODE_LISTEN = true →
        env.ds_ipc_listen_ok { path := some first, mode := DS_IPC_CONNECTION_MODE_LISTEN } = true →
        portsOfConfig flags env port_config =
          [{ type := DS_PORT_TYPE_LISTEN
             suspend_mode := (builderOfParts (first :: later)).suspend_mode
             ipc := some { path := some first, mode := DS_IPC_CONNECTION_MODE_LISTEN }
             stream := none
             has_resumed_runtime := false }])) := by
  refine ⟨fun st => configurePortConfig_append flags env port_config st, ?_, ?_⟩
  · intro h
    simp [portsOfConfig, configurePortConfig, h]
  · intro first later hparts
    have hpath : (builderOfParts (first :: later)).path = some first := by
      rw [builderOfParts_cons]
    have hne : first ≠ [] := by
      apply strtokAux_tokens_nonempty [','] port_config [] first
      have : first ∈ ipc_stream_factory_split_port_config port_config [','] [] := by
        rw [hparts]; exact List.mem_cons_self _ _
      simpa [ipc_stream_factory_split_port_config] using this
    have hempty : ep_rt_utf8_string_is_null_or_empty (builderOfParts (first :: later)).path
        = false := by
      rw [hpath]
      cases first with
      | nil => exact absurd rfl hne
      | cons c cs => rfl
    have hcfg : portsOfConfig flags env port_config =
        (ipc_stream_factory_build_and_add_port flags env (builderOfParts (first :: later))
          false []).2 := by
      simp [portsOfConfig, configurePortConfig, hparts, hempty]
    refine ⟨hne, hpath, ?_, ?_, ?_, ?_⟩
    · intro ht hf ha
      rw [hcfg]
      simp [ipc_stream_factory_build_and_add_port, ht, hf, hpath, ha, ds_port_init]
    · intro ht hor
      rw [hcfg]
      rcases hor with hf | ha
      · simp [ipc_stream_factory_build_and_add_port, ht, hf]
      · simp [ipc_stream_factory_build_and_add_port, ht, hpath, ha]
    · intro ht hf
      rw [hcfg]
      simp [ipc_stream_factory_build_and_add_port, ht, hf]
    · intro ht hf hl ha hli
      rw [hcfg]
      simp [ipc_stream_factory_build_and_add_port, ht, hf, hl, hpath, ha, hli, ds_port_init]

/-- C7 (as stated, refuted): for `/tmp/a;/tmp/b` the port of `/tmp/b` comes before the port
of `/tmp/a` in the port array. -/
theorem configure_ports_not_in_string_order :
    (ds_ipc_stream_factory_configure defaultBuild (envWithPorts "/tmp/a;/tmp/b") []).2 =
      [connectPortAt "/tmp/b" DS_PORT_SUSPEND_MODE_SUSPEND,
        connectPortAt "/tmp/a" DS_PORT_SUSPEND_MODE_SUSPEND,
        defaultListenPort DS_PORT_SUSPEND_MODE_NOSUSPEND] ∧
    (ds_ipc_stream_factory_configure defaultBuild (envWithPorts "/tmp/a;/tmp/b") []).2 ≠
      [connectPortAt "/tmp/a" DS_PORT_SUSPEND_MODE_SUSPEND,
        connectPortAt "/tmp/b" DS_PORT_SUSPEND_MODE_SUSPEND,
        defaultListenPort DS_PORT_SUSPEND_MODE_NOSUSPEND] := by
  constructor <;> decide

/-- C7 (amended): the ports built from the configuration string follow the ports already in
the array in the reverse of the order of their port-configs in the string, and the default
listen port, when it is part of the build and is built, is the last element. -/
theorem configure_ports_in_reverse_string_order (flags : BuildFlags) (env : ConfigEnv)
    (ports0 : List DiagnosticsPort) (ports : List Char)
    (hports : env.ds_rt_config_value_get_ports = some ports) :
    (configureFromString flags env ports0).2 =
      ports0 ++
        ((ipc_stream_factory_split_port_config ports [';'] []).reverse.map
          (portsOfConfig flags env)).flatten ∧
    (flags.DS_IPC_DISABLE_DEFAULT_LISTEN_PORT = true →
      (ds_ipc_stream_factory_configure flags env ports0).2 =
        (configureFromString flags env ports0).2) ∧
    (flags.DS_IPC_DISABLE_DEFAULT_LISTEN_PORT = false →
      (ipc_stream_factory_build_and_add_port flags env (defaultPortBuilder env) true
        (configureFromString flags env ports0).2).1 = true →
      (ds_ipc_stream_factory_configure flags env ports0).2 =
        (configureFromString flags env ports0).2 ++
          [ds_port_init { path := none, mode := DS_IPC_CONNECTION_MODE_LISTEN }
            (defaultPortBuilder env)]) := by
  refine ⟨?_, ?_, ?_⟩
  · unfold configureFromString
    rw [hports]
    exact configure_foldl_append flags env _ (true, ports0)
  · intro hf
    simp [ds_ipc_stream_factory_configure, hf]
  · intro hf hb
    have h2 : (ds_ipc_stream_factory_configure flags env ports0).2 =
        (ipc_stream_factory_build_and_add_port flags env (defaultPortBuilder env) true
          (configureFromString flags env ports0).2).2 := by
      simp [ds_ipc_stream_factory_configure, hf]
    rw [h2]
    revert hb
    unfold ipc_stream_factory_build_and_add_port
    simp only [hf, defaultPortBuilder]
    simp
    split_ifs <;> simp

/-- Witness for C7 (amended): `/tmp/a;/tmp/b` gives Connect `/tmp/b`, Connect `/tmp/a`, then
the default listen port. -/
theorem configure_ports_in_reverse_string_order_witness :
    (envWithPorts "/tmp/a;/tmp/b").ds_rt_config_value_get_ports = some "/tmp/a;/tmp/b".toList ∧
    (configureFromString defaultBuild (envWithPorts "/tmp/a;/tmp/b") []).2 =
      [connectPortAt "/tmp/b" DS_PORT_SUSPEND_MODE_SUSPEND,
        connectPortAt "/tmp/a" DS_PORT_SUSPEND_MODE_SUSPEND] ∧
    (ds_ipc_stream_factory_configure defaultBuild (envWithPorts "/tmp/a;/tmp/b") []).2 =
      (configureFromString defaultBuild (envWithPorts "/tmp/a;/tmp/b") []).2 ++
        [defaultListenPort DS_PORT_SUSPEND_MODE_NOSUSPEND] :=
  ⟨rfl,
    (configure_ports_in_reverse_string_order defaultBuild (envWithPorts "/tmp/a;/tmp/b") []
      "/tmp/a;/tmp/b".toList rfl).1.trans (by decide),
    (configure_ports_in_reverse_string_order defaultBuild (envWithPorts "/tmp/a;/tmp/b") []
      "/tmp/a;/tmp/b".toList rfl).2.2 rfl (by decide)⟩

/-! ## Port array updates -/

theorem updatePort_length (g : DiagnosticsPort → DiagnosticsPort) (ps : List DiagnosticsPort) :
    ∀ i, (updatePort g i ps).length = ps.length := by
  induction ps with
  | nil => intro i; simp [updatePort]
  | cons p ps ih =>
    intro i
    cases i with
    | zero => simp [updatePort]
    | succ i => simp [updatePort, ih]

theorem updatePort_getElem?_ne (g : DiagnosticsPort → DiagnosticsPort)
    (ps : List DiagnosticsPort) :
    ∀ i j, i ≠ j → (updatePort g i ps)[j]? = ps[j]? := by
  induction ps with
  | nil => intro i j _; simp [updatePort]
  | cons p ps ih =>
    intro i j hij
    cases i with
    | zero =>
      cases j with
      | zero => exact absurd rfl hij
      | succ j => simp [updatePort]
    | succ i =>
      cases j with
      | zero => simp [updatePort]
      | succ j =>
        simp only [updatePort, List.getElem?_cons_succ]
        exact ih i j (by omega)

theorem updatePort_getElem?_eq (g : DiagnosticsPort → DiagnosticsPort)
    (ps : List DiagnosticsPort) :
    ∀ i, (updatePort g i ps)[i]? = ps[i]?.map g := by
  induction ps with
  | nil => intro i; simp [updatePort]
  | cons p ps ih =>
    intro i
    cases i with
    | zero => simp [updatePort]
    | succ i =>
      simp only [updatePort, List.getElem?_cons_succ]
      exact ih i

/-- Updating a port by a function that keeps `key` keeps the keys of the whole array. -/
theorem updatePort_map_key {κ : Type} (key : DiagnosticsPort → κ)
    (g : DiagnosticsPort → DiagnosticsPort) (hg : ∀ p, key (g p) = key p)
    (ps : List DiagnosticsPort) :
    ∀ i, (updatePort g i ps).map key = ps.map key := by
  induction ps with
  | nil => intro i; simp [updatePort]
  | cons p ps ih =>
    intro i
    cases i with
    | zero => simp [updatePort, hg]
    | succ i => simp [updatePort, ih]

theorem timeoutsUsed_append (a b : List IpcCall) :
    timeoutsUsed (a ++ b) = timeoutsUsed a ++ timeoutsUsed b := by
  induction a with
  | nil => simp [timeoutsUsed]
  | cons x xs ih => cases x <;> simp [timeoutsUsed, ih]

/-! ## Polling keeps the suspend bookkeeping of every port -/

/-- `ds_port_get_ipc_poll_handle_vcall` changes at most cached streams. -/
theorem get_ipc_poll_handle_vcall_key {κ : Type} (key : DiagnosticsPort → κ)
    (hkey : ∀ p s, key { p with stream := s } = key p)
    (r : PollRound) (port : Nat) (f : Factory) :
    (ds_port_get_ipc_poll_handle_vcall r port f).1._ds_port_array.map key =
      f._ds_port_array.map key := by
  unfold ds_port_get_ipc_poll_handle_vcall
  split
  · rfl
  · rename_i p _
    split
    · rfl
    · unfold connect_port_get_ipc_poll_handle_func
      split
      · split
        · rfl
        · split
          · rfl
          · exact updatePort_map_key key _ (fun q => hkey q _) _ _
      · rfl

theorem get_connected_stream_vcall_key {κ : Type} (key : DiagnosticsPort → κ)
    (hkey : ∀ p s, key { p with stream := s } = key p)
    (r : PollRound) (port : Nat) (f : Factory) :
    (ds_port_get_connected_stream_vcall r port f).1._ds_port_array.map key =
      f._ds_port_array.map key := by
  unfold ds_port_get_connected_stream_vcall
  split
  · rfl
  · split
    · rfl
    · exact updatePort_map_key key _ (fun q => hkey q _) _ _

theorem reset_vcall_key {κ : Type} (key : DiagnosticsPort → κ)
    (hkey : ∀ p s, key { p with stream := s } = key p) (port : Nat) (f : Factory) :
    (ds_port_reset_vcall port f)._ds_port_array.map key = f._ds_port_array.map key := by
  unfold ds_port_reset_vcall
  split
  · rfl
  · split
    · rfl
    · exact updatePort_map_key key _ (fun q => hkey q _) _ _

theorem gatherPollHandles_key {κ : Type} (key : DiagnosticsPort → κ)
    (hkey : ∀ p s, key { p with stream := s } = key p) (r : PollRound) (idxs : List Nat) :
    ∀ (f : Factory) (hs : List DiagnosticsIpcPollHandle) (ok : Bool),
      (gatherPollHandles r idxs f hs ok).1._ds_port_array.map key = f._ds_port_array.map key := by
  induction idxs with
  | nil => intro f hs ok; rfl
  | cons i rest ih =>
    intro f hs ok
    unfold gatherPollHandles
    have h1 := get_ipc_poll_handle_vcall_key key hkey r i f
    split
    · rename_i f1 h heq
      rw [ih]
      rw [heq] at h1
      exact h1
    · rename_i f1 heq
      rw [ih]
      rw [heq] at h1
      exact h1

theorem handlePollEvent_key {κ : Type} (key : DiagnosticsPort → κ)
    (hkey : ∀ p s, key { p with stream := s } = key p) (c : IpcConsts) (r : PollRound)
    (h : DiagnosticsIpcPollHandle) (ev : DiagnosticsIpcPollEvents) (st : PollState) :
    (handlePollEvent c r h ev st).f._ds_port_array.map key = st.f._ds_port_array.map key := by
  unfold handlePollEvent
  cases ev
  · rfl
  · simp only
    split
    · exact get_connected_stream_vcall_key key hkey r _ _
    · rfl
  · exact reset_vcall_key key hkey _ _
  · exact reset_vcall_key key hkey _ _
  · exact reset_vcall_key key hkey _ _

theorem handlePollEvents_key {κ : Type} (key : DiagnosticsPort → κ)
    (hkey : ∀ p s, key { p with stream := s } = key p) (c : IpcConsts) (r : PollRound)
    (hs : List DiagnosticsIpcPollHandle) :
    ∀ (n : Nat) (st : PollState),
      (handlePollEvents c r hs n st).f._ds_port_array.map key = st.f._ds_port_array.map key := by
  induction hs with
  | nil => intro n st; rfl
  | cons h rest ih =>
    intro n st
    unfold handlePollEvents
    rw [ih, handlePollEvent_key key hkey]

theorem pollOrSleep_key {κ : Type} (key : DiagnosticsPort → κ)
    (hkey : ∀ p s, key { p with stream := s } = key p) (c : IpcConsts) (r : PollRound)
    (f : Factory) (t : Nat) :
    (pollOrSleep c r f t).1.f._ds_port_array.map key = f._ds_port_array.map key := by
  have h := gatherPollHandles_key key hkey r (List.range f._ds_port_array.length) f [] true
  unfold pollOrSleep
  simp only
  split <;> exact h

theorem pollRound_key {κ : Type} (key : DiagnosticsPort → κ)
    (hkey : ∀ p s, key { p with stream := s } = key p) (c : IpcConsts) (r : PollRound)
    (f : Factory) (t : Nat) :
    (pollRound c r f t).f._ds_port_array.map key = f._ds_port_array.map key := by
  unfold pollRound
  simp only
  split
  · rw [handlePollEvents_key key hkey, pollOrSleep_key key hkey]
  · exact pollOrSleep_key key hkey c r f t

theorem pollLoop_key {κ : Type} (key : DiagnosticsPort → κ)
    (hkey : ∀ p s, key { p with stream := s } = key p) (c : IpcConsts) (flags : BuildFlags)
    (rounds : List PollRound) :
    ∀ (f : Factory) (t : Nat),
      (pollLoop c flags rounds f t).1._ds_port_array.map key = f._ds_port_array.map key := by
  induction rounds with
  | nil => intro f t; rfl
  | cons r rest ih =>
    intro f t
    have h := pollRound_key key hkey c r f t
    unfold pollLoop
    simp only
    split
    · exact h
    · split
      · exact h
      · split
        · exact h
        · rw [ih]; exact h

/-! ## Resume flags only ever get set -/

theorem resumeMonotone_refl (ps : List DiagnosticsPort) : resumeMonotone ps ps := by
  refine ⟨rfl, ?_⟩
  intro i p p' h1 h2
  rw [h1] at h2
  cases h2
  exact ⟨rfl, fun h => h⟩

theorem resumeMonotone_trans {ps ps' ps'' : List DiagnosticsPort}
    (h1 : resumeMonotone ps ps') (h2 : resumeMonotone ps' ps'') : resumeMonotone ps ps'' := by
  refine ⟨h2.1.trans h1.1, ?_⟩
  intro i p p'' hp hp''
  have hi : i < ps.length := (List.getElem?_eq_some_iff.mp hp).1
  have hi' : i < ps'.length := by rw [h1.1]; exact hi
  have hq : ps'[i]? = some (ps'[i]) := List.getElem?_eq_getElem hi'
  obtain ⟨a1, a2⟩ := h1.2 i p _ hp hq
  obtain ⟨b1, b2⟩ := h2.2 i _ p'' hq hp''
  exact ⟨b1.trans a1, fun h => b2 (a2 h)⟩

theorem resumeMonotone_of_key {ps ps' : List DiagnosticsPort}
    (h : ps'.map suspendKey = ps.map suspendKey) : resumeMonotone ps ps' := by
  have hlen : ps'.length = ps.length := by
    have := congrArg List.length h
    simpa using this
  refine ⟨hlen, ?_⟩
  intro i p p' hp hp'
  have h1 : (ps'.map suspendKey)[i]? = (ps.map suspendKey)[i]? := by rw [h]
  rw [List.getElem?_map, List.getElem?_map, hp, hp'] at h1
  simp [suspendKey] at h1
  exact ⟨h1.1, fun hr => by rw [h1.2]; exact hr⟩

theorem resumeMonotone_updatePort (ps : List DiagnosticsPort) (i : Nat) :
    resumeMonotone ps (updatePort (fun q => { q with has_resumed_runtime := true }) i ps) := by
  refine ⟨updatePort_length _ _ _, ?_⟩
  intro j p p' hp hp'
  by_cases hij : i = j
  · subst hij
    rw [updatePort_getElem?_eq, hp] at hp'
    simp at hp'
    subst hp'
    exact ⟨rfl, fun _ => rfl⟩
  · rw [updatePort_getElem?_ne _ _ _ _ hij, hp] at hp'
    cases hp'
    exact ⟨rfl, fun h => h⟩

theorem closeEachPort_ports (is_shutdown : Bool) (ps : List DiagnosticsPort) :
    ∀ (n : Nat) (f : Factory),
      (closeEachPort is_shutdown ps n f)._ds_port_array = f._ds_port_array ∧
      (closeEachPort is_shutdown ps n f)._ds_current_port = f._ds_current_port ∧
      (closeEachPort is_shutdown ps n f)._ds_shutting_down_state = f._ds_shutting_down_state := by
  induction ps with
  | nil => intro n f; exact ⟨rfl, rfl, rfl⟩
  | cons p rest ih =>
    intro n f
    unfold closeEachPort
    obtain ⟨h1, h2, h3⟩ := ih (n + 1) (ds_port_close n p is_shutdown f)
    rw [h1, h2, h3]
    unfold ds_port_close
    simp only
    split <;> split_ifs <;> simp [Factory.call]

/-- Every operation of the factory keeps the suspend modes and never clears a resume flag. -/
theorem applyOp_resumeMonotone (c : IpcConsts) (flags : BuildFlags) (f : Factory)
    (op : FactoryOp) : resumeMonotone f._ds_port_array (applyOp c flags f op)._ds_port_array := by
  cases op with
  | get_next_available_stream rounds =>
    apply resumeMonotone_of_key
    exact pollLoop_key suspendKey (fun _ _ => rfl) c flags rounds f _
  | resume_current_port =>
    simp only [applyOp, ds_ipc_stream_factory_resume_current_port]
    split
    · exact resumeMonotone_updatePort _ _
    · exact resumeMonotone_refl _
  | any_suspended_ports => exact resumeMonotone_refl _
  | has_active_ports => exact resumeMonotone_refl _
  | close_ports =>
    simp only [applyOp, ds_ipc_stream_factory_close_ports]
    rw [(closeEachPort_ports false _ 0 f).1]
    exact resumeMonotone_refl _
  | shutdown =>
    simp only [applyOp, ds_ipc_stream_factory_shutdown]
    split
    · exact resumeMonotone_refl _
    · simp only
      rw [(closeEachPort_ports true _ 0 _).1]
      exact resumeMonotone_refl _

theorem applyOps_resumeMonotone (c : IpcConsts) (flags : BuildFlags) (ops : List FactoryOp) :
    ∀ f : Factory, resumeMonotone f._ds_port_array (applyOps c flags f ops)._ds_port_array := by
  induction ops with
  | nil => intro f; exact resumeMonotone_refl _
  | cons op rest ih =>
    intro f
    have h1 := applyOp_resumeMonotone c flags f op
    have h2 := ih (applyOp c flags f op)
    exact resumeMonotone_trans h1 h2

theorem applyOps_append (c : IpcConsts) (flags : BuildFlags) (f : Factory)
    (a b : List FactoryOp) :
    applyOps c flags f (a ++ b) = applyOps c flags (applyOps c flags f a) b := by
  simp [applyOps, List.foldl_append]

theorem applyOps_cons (c : IpcConsts) (flags : BuildFlags) (f : Factory)
    (op : FactoryOp) (rest : List FactoryOp) :
    applyOps c flags f (op :: rest) = applyOps c flags (applyOp c flags f op) rest := by
  simp [applyOps]

/-- C10: if, for every port with suspend mode Suspend, `resume_current_port` is called at
some point of the operation sequence while that port is the current port, then
`any_suspended_ports` returns false after the sequence and after every continuation of it.
`resume_current_port` does nothing when the current port is null and otherwise sets
`has_resumed_runtime` of the current port; no operation clears a resume flag that is set. -/
theorem any_suspended_ports_false_once_all_resumed (c : IpcConsts) (flags : BuildFlags)
    (f : Factory) (ops later : List FactoryOp)
    (hres : ∀ i p, f._ds_port_array[i]? = some p →
      p.suspend_mode = DS_PORT_SUSPEND_MODE_SUSPEND →
      ∃ pre post, ops = pre ++ FactoryOp.resume_current_port :: post ∧
        (applyOps c flags f pre)._ds_current_port = some i) :
    ds_ipc_stream_factory_any_suspended_ports (applyOps c flags f (ops ++ later)) = false ∧
    (∀ g : Factory, g._ds_current_port = none →
      ds_ipc_stream_factory_resume_current_port g = g) ∧
    (∀ (g : Factory) (i : Nat) (p : DiagnosticsPort), g._ds_current_port = some i →
      g._ds_port_array[i]? = some p →
      (ds_ipc_stream_factory_resume_current_port g)._ds_port_array[i]? =
        some { p with has_resumed_runtime := true }) ∧
    (∀ (g : Factory) (op : FactoryOp) (i : Nat) (p : DiagnosticsPort),
      g._ds_port_array[i]? = some p → p.has_resumed_runtime = true →
      ∃ p', (applyOp c flags g op)._ds_port_array[i]? = some p' ∧
        p'.has_resumed_runtime = true ∧ p'.suspend_mode = p.suspend_mode) := by
  refine ⟨?_, ?_, ?_, ?_⟩
  · cases hany : ds_ipc_stream_factory_any_suspended_ports (applyOps c flags f (ops ++ later))
    · rfl
    · exfalso
      unfold ds_ipc_stream_factory_any_suspended_ports at hany
      rw [any_suspended_fold] at hany
      rcases hany with h | ⟨q, hq, hmode, hnot⟩
      · cases h
      · obtain ⟨i, hi, hget⟩ := List.getElem_of_mem hq
        have hq' : (applyOps c flags f (ops ++ later))._ds_port_array[i]? = some q := by
          rw [List.getElem?_eq_getElem hi, hget]
        have hmono := applyOps_resumeMonotone c flags (ops ++ later) f
        have hi0 : i < f._ds_port_array.length := by rw [← hmono.1]; exact hi
        have hp0 : f._ds_port_array[i]? = some (f._ds_port_array[i]) :=
          List.getElem?_eq_getElem hi0
        have hmode0 : (f._ds_port_array[i]).suspend_mode = DS_PORT_SUSPEND_MODE_SUSPEND := by
          rw [← (hmono.2 i _ q hp0 hq').1]; exact hmode
        obtain ⟨pre, post, hops, hcur⟩ := hres i _ hp0 hmode0
        -- the state in which the port is resumed
        have hpre := applyOps_resumeMonotone c flags pre f
        have hi1 : i < (applyOps c flags f pre)._ds_port_array.length := by
          rw [hpre.1]; exact hi0
        have hp1 : (applyOps c flags f pre)._ds_port_array[i]? =
            some ((applyOps c flags f pre)._ds_port_array[i]) := List.getElem?_eq_getElem hi1
        have hsplit : applyOps c flags f (ops ++ later) =
            applyOps c flags
              (ds_ipc_stream_factory_resume_current_port (applyOps c flags f pre))
              (post ++ later) := by
          rw [hops, List.append_assoc, applyOps_append, List.cons_append, applyOps_cons]
          rfl
        have hres1 : (ds_ipc_stream_factory_resume_current_port
            (applyOps c flags f pre))._ds_port_array[i]? =
              some { (applyOps c flags f pre)._ds_port_array[i] with
                has_resumed_runtime := true } := by
          unfold ds_ipc_stream_factory_resume_current_port
          rw [hcur]
          simp only
          rw [updatePort_getElem?_eq, hp1]
          rfl
        have hpost := applyOps_resumeMonotone c flags (post ++ later)
          (ds_ipc_stream_factory_resume_current_port (applyOps c flags f pre))
        rw [← hsplit] at hpost
        have := (hpost.2 i _ q hres1 hq').2 rfl
        rw [hnot] at this
        cases this
  · intro g hg
    simp [ds_ipc_stream_factory_resume_current_port, hg]
  · intro g i p hg hp
    unfold ds_ipc_stream_factory_resume_current_port
    rw [hg]
    simp only
    rw [updatePort_getElem?_eq, hp]
    rfl
  · intro g op i p hp hr
    have hmono := applyOp_resumeMonotone c flags g op
    have hi : i < g._ds_port_array.length := (List.getElem?_eq_some_iff.mp hp).1
    have hi' : i < (applyOp c flags g op)._ds_port_array.length := by rw [hmono.1]; exact hi
    refine ⟨_, List.getElem?_eq_getElem hi', ?_, ?_⟩
    · exact (hmono.2 i p _ hp (List.getElem?_eq_getElem hi')).2 hr
    · exact (hmono.2 i p _ hp (List.getElem?_eq_getElem hi')).1

/-- Witness for C10: one Suspend connect port; a stream is yielded from it, which makes it
the current port, and `resume_current_port` is called; afterwards, also after a later
poll and a shutdown, no port is suspended. -/
theorem any_suspended_ports_false_once_all_resumed_witness :
    ds_ipc_stream_factory_any_suspended_ports
      (factoryWith [connectPortAt "/tmp/a" DS_PORT_SUSPEND_MODE_SUSPEND]) = true ∧
    ds_ipc_stream_factory_any_suspended_ports
      (applyOps dsIpcConsts defaultBuild
        (factoryWith [connectPortAt "/tmp/a" DS_PORT_SUSPEND_MODE_SUSPEND])
        ([FactoryOp.get_next_available_stream [signalledRound], FactoryOp.resume_current_port] ++
          [FactoryOp.get_next_available_stream [failingRound], FactoryOp.shutdown])) = false :=
  ⟨by decide,
    (any_suspended_ports_false_once_all_resumed dsIpcConsts defaultBuild
      (factoryWith [connectPortAt "/tmp/a" DS_PORT_SUSPEND_MODE_SUSPEND])
      [FactoryOp.get_next_available_stream [signalledRound], FactoryOp.resume_current_port]
      [FactoryOp.get_next_available_stream [failingRound], FactoryOp.shutdown]
      (by
        intro i p hp _
        cases i with
        | zero =>
          exact ⟨[FactoryOp.get_next_available_stream [signalledRound]], [], rfl, by decide⟩
        | succ i => simp [factoryWith] at hp)).1⟩

/-! ## Back-off while a connect port keeps failing -/

/-- Asking any port for its poll handle leaves a connect port whose connect attempts fail
as it is, makes no poll or sleep call, and yields no handle for that port. -/
theorem get_ipc_poll_handle_vcall_failing (r : PollRound) (port i0 : Nat) (f : Factory)
    (p : DiagnosticsPort) (hport : f._ds_port_array[i0]? = some p)
    (htype : p.type = DS_PORT_TYPE_CONNECT) (hstream : p.stream = none)
    (hfail : connectFails (r.connect i0) = true) :
    (ds_port_get_ipc_poll_handle_vcall r port f).1._ds_port_array[i0]? = some p ∧
    (ds_port_get_ipc_poll_handle_vcall r port f).1._ds_port_array.length =
      f._ds_port_array.length ∧
    timeoutsUsed (ds_port_get_ipc_poll_handle_vcall r port f).1.calls = timeoutsUsed f.calls ∧
    (port = i0 → (ds_port_get_ipc_poll_handle_vcall r port f).2 = none) := by
  unfold ds_port_get_ipc_poll_handle_vcall
  split
  · exact ⟨hport, rfl, rfl, fun _ => rfl⟩
  · rename_i q hq
    split
    · rename_i hqt
      refine ⟨hport, rfl, rfl, ?_⟩
      intro h
      subst h
      rw [hport] at hq
      cases hq
      rw [htype] at hqt
      cases hqt
    · unfold connect_port_get_ipc_poll_handle_func
      split
      · split
        · refine ⟨hport, rfl, ?_, fun _ => rfl⟩
          simp [Factory.call, timeoutsUsed_append, timeoutsUsed]
        · rename_i connection advertise_ok hconn
          split
          · refine ⟨hport, rfl, ?_, fun _ => rfl⟩
            simp [Factory.call, timeoutsUsed_append, timeoutsUsed]
          · rename_i hadv
            have hne : port ≠ i0 := by
              intro h
              subst h
              rw [hconn] at hfail
              simp [connectFails] at hfail
              simp [hfail] at hadv
            refine ⟨?_, ?_, ?_, fun h => absurd h hne⟩
            · simp only [Factory.call]
              rw [updatePort_getElem?_ne _ _ _ _ hne]
              exact hport
            · simp only [Factory.call]
              exact updatePort_length _ _ _
            · simp [Factory.call, timeoutsUsed_append, timeoutsUsed]
      · rename_i cached hc
        refine ⟨hport, rfl, rfl, ?_⟩
        intro h
        subst h
        rw [hport] at hq
        cases hq
        rw [hstream] at hc
        cases hc

theorem gatherPollHandles_failing (r : PollRound) (i0 : Nat) (p : DiagnosticsPort)
    (htype : p.type = DS_PORT_TYPE_CONNECT) (hstream : p.stream = none)
    (hfail : connectFails (r.connect i0) = true) (idxs : List Nat) :
    ∀ (f : Factory) (hs : List DiagnosticsIpcPollHandle) (ok : Bool),
      f._ds_port_array[i0]? = some p →
      (gatherPollHandles r idxs f hs ok).1._ds_port_array[i0]? = some p ∧
      (gatherPollHandles r idxs f hs ok).1._ds_port_array.length = f._ds_port_array.length ∧
      timeoutsUsed (gatherPollHandles r idxs f hs ok).1.calls = timeoutsUsed f.calls ∧
      (i0 ∈ idxs → (gatherPollHandles r idxs f hs ok).2.2 = false) ∧
      (ok = false → (gatherPollHandles r idxs f hs ok).2.2 = false) := by
  induction idxs with
  | nil =>
    intro f hs ok hport
    exact ⟨hport, rfl, rfl, fun h => absurd h (List.not_mem_nil _), fun h => h⟩
  | cons i rest ih =>
    intro f hs ok hport
    obtain ⟨h1, h2, h3, h4⟩ := get_ipc_poll_handle_vcall_failing r i i0 f p hport htype hstream hfail
    unfold gatherPollHandles
    split
    · rename_i f1 h heq
      rw [heq] at h1 h2 h3 h4
      obtain ⟨a1, a2, a3, a4, a5⟩ := ih f1 (hs ++ [h]) ok h1
      refine ⟨a1, a2.trans h2, a3.trans h3, ?_, a5⟩
      intro hmem
      rcases List.mem_cons.mp hmem with hi | hi
      · have := h4 hi.symm
        simp at this
      · exact a4 hi
    · rename_i f1 heq
      rw [heq] at h1 h2 h3
      obtain ⟨a1, a2, a3, _, a5⟩ := ih f1 hs false h1
      exact ⟨a1, a2.trans h2, a3.trans h3, fun _ => a5 rfl, fun _ => a5 rfl⟩

theorem handlePollEvents_none (c : IpcConsts) (r : PollRound)
    (hnone : ∀ j, r.events j = DS_IPC_POLL_EVENTS_NONE) (hs : List DiagnosticsIpcPollHandle) :
    ∀ (n : Nat) (st : PollState), handlePollEvents c r hs n st = st := by
  induction hs with
  | nil => intro n st; rfl
  | cons h rest ih =>
    intro n st
    unfold handlePollEvents
    rw [hnone n]
    simp only [handlePollEvent]
    exact ih (n + 1) st

/-- One pass of the loop while a connect port fails and the poll reports nothing: no stream,
no error, the timeout variable and the timeout used are both the next timeout. -/
theorem pollRound_failing (c : IpcConsts) (r : PollRound) (f : Factory) (t i0 : Nat)
    (p : DiagnosticsPort) (hinf : ∀ t, ipc_stream_factory_get_next_timeout c t ≠
      c.DS_IPC_TIMEOUT_INFINITE)
    (hport : f._ds_port_array[i0]? = some p)
    (htype : p.type = DS_PORT_TYPE_CONNECT) (hstream : p.stream = none)
    (hfail : connectFails (r.connect i0) = true)
    (hquiet : r.poll_ret = 0 ∨ ∀ j, r.events j = DS_IPC_POLL_EVENTS_NONE) :
    (pollRound c r f t).stream = none ∧
    (pollRound c r f t).saw_error = false ∧
    (pollRound c r f t).poll_timeout_ms = ipc_stream_factory_get_next_timeout c t ∧
    (pollRound c r f t).f._ds_port_array[i0]? = some p ∧
    timeoutsUsed (pollRound c r f t).f.calls =
      timeoutsUsed f.calls ++ [ipc_stream_factory_get_next_timeout c t] := by
  have hi0 : i0 ∈ List.range f._ds_port_array.length :=
    List.mem_range.mpr (List.getElem?_eq_some_iff.mp hport).1
  obtain ⟨g1, _, g3, g4, _⟩ := gatherPollHandles_failing r i0 p htype hstream hfail
    (List.range f._ds_port_array.length) f [] true hport
  have g4' := g4 hi0
  have hpos : (pollOrSleep c r f t).1.stream = none ∧
      (pollOrSleep c r f t).1.saw_error = false ∧
      (pollOrSleep c r f t).1.poll_timeout_ms = ipc_stream_factory_get_next_timeout c t ∧
      (pollOrSleep c r f t).1.f._ds_port_array[i0]? = some p ∧
      timeoutsUsed (pollOrSleep c r f t).1.f.calls =
        timeoutsUsed f.calls ++ [ipc_stream_factory_get_next_timeout c t] ∧
      ((pollOrSleep c r f t).2.2 ≠ 0 → (pollOrSleep c r f t).2.2 = r.poll_ret) := by
    unfold pollOrSleep
    generalize gatherPollHandles r (List.range f._ds_port_array.length) f [] true = g at g1 g3 g4'
    obtain ⟨f1, hs, cs⟩ := g
    simp only at g1 g3 g4'
    subst g4'
    simp only
    split
    · refine ⟨rfl, rfl, by simp, g1, ?_, fun _ => rfl⟩
      simp [Factory.call, timeoutsUsed_append, timeoutsUsed, g3]
    · refine ⟨rfl, rfl, ?_, g1, ?_, fun h => absurd rfl h⟩
      · simp [hinf t]
      · simp [Factory.call, timeoutsUsed_append, timeoutsUsed, g3, hinf t]
  obtain ⟨p1, p2, p3, p4, p5, p6⟩ := hpos
  unfold pollRound
  simp only
  split
  · rename_i hne
    rcases hquiet with h0 | hnone
    · rw [p6 hne] at hne
      exact absurd h0 hne
    · rw [handlePollEvents_none c r hnone]
      exact ⟨p1, p2, p3, p4, p5⟩
  · exact ⟨p1, p2, p3, p4, p5⟩

theorem pollLoop_failing (c : IpcConsts) (flags : BuildFlags) (i0 : Nat) (p : DiagnosticsPort)
    (hthreads : flags.PERFTRACING_DISABLE_THREADS = false)
    (hinf : ∀ t, ipc_stream_factory_get_next_timeout c t ≠ c.DS_IPC_TIMEOUT_INFINITE)
    (htype : p.type = DS_PORT_TYPE_CONNECT) (hstream : p.stream = none)
    (rounds : List PollRound) :
    ∀ (f : Factory) (t : Nat), f._ds_port_array[i0]? = some p →
      (∀ r, r ∈ rounds → connectFails (r.connect i0) = true) →
      (∀ r, r ∈ rounds → r.poll_ret = 0 ∨ ∀ j, r.events j = DS_IPC_POLL_EVENTS_NONE) →
      (pollLoop c flags rounds f t).2 = none ∧
      timeoutsUsed (pollLoop c flags rounds f t).1.calls =
        timeoutsUsed f.calls ++
          (List.range rounds.length).map
            (fun j => (ipc_stream_factory_get_next_timeout c)^[j + 1] t) := by
  induction rounds with
  | nil =>
    intro f t _ _ _
    simp [pollLoop]
  | cons r rest ih =>
    intro f t hport hfail hquiet
    obtain ⟨q1, q2, q3, q4, q5⟩ := pollRound_failing c r f t i0 p hinf hport htype hstream
      (hfail r (List.mem_cons_self _ _)) (hquiet r (List.mem_cons_self _ _))
    obtain ⟨a1, a2⟩ := ih (pollRound c r f t).f (pollRound c r f t).poll_timeout_ms q4
      (fun r' h => hfail r' (List.mem_cons_of_mem _ h))
      (fun r' h => hquiet r' (List.mem_cons_of_mem _ h))
    unfold pollLoop
    simp only [q1, q2, hthreads]
    simp only [Option.isNone_none, Bool.and_false, Bool.false_eq_true, if_false]
    refine ⟨a1, ?_⟩
    rw [a2, q5, q3, List.length_cons, List.range_succ_eq_map, List.map_cons, List.map_map,
      List.append_assoc]
    rfl

/-- With the constants of the runtime header the next timeout is never `INFINITE`. -/
theorem dsIpcConsts_next_ne_infinite (t : Nat) :
    ipc_stream_factory_get_next_timeout dsIpcConsts t ≠ dsIpcConsts.DS_IPC_TIMEOUT_INFINITE := by
  unfold ipc_stream_factory_get_next_timeout scaleTimeout dsIpcConsts
  simp only
  split_ifs with h1 h2
  · omega
  · omega
  · have hlt : t * 5 / 4 < 4294967296 := by omega
    rw [Nat.mod_eq_of_lt hlt]
    omega

/-- C4 (as stated, refuted): with the constants of the runtime header and one connect port
that cannot connect, the timeouts of the first four rounds are 10, 12, 15, 18, whereas
`min(POLL_MAX_MS, POLL_MIN_MS × FALLOFF^3)` is `625/32`, which is above 19. -/
theorem backoff_fourth_timeout_differs_from_spec :
    timeoutsUsed (ds_ipc_stream_factory_get_next_available_stream dsIpcConsts defaultBuild
      (List.replicate 4 failingRound)
      (factoryWith [connectPortAt "/tmp/a" DS_PORT_SUSPEND_MODE_SUSPEND])).1.calls =
        [10, 12, 15, 18] ∧
    specBackoffTimeout dsIpcConsts 4 = 625 / 32 ∧
    (18 : ℚ) ≠ specBackoffTimeout dsIpcConsts 4 ∧
    (19 : ℚ) ≤ specBackoffTimeout dsIpcConsts 4 := by
  refine ⟨by decide, ?_, ?_, ?_⟩ <;> norm_num [specBackoffTimeout, dsIpcConsts]

/-- C4 (amended): while a connect port without a cached stream fails to connect in every
round and the poll reports no event, `ds_ipc_stream_factory_get_next_available_stream`
does not return, and the timeout used in round `k` is the `k`-fold application of
`ipc_stream_factory_get_next_timeout` to `INFINITE`.  That sequence starts at
`POLL_MIN_MS`; a timeout below `POLL_MAX_MS` whose product with the fall-off factor does
not exceed `POLL_MAX_MS` is followed by that product truncated to an integer; a timeout
that has reached `POLL_MAX_MS` is followed by `POLL_MAX_MS`. -/
theorem backoff_timeouts_while_connect_fails (c : IpcConsts) (flags : BuildFlags)
    (rounds : List PollRound) (f : Factory) (i0 : Nat) (p : DiagnosticsPort)
    (hthreads : flags.PERFTRACING_DISABLE_THREADS = false)
    (hmax : c.DS_IPC_POLL_TIMEOUT_MAX_MS < 4294967296)
    (hinf : ∀ t, ipc_stream_factory_get_next_timeout c t ≠ c.DS_IPC_TIMEOUT_INFINITE)
    (hport : f._ds_port_array[i0]? = some p)
    (htype : p.type = DS_PORT_TYPE_CONNECT) (hstream : p.stream = none)
    (hfail : ∀ r, r ∈ rounds → connectFails (r.connect i0) = true)
    (hquiet : ∀ r, r ∈ rounds → r.poll_ret = 0 ∨ ∀ j, r.events j = DS_IPC_POLL_EVENTS_NONE) :
    (ds_ipc_stream_factory_get_next_available_stream c flags rounds f).2 = none ∧
    timeoutsUsed (ds_ipc_stream_factory_get_next_available_stream c flags rounds f).1.calls =
      timeoutsUsed f.calls ++
        (List.range rounds.length).map
          (fun j => (ipc_stream_factory_get_next_timeout c)^[j + 1] c.DS_IPC_TIMEOUT_INFINITE) ∧
    (ipc_stream_factory_get_next_timeout c)^[1] c.DS_IPC_TIMEOUT_INFINITE =
      c.DS_IPC_POLL_TIMEOUT_MIN_MS ∧
    (∀ k, 1 ≤ k →
      (ipc_stream_factory_get_next_timeout c)^[k] c.DS_IPC_TIMEOUT_INFINITE <
        c.DS_IPC_POLL_TIMEOUT_MAX_MS →
      (ipc_stream_factory_get_next_timeout c)^[k] c.DS_IPC_TIMEOUT_INFINITE * c.falloffNum /
        c.falloffDen ≤ c.DS_IPC_POLL_TIMEOUT_MAX_MS →
      (ipc_stream_factory_get_next_timeout c)^[k + 1] c.DS_IPC_TIMEOUT_INFINITE =
        (ipc_stream_factory_get_next_timeout c)^[k] c.DS_IPC_TIMEOUT_INFINITE * c.falloffNum /
          c.falloffDen) ∧
    (∀ k, 1 ≤ k →
      c.DS_IPC_POLL_TIMEOUT_MAX_MS ≤
        (ipc_stream_factory_get_next_timeout c)^[k] c.DS_IPC_TIMEOUT_INFINITE →
      (ipc_stream_factory_get_next_timeout c)^[k + 1] c.DS_IPC_TIMEOUT_INFINITE =
        c.DS_IPC_POLL_TIMEOUT_MAX_MS) := by
  have hloop := pollLoop_failing c flags i0 p hthreads hinf htype hstream rounds f
    c.DS_IPC_TIMEOUT_INFINITE hport hfail hquiet
  have hk : ∀ k, 1 ≤ k →
      (ipc_stream_factory_get_next_timeout c)^[k] c.DS_IPC_TIMEOUT_INFINITE ≠
        c.DS_IPC_TIMEOUT_INFINITE := by
    intro k hk1
    obtain ⟨m, rfl⟩ : ∃ m, k = m + 1 := ⟨k - 1, by omega⟩
    rw [Function.iterate_succ_apply']
    exact hinf _
  refine ⟨hloop.1, hloop.2, ?_, ?_, ?_⟩
  · simp [ipc_stream_factory_get_next_timeout]
  · intro k hk1 hlt hle
    rw [Function.iterate_succ_apply']
    have hne := hk k hk1
    generalize (ipc_stream_factory_get_next_timeout c)^[k] c.DS_IPC_TIMEOUT_INFINITE = t
      at hlt hle hne
    rw [ipc_stream_factory_get_next_timeout, if_neg hne, if_neg (by omega), scaleTimeout]
    exact Nat.mod_eq_of_lt (by omega)
  · intro k hk1 hge
    rw [Function.iterate_succ_apply']
    have hne := hk k hk1
    generalize (ipc_stream_factory_get_next_timeout c)^[k] c.DS_IPC_TIMEOUT_INFINITE = t
      at hge hne
    rw [ipc_stream_factory_get_next_timeout, if_neg hne, if_pos hge]

/-- Witness for C4 (amended): with the constants of the runtime header and one connect port
that cannot connect, four rounds use the timeouts 10, 12, 15 and 18 and the function is
still polling. -/
theorem backoff_timeouts_while_connect_fails_witness :
    defaultBuild.PERFTRACING_DISABLE_THREADS = false ∧
    (factoryWith [connectPortAt "/tmp/a" DS_PORT_SUSPEND_MODE_SUSPEND])._ds_port_array[0]? =
      some (connectPortAt "/tmp/a" DS_PORT_SUSPEND_MODE_SUSPEND) ∧
    (ds_ipc_stream_factory_get_next_available_stream dsIpcConsts defaultBuild
      (List.replicate 4 failingRound)
      (factoryWith [connectPortAt "/tmp/a" DS_PORT_SUSPEND_MODE_SUSPEND])).2 = none ∧
    timeoutsUsed (ds_ipc_stream_factory_get_next_available_stream dsIpcConsts defaultBuild
      (List.replicate 4 failingRound)
      (factoryWith [connectPortAt "/tmp/a" DS_PORT_SUSPEND_MODE_SUSPEND])).1.calls =
        [10, 12, 15, 18] :=
  ⟨rfl, rfl,
    (backoff_timeouts_while_connect_fails dsIpcConsts defaultBuild
      (List.replicate 4 failingRound)
      (factoryWith [connectPortAt "/tmp/a" DS_PORT_SUSPEND_MODE_SUSPEND]) 0
      (connectPortAt "/tmp/a" DS_PORT_SUSPEND_MODE_SUSPEND) rfl (by decide)
      dsIpcConsts_next_ne_infinite rfl rfl rfl
      (fun r hr => by rw [List.eq_of_mem_replicate hr]; rfl)
      (fun r hr => by rw [List.eq_of_mem_replicate hr]; exact Or.inl rfl)).1,
    (backoff_timeouts_while_connect_fails dsIpcConsts defaultBuild
      (List.replicate 4 failingRound)
      (factoryWith [connectPortAt "/tmp/a" DS_PORT_SUSPEND_MODE_SUSPEND]) 0
      (connectPortAt "/tmp/a" DS_PORT_SUSPEND_MODE_SUSPEND) rfl (by decide)
      dsIpcConsts_next_ne_infinite rfl rfl rfl
      (fun r hr => by rw [List.eq_of_mem_replicate hr]; rfl)
      (fun r hr => by rw [List.eq_of_mem_replicate hr]; exact Or.inl rfl)).2.1.trans
      (by decide)⟩

/-! ## Shutdown -/

/-- The close loop calls `ds_port_close` once for every port, in index order. -/
theorem closeEachPort_eq_foldl (is_shutdown : Bool) (ps : List DiagnosticsPort) :
    ∀ (k : Nat) (f : Factory),
      closeEachPort is_shutdown ps k f =
        (ps.enumFrom k).foldl (fun g ip => ds_port_close ip.1 ip.2 is_shutdown g) f := by
  induction ps with
  | nil => intro k f; rfl
  | cons p rest ih =>
    intro k f
    unfold closeEachPort
    rw [ih]
    rfl

/-- In shutdown mode the close loop makes exactly one `ds_ipc_close` call per port that has
a transport, and no other call. -/
theorem closeEachPort_shutdown_calls (ps : List DiagnosticsPort)
    (hipc : ∀ p, p ∈ ps → p.ipc.isSome = true) :
    ∀ (k : Nat) (f : Factory),
      (closeEachPort true ps k f).calls =
        f.calls ++ (List.range' k ps.length).map (fun i => IpcCall.ds_ipc_close i true) := by
  induction ps with
  | nil => intro k f; simp [closeEachPort]
  | cons p rest ih =>
    intro k f
    unfold closeEachPort
    rw [ih (fun q hq => hipc q (List.mem_cons_of_mem _ hq))]
    have hp := hipc p (List.mem_cons_self _ _)
    have hc : (ds_port_close k p true f).calls = f.calls ++ [IpcCall.ds_ipc_close k true] := by
      unfold ds_port_close
      simp only [hp, if_true]
      split <;> simp [Factory.call]
    rw [hc, List.length_cons, List.range'_succ, List.map_cons, List.append_assoc]
    rfl

/-- Once the shutdown flag is set, further shutdown calls return true and change nothing. -/
theorem shutdownTimes_of_shutting_down (n : Nat) :
    ∀ f : Factory, f._ds_shutting_down_state = true →
      shutdownTimes n f = (f, List.replicate n true) := by
  induction n with
  | zero => intro f _; rfl
  | succ n ih =>
    intro f hf
    have h1 : ds_ipc_stream_factory_shutdown f = (f, true) := by
      simp [ds_ipc_stream_factory_shutdown, hf]
    unfold shutdownTimes
    rw [h1]
    simp only
    rw [ih f hf]
    rfl

/-- C11: starting with the shutdown flag clear, after `n ≥ 1` consecutive calls of
`ds_ipc_stream_factory_shutdown` every call has returned true; the state is the one left by
the first call, which runs `ds_port_close (port, true)` once per port in index order; the
calls made in total are exactly one `ds_ipc_close (ipc, true)` per port and nothing else (in
particular no cached stream is closed); the current port is null, the flag is set and the
port array is unchanged. -/
theorem shutdown_closes_each_port_once (f : Factory) (n : Nat) (hn : 1 ≤ n)
    (hstart : f._ds_shutting_down_state = false)
    (hipc : ∀ p, p ∈ f._ds_port_array → p.ipc.isSome = true) :
    (shutdownTimes n f).2 = List.replicate n true ∧
    (shutdownTimes n f).1 = (ds_ipc_stream_factory_shutdown f).1 ∧
    (ds_ipc_stream_factory_shutdown f).1 =
      { (f._ds_port_array.enumFrom 0).foldl (fun g ip => ds_port_close ip.1 ip.2 true g)
          { f with _ds_shutting_down_state := true } with _ds_current_port := none } ∧
    (shutdownTimes n f).1.calls =
      f.calls ++ (List.range f._ds_port_array.length).map (fun i => IpcCall.ds_ipc_close i true) ∧
    (shutdownTimes n f).1._ds_current_port = none ∧
    (shutdownTimes n f).1._ds_shutting_down_state = true ∧
    (shutdownTimes n f).1._ds_port_array = f._ds_port_array := by
  obtain ⟨m, rfl⟩ : ∃ m, n = m + 1 := ⟨n - 1, by omega⟩
  have hfirst : ds_ipc_stream_factory_shutdown f =
      ({ closeEachPort true f._ds_port_array 0 { f with _ds_shutting_down_state := true } with
          _ds_current_port := none }, true) := by
    simp [ds_ipc_stream_factory_shutdown, hstart]
  obtain ⟨c1, _, c3⟩ := closeEachPort_ports true f._ds_port_array 0
    { f with _ds_shutting_down_state := true }
  have hflag : (ds_ipc_stream_factory_shutdown f).1._ds_shutting_down_state = true := by
    rw [hfirst]; exact c3
  have hrest := shutdownTimes_of_shutting_down m _ hflag
  have hall : shutdownTimes (m + 1) f =
      ((ds_ipc_stream_factory_shutdown f).1, List.replicate (m + 1) true) := by
    unfold shutdownTimes
    rw [hrest, hfirst]
    rfl
  rw [hall]
  refine ⟨rfl, rfl, ?_, ?_, ?_, hflag, ?_⟩
  · rw [hfirst, closeEachPort_eq_foldl]
  · rw [hfirst]
    simp only
    rw [closeEachPort_shutdown_calls _ hipc, List.range_eq_range']
  · rw [hfirst]
  · rw [hfirst]; exact c1

/-- Witness for C11: three ports, one of them with a cached stream; three shutdown calls
return true and make the three transport close calls and nothing else. -/
theorem shutdown_closes_each_port_once_witness :
    (1 : Nat) ≤ 3 ∧ (factoryWith threePorts)._ds_shutting_down_state = false ∧
    (shutdownTimes 3 (factoryWith threePorts)).2 = [true, true, true] ∧
    (shutdownTimes 3 (factoryWith threePorts)).1.calls =
      [IpcCall.ds_ipc_close 0 true, IpcCall.ds_ipc_close 1 true, IpcCall.ds_ipc_close 2 true] ∧
    (shutdownTimes 3 (factoryWith threePorts)).1._ds_current_port = none :=
  ⟨by decide, rfl,
    (shutdown_closes_each_port_once (factoryWith threePorts) 3 (by decide) rfl
      (by decide)).1,
    (shutdown_closes_each_port_once (factoryWith threePorts) 3 (by decide) rfl
      (by decide)).2.2.2.1,
    (shutdown_closes_each_port_once (factoryWith threePorts) 3 (by decide) rfl
      (by decide)).2.2.2.2.1⟩

/-! ## Polling does not read the shutdown flag -/

theorem get_ipc_poll_handle_vcall_withShuttingDown (b : Bool) (r : PollRound) (port : Nat)
    (f : Factory) :
    ds_port_get_ipc_poll_handle_vcall r port (withShuttingDown b f) =
      (withShuttingDown b (ds_port_get_ipc_poll_handle_vcall r port f).1,
        (ds_port_get_ipc_poll_handle_vcall r port f).2) := by
  unfold ds_port_get_ipc_poll_handle_vcall
  simp only [withShuttingDown]
  split
  · rfl
  · split
    · rfl
    · unfold connect_port_get_ipc_poll_handle_func
      split
      · split
        · rfl
        · split <;> rfl
      · rfl

theorem get_connected_stream_vcall_withShuttingDown (b : Bool) (r : PollRound) (port : Nat)
    (f : Factory) :
    ds_port_get_connected_stream_vcall r port (withShuttingDown b f) =
      (withShuttingDown b (ds_port_get_connected_stream_vcall r port f).1,
        (ds_port_get_connected_stream_vcall r port f).2) := by
  unfold ds_port_get_connected_stream_vcall
  simp only [withShuttingDown]
  split
  · rfl
  · split <;> rfl

theorem reset_vcall_withShuttingDown (b : Bool) (port : Nat) (f : Factory) :
    ds_port_reset_vcall port (withShuttingDown b f) =
      withShuttingDown b (ds_port_reset_vcall port f) := by
  unfold ds_port_reset_vcall
  simp only [withShuttingDown]
  split
  · rfl
  · split <;> rfl

theorem gatherPollHandles_withShuttingDown (b : Bool) (r : PollRound) (idxs : List Nat) :
    ∀ (f : Factory) (hs : List DiagnosticsIpcPollHandle) (ok : Bool),
      gatherPollHandles r idxs (withShuttingDown b f) hs ok =
        (withShuttingDown b (gatherPollHandles r idxs f hs ok).1,
          (gatherPollHandles r idxs f hs ok).2) := by
  induction idxs with
  | nil => intro f hs ok; rfl
  | cons i rest ih =>
    intro f hs ok
    unfold gatherPollHandles
    rw [get_ipc_poll_handle_vcall_withShuttingDown]
    generalize ds_port_get_ipc_poll_handle_vcall r i f = res
    obtain ⟨f1, oh⟩ := res
    cases oh with
    | none => exact ih f1 hs false
    | some h => exact ih f1 (hs ++ [h]) ok

/-- The poll state with the shutdown flag of its globals set to `b`. -/
theorem handlePollEvent_withShuttingDown (b : Bool) (c : IpcConsts) (r : PollRound)
    (h : DiagnosticsIpcPollHandle) (ev : DiagnosticsIpcPollEvents) (st : PollState) :
    handlePollEvent c r h ev { st with f := withShuttingDown b st.f } =
      { handlePollEvent c r h ev st with
        f := withShuttingDown b (handlePollEvent c r h ev st).f } := by
  unfold handlePollEvent
  cases ev
  · rfl
  · simp only
    split
    · simp only [get_connected_stream_vcall_withShuttingDown]
      rfl
    · rfl
  · simp only [reset_vcall_withShuttingDown]
  · simp only [reset_vcall_withShuttingDown]
  · simp only [reset_vcall_withShuttingDown]

theorem handlePollEvents_withShuttingDown (b : Bool) (c : IpcConsts) (r : PollRound)
    (hs : List DiagnosticsIpcPollHandle) :
    ∀ (n : Nat) (st : PollState),
      handlePollEvents c r hs n { st with f := withShuttingDown b st.f } =
        { handlePollEvents c r hs n st with
          f := withShuttingDown b (handlePollEvents c r hs n st).f } := by
  induction hs with
  | nil => intro n st; rfl
  | cons h rest ih =>
    intro n st
    unfold handlePollEvents
    rw [handlePollEvent_withShuttingDown]
    have := ih (n + 1) (handlePollEvent c r h (r.events n) st)
    exact this

theorem pollOrSleep_withShuttingDown (b : Bool) (c : IpcConsts) (r : PollRound) (f : Factory)
    (t : Nat) :
    pollOrSleep c r (withShuttingDown b f) t =
      ({ (pollOrSleep c r f t).1 with f := withShuttingDown b (pollOrSleep c r f t).1.f },
        (pollOrSleep c r f t).2) := by
  unfold pollOrSleep
  have hlen : (withShuttingDown b f)._ds_port_array.length = f._ds_port_array.length := rfl
  rw [hlen, gatherPollHandles_withShuttingDown]
  generalize gatherPollHandles r (List.range f._ds_port_array.length) f [] true = g
  obtain ⟨f1, hs, cs⟩ := g
  simp only
  split <;> rfl

theorem pollRound_withShuttingDown (b : Bool) (c : IpcConsts) (r : PollRound) (f : Factory)
    (t : Nat) :
    pollRound c r (withShuttingDown b f) t =
      { pollRound c r f t with f := withShuttingDown b (pollRound c r f t).f } := by
  unfold pollRound
  simp only [pollOrSleep_withShuttingDown]
  split
  · exact handlePollEvents_withShuttingDown b c r _ 0 _
  · rfl

theorem pollLoop_withShuttingDown (b : Bool) (c : IpcConsts) (flags : BuildFlags)
    (rounds : List PollRound) :
    ∀ (f : Factory) (t : Nat),
      pollLoop c flags rounds (withShuttingDown b f) t =
        (withShuttingDown b (pollLoop c flags rounds f t).1, (pollLoop c flags rounds f t).2) := by
  induction rounds with
  | nil => intro f t; rfl
  | cons r rest ih =>
    intro f t
    unfold pollLoop
    simp only [pollRound_withShuttingDown]
    split
    · rfl
    · split
      · rfl
      · split
        · rfl
        · exact ih _ _

theorem withShuttingDown_self (f : Factory) :
    withShuttingDown f._ds_shutting_down_state f = f := rfl

/-- Polling leaves the shutdown flag as it is. -/
theorem pollLoop_shutting_down (c : IpcConsts) (flags : BuildFlags) (rounds : List PollRound)
    (f : Factory) (t : Nat) :
    (pollLoop c flags rounds f t).1._ds_shutting_down_state = f._ds_shutting_down_state := by
  have h := pollLoop_withShuttingDown f._ds_shutting_down_state c flags rounds f t
  rw [withShuttingDown_self] at h
  have h2 := congrArg (fun x => x.1._ds_shutting_down_state) h
  simp only [withShuttingDown] at h2
  exact h2

/-- No operation of the factory clears the shutdown flag. -/
theorem applyOp_shutting_down (c : IpcConsts) (flags : BuildFlags) (f : Factory)
    (op : FactoryOp) (hf : f._ds_shutting_down_state = true) :
    (applyOp c flags f op)._ds_shutting_down_state = true := by
  cases op with
  | get_next_available_stream rounds =>
    simp only [applyOp, ds_ipc_stream_factory_get_next_available_stream]
    rw [pollLoop_shutting_down]
    exact hf
  | resume_current_port =>
    simp only [applyOp, ds_ipc_stream_factory_resume_current_port]
    split <;> exact hf
  | any_suspended_ports => exact hf
  | has_active_ports => exact hf
  | close_ports =>
    simp only [applyOp, ds_ipc_stream_factory_close_ports]
    rw [(closeEachPort_ports false _ 0 f).2.2]
    exact hf
  | shutdown =>
    simp only [applyOp, ds_ipc_stream_factory_shutdown, hf, if_true]

theorem applyOps_shutting_down (c : IpcConsts) (flags : BuildFlags) (ops : List FactoryOp) :
    ∀ f : Factory, f._ds_shutting_down_state = true →
      (applyOps c flags f ops)._ds_shutting_down_state = true := by
  induction ops with
  | nil => intro f hf; exact hf
  | cons op rest ih =>
    intro f hf
    rw [applyOps_cons]
    exact ih _ (applyOp_shutting_down c flags f op hf)

/-- C12 (as stated, refuted): after `ds_ipc_stream_factory_shutdown` the flag is set, and a
call of `ds_ipc_stream_factory_get_next_available_stream` in which the listen port is
signalled and `ds_ipc_accept` yields stream 5 returns stream 5. -/
theorem get_next_available_stream_after_shutdown_yields :
    (ds_ipc_stream_factory_shutdown
      (factoryWith [defaultListenPort DS_PORT_SUSPEND_MODE_NOSUSPEND])).1._ds_shutting_down_state
        = true ∧
    (ds_ipc_stream_factory_get_next_available_stream dsIpcConsts defaultBuild [acceptingRound]
      (ds_ipc_stream_factory_shutdown
        (factoryWith [defaultListenPort DS_PORT_SUSPEND_MODE_NOSUSPEND])).1).2 = some (some 5) := by
  constructor <;> decide

/-- C12 (amended): once the shutdown flag is set it stays set under every sequence of
factory operations and `ds_ipc_stream_factory_has_active_ports` returns false; and
`ds_ipc_stream_factory_get_next_available_stream` does not read the flag: with the flag
forced to any value it returns the same result and leaves the same globals up to the flag. -/
theorem shutting_down_gates_has_active_ports_only (c : IpcConsts) (flags : BuildFlags)
    (f : Factory) (ops : List FactoryOp) (hf : f._ds_shutting_down_state = true) :
    (applyOps c flags f ops)._ds_shutting_down_state = true ∧
    ds_ipc_stream_factory_has_active_ports (applyOps c flags f ops) = false ∧
    (∀ (b : Bool) (rounds : List PollRound) (g : Factory),
      ds_ipc_stream_factory_get_next_available_stream c flags rounds (withShuttingDown b g) =
        (withShuttingDown b
            (ds_ipc_stream_factory_get_next_available_stream c flags rounds g).1,
          (ds_ipc_stream_factory_get_next_available_stream c flags rounds g).2)) := by
  have h := applyOps_shutting_down c flags ops f hf
  refine ⟨h, ?_, ?_⟩
  · simp [ds_ipc_stream_factory_has_active_ports, h]
  · intro b rounds g
    exact pollLoop_withShuttingDown b c flags rounds g _

/-- Witness for C12 (amended): after a shutdown, a poll that yields stream 5 and a resume,
the flag is still set and there are no active ports. -/
theorem shutting_down_gates_has_active_ports_only_witness :
    (ds_ipc_stream_factory_shutdown
      (factoryWith [defaultListenPort DS_PORT_SUSPEND_MODE_NOSUSPEND])).1._ds_shutting_down_state
        = true ∧
    ds_ipc_stream_factory_has_active_ports
      (applyOps dsIpcConsts defaultBuild
        (ds_ipc_stream_factory_shutdown
          (factoryWith [defaultListenPort DS_PORT_SUSPEND_MODE_NOSUSPEND])).1
        [FactoryOp.get_next_available_stream [acceptingRound],
          FactoryOp.resume_current_port]) = false :=
  ⟨by decide,
    (shutting_down_gates_has_active_ports_only dsIpcConsts defaultBuild
      (ds_ipc_stream_factory_shutdown
        (factoryWith [defaultListenPort DS_PORT_SUSPEND_MODE_NOSUSPEND])).1
      [FactoryOp.get_next_available_stream [acceptingRound], FactoryOp.resume_current_port]
      (by decide)).2.1⟩

/-! ## The yielded stream and the current port -/

theorem reset_vcall_current_port (port : Nat) (f : Factory) :
    (ds_port_reset_vcall port f)._ds_current_port = f._ds_current_port := by
  unfold ds_port_reset_vcall
  split
  · rfl
  · split <;> rfl

/-- Once a stream has been obtained, examining further handles keeps the stream and the
current port. -/
theorem handlePollEvents_keeps_stream (c : IpcConsts) (r : PollRound)
    (hs : List DiagnosticsIpcPollHandle) :
    ∀ (n : Nat) (st : PollState) (s : Nat), st.stream = some s →
      (handlePollEvents c r hs n st).stream = some s ∧
      (handlePollEvents c r hs n st).f._ds_current_port = st.f._ds_current_port := by
  induction hs with
  | nil => intro n st s hs; exact ⟨hs, rfl⟩
  | cons h rest ih =>
    intro n st s hst
    unfold handlePollEvents
    have hstep : (handlePollEvent c r h (r.events n) st).stream = some s ∧
        (handlePollEvent c r h (r.events n) st).f._ds_current_port = st.f._ds_current_port := by
      unfold handlePollEvent
      cases r.events n
      · exact ⟨hst, rfl⟩
      · simp [hst]
      · exact ⟨hst, reset_vcall_current_port _ _⟩
      · exact ⟨hst, reset_vcall_current_port _ _⟩
      · exact ⟨hst, reset_vcall_current_port _ _⟩
    obtain ⟨a1, a2⟩ := ih (n + 1) _ s hstep.1
    exact ⟨a1, a2.trans hstep.2⟩

theorem pollOrSleep_stream_none (c : IpcConsts) (r : PollRound) (f : Factory) (t : Nat) :
    (pollOrSleep c r f t).1.stream = none := by
  unfold pollOrSleep
  generalize gatherPollHandles r (List.range f._ds_port_array.length) f [] true = g
  obtain ⟨f1, hs, cs⟩ := g
  simp only
  split <;> rfl

/-- A handle returned by `ds_port_get_ipc_poll_handle_vcall` carries the index of its port
as `user_data`, and that index is inside the port array. -/
theorem get_ipc_poll_handle_vcall_user_data (r : PollRound) (port : Nat) (f : Factory)
    (h : DiagnosticsIpcPollHandle)
    (hh : (ds_port_get_ipc_poll_handle_vcall r port f).2 = some h) :
    h.user_data = port ∧ port < f._ds_port_array.length := by
  unfold ds_port_get_ipc_poll_handle_vcall at hh
  cases hp : f._ds_port_array[port]? with
  | none =>
    rw [hp] at hh
    cases hh
  | some p =>
    have hlt : port < f._ds_port_array.length := by
      by_contra hge
      rw [List.getElem?_eq_none (Nat.le_of_not_lt hge)] at hp
      cases hp
    refine ⟨?_, hlt⟩
    rw [hp] at hh
    simp only at hh
    cases ht : p.type with
    | DS_PORT_TYPE_LISTEN =>
      rw [ht] at hh
      simp only [listen_port_get_ipc_poll_handle_func, Option.some.injEq] at hh
      rw [← hh]
    | DS_PORT_TYPE_CONNECT =>
      rw [ht] at hh
      simp only at hh
      unfold connect_port_get_ipc_poll_handle_func at hh
      cases hs : p.stream with
      | some cached =>
        rw [hs] at hh
        simp only [Option.some.injEq] at hh
        rw [← hh]
      | none =>
        rw [hs] at hh
        simp only at hh
        cases hc : r.connect port with
        | failed b =>
          rw [hc] at hh
          cases hh
        | connected connection ok =>
          rw [hc] at hh
          simp only at hh
          cases ok with
          | false => simp at hh
          | true =>
            simp only [Bool.not_true, Bool.false_eq_true, if_false, Option.some.injEq] at hh
            rw [← hh]

/-- Every gathered handle carries the index of one of the visited ports. -/
theorem gatherPollHandles_user_data (r : PollRound) (idxs : List Nat) :
    ∀ (f : Factory) (hs : List DiagnosticsIpcPollHandle) (ok : Bool),
      ∀ h ∈ (gatherPollHandles r idxs f hs ok).2.1, h ∈ hs ∨ h.user_data ∈ idxs := by
  induction idxs with
  | nil =>
    intro f hs ok h hmem
    exact Or.inl hmem
  | cons i rest ih =>
    intro f hs ok h hmem
    unfold gatherPollHandles at hmem
    have hu := get_ipc_poll_handle_vcall_user_data r i f
    split at hmem
    · rename_i f1 h0 heq
      rw [heq] at hu
      rcases ih _ _ _ h hmem with hin | hin
      · rcases List.mem_append.mp hin with hin | hin
        · exact Or.inl hin
        · rw [List.mem_singleton] at hin
          subst hin
          exact Or.inr (by rw [(hu h rfl).1]; exact List.mem_cons_self _ _)
      · exact Or.inr (List.mem_cons_of_mem _ hin)
    · rcases ih _ _ _ h hmem with hin | hin
      · exact Or.inl hin
      · exact Or.inr (List.mem_cons_of_mem _ hin)

/-- Every handle of a pass belongs to a port of the array with which the pass started. -/
theorem pollOrSleep_user_data (c : IpcConsts) (r : PollRound) (f : Factory) (t : Nat) :
    ∀ h ∈ (pollOrSleep c r f t).2.1, h.user_data < f._ds_port_array.length := by
  intro h hmem
  have hg := gatherPollHandles_user_data r (List.range f._ds_port_array.length) f [] true h
  unfold pollOrSleep at hmem
  generalize gatherPollHandles r (List.range f._ds_port_array.length) f [] true = g at hg hmem
  obtain ⟨f1, hs, cs⟩ := g
  simp only at hg hmem
  have hin : h ∈ hs := by
    split at hmem <;> exact hmem
  rcases hg hin with hbad | hrange
  · cases hbad
  · exact List.mem_range.mp hrange

/-- A stream held after the handles have been examined was produced by
`ds_port_get_connected_stream_vcall` on the port of a signalled handle `h`, in the state
left by the handles before `h`, none of which had produced a stream; that port is the
current port afterwards. -/
theorem handlePollEvents_stream_origin (c : IpcConsts) (r : PollRound)
    (hs : List DiagnosticsIpcPollHandle) :
    ∀ (n : Nat) (st : PollState) (s : Nat), st.stream = none →
      (handlePollEvents c r hs n st).stream = some s →
      ∃ (pre : List DiagnosticsIpcPollHandle) (h : DiagnosticsIpcPollHandle)
        (post : List DiagnosticsIpcPollHandle),
        hs = pre ++ h :: post ∧
        r.events (n + pre.length) = DS_IPC_POLL_EVENTS_SIGNALED ∧
        (handlePollEvents c r pre n st).stream = none ∧
        (ds_port_get_connected_stream_vcall r h.user_data
          (handlePollEvents c r pre n st).f).2 = some s ∧
        (handlePollEvents c r hs n st).f._ds_current_port = some h.user_data := by
  induction hs with
  | nil =>
    intro n st s hst hfin
    simp [handlePollEvents, hst] at hfin
  | cons h0 rest ih =>
    intro n st s hst hfin
    have step : ∀ (l : List DiagnosticsIpcPollHandle),
        handlePollEvents c r (h0 :: l) n st =
          handlePollEvents c r l (n + 1) (handlePollEvent c r h0 (r.events n) st) :=
      fun _ => rfl
    rw [step] at hfin ⊢
    cases hnext : (handlePollEvent c r h0 (r.events n) st).stream with
    | none =>
      obtain ⟨pre, h, post, e, hev, hpre, hv, hcur⟩ := ih (n + 1) _ s hnext hfin
      refine ⟨h0 :: pre, h, post, ?_, ?_, ?_, ?_, hcur⟩
      · rw [e]; rfl
      · rw [show n + (h0 :: pre).length = n + 1 + pre.length by
          simp only [List.length_cons]; omega]
        exact hev
      · rw [step]; exact hpre
      · rw [step]; exact hv
    | some s1 =>
      obtain ⟨k1, k2⟩ := handlePollEvents_keeps_stream c r rest (n + 1) _ s1 hnext
      rw [k1] at hfin
      cases hfin
      have hsig : r.events n = DS_IPC_POLL_EVENTS_SIGNALED := by
        revert hnext
        unfold handlePollEvent
        cases r.events n <;> simp [hst]
      refine ⟨[], h0, rest, rfl, ?_, hst, ?_, ?_⟩
      · simpa using hsig
      · show (ds_port_get_connected_stream_vcall r h0.user_data st.f).2 = some s
        revert hnext
        rw [hsig]
        unfold handlePollEvent
        simp [hst]
      · rw [k2]
        rw [hsig]
        unfold handlePollEvent
        simp [hst]

/-- The stream held at the end of a pass: the poll returned an event count, and the stream
comes from the port of a signalled handle of that pass, which is the current port. -/
theorem pollRound_stream_origin (c : IpcConsts) (r : PollRound) (f : Factory) (t : Nat)
    (s : Nat) (hs : (pollRound c r f t).stream = some s) :
    ∃ (pre : List DiagnosticsIpcPollHandle) (h : DiagnosticsIpcPollHandle)
      (post : List DiagnosticsIpcPollHandle),
      (pollOrSleep c r f t).2.1 = pre ++ h :: post ∧
      (pollOrSleep c r f t).2.2 ≠ 0 ∧
      r.events pre.length = DS_IPC_POLL_EVENTS_SIGNALED ∧
      (handlePollEvents c r pre 0 (pollOrSleep c r f t).1).stream = none ∧
      (ds_port_get_connected_stream_vcall r h.user_data
        (handlePollEvents c r pre 0 (pollOrSleep c r f t).1).f).2 = some s ∧
      (pollRound c r f t).f._ds_current_port = some h.user_data ∧
      h.user_data < f._ds_port_array.length := by
  have e0 : pollRound c r f t
      = if (pollOrSleep c r f t).2.2 ≠ 0
        then handlePollEvents c r (pollOrSleep c r f t).2.1 0 (pollOrSleep c r f t).1
        else (pollOrSleep c r f t).1 := rfl
  by_cases hret : (pollOrSleep c r f t).2.2 ≠ 0
  · rw [e0, if_pos hret] at hs ⊢
    obtain ⟨pre, h, post, e, hev, hpre, hv, hcur⟩ :=
      handlePollEvents_stream_origin c r _ 0 _ s (pollOrSleep_stream_none c r f t) hs
    refine ⟨pre, h, post, e, hret, ?_, hpre, hv, hcur, ?_⟩
    · rwa [Nat.zero_add] at hev
    · apply pollOrSleep_user_data c r f t h
      rw [e]
      simp
  · rw [e0, if_neg hret, pollOrSleep_stream_none] at hs
    cases hs

/-- A stream returned by the loop was obtained in the pass in which the loop returns; that
pass starts in the state reached through the passes before it. -/
theorem pollLoop_stream_origin (c : IpcConsts) (flags : BuildFlags)
    (rounds : List PollRound) :
    ∀ (f : Factory) (t : Nat) (s : Nat), (pollLoop c flags rounds f t).2 = some (some s) →
      ∃ (done : List PollRound) (r : PollRound) (rest : List PollRound) (f0 : Factory)
        (t0 : Nat),
        rounds = done ++ r :: rest ∧
        pollLoopState c flags done f t = some (f0, t0) ∧
        (pollRound c r f0 t0).stream = some s ∧
        (pollLoop c flags rounds f t).1 = (pollRound c r f0 t0).f := by
  induction rounds with
  | nil =>
    intro f t s h
    simp [pollLoop] at h
  | cons r rest ih =>
    intro f t s h
    unfold pollLoop at h ⊢
    simp only at h ⊢
    by_cases herr : ((pollRound c r f t).stream.isNone && (pollRound c r f t).saw_error) = true
    · rw [if_pos herr] at h
      simp at h
    · rw [if_neg herr] at h ⊢
      by_cases hth : flags.PERFTRACING_DISABLE_THREADS = true
      · rw [if_pos hth] at h ⊢
        simp only [Option.some.injEq] at h
        exact ⟨[], r, rest, f, t, rfl, rfl, h, rfl⟩
      · rw [if_neg hth] at h ⊢
        cases hs1 : (pollRound c r f t).stream with
        | some s1 =>
          simp only [hs1, Option.some.injEq] at h ⊢
          subst h
          exact ⟨[], r, rest, f, t, rfl, rfl, hs1, rfl⟩
        | none =>
          simp only [hs1] at h ⊢
          obtain ⟨done, r', rest', f0, t0, e, hstate, hstream, hres⟩ := ih _ _ s h
          refine ⟨r :: done, r', rest', f0, t0, ?_, ?_, hstream, hres⟩
          · rw [e]; rfl
          · conv_lhs => unfold pollLoopState
            simp only [if_neg hth, hs1]
            have herr2 := herr
            rw [hs1] at herr2
            rw [if_neg herr2]
            exact hstate

theorem pollLoop_null_current (c : IpcConsts) (flags : BuildFlags)
    (hthreads : flags.PERFTRACING_DISABLE_THREADS = false) (rounds : List PollRound) :
    ∀ (f : Factory) (t : Nat), (pollLoop c flags rounds f t).2 = some none →
      (pollLoop c flags rounds f t).1._ds_current_port = none := by
  induction rounds with
  | nil =>
    intro f t h
    simp [pollLoop] at h
  | cons r rest ih =>
    intro f t h
    unfold pollLoop at h ⊢
    simp only at h ⊢
    by_cases herr : ((pollRound c r f t).stream.isNone && (pollRound c r f t).saw_error) = true
    · rw [if_pos herr]
    · have hth : ¬ flags.PERFTRACING_DISABLE_THREADS = true := by simp [hthreads]
      rw [if_neg herr, if_neg hth] at h ⊢
      cases hs1 : (pollRound c r f t).stream with
      | some s1 =>
        simp only [hs1] at h
        simp at h
      | none =>
        simp only [hs1] at h ⊢
        exact ih _ _ h

/-- C16: when `ds_ipc_stream_factory_get_next_available_stream` returns a stream `s`, the
function returns in a pass `r` of the loop, entered with the globals `f0` that the passes
before it left; the poll of that pass returned an event count, its handles are `pre`, then
`h`, then `post`, with `h` signalled; no stream was held after the handles of `pre`;
`ds_port_get_connected_stream_vcall` on the port of `h`, called in the state left by the
handles of `pre`, returned `s`; that port is a port of the array and is the current port on
return.  When the function returns null in the threaded build it has taken the error path
and the current port is null; and in every build a round that ends without a stream after
an error returns null with the current port null. -/
theorem get_next_available_stream_current_port (c : IpcConsts) (flags : BuildFlags)
    (rounds : List PollRound) (f : Factory) :
    (∀ s, (ds_ipc_stream_factory_get_next_available_stream c flags rounds f).2 = some (some s) →
      ∃ (done : List PollRound) (r : PollRound) (rest : List PollRound) (f0 : Factory)
        (t0 : Nat) (pre : List DiagnosticsIpcPollHandle) (h : DiagnosticsIpcPollHandle)
        (post : List DiagnosticsIpcPollHandle),
        rounds = done ++ r :: rest ∧
        pollLoopState c flags done f c.DS_IPC_TIMEOUT_INFINITE = some (f0, t0) ∧
        (pollOrSleep c r f0 t0).2.1 = pre ++ h :: post ∧
        (pollOrSleep c r f0 t0).2.2 ≠ 0 ∧
        r.events pre.length = DS_IPC_POLL_EVENTS_SIGNALED ∧
        (handlePollEvents c r pre 0 (pollOrSleep c r f0 t0).1).stream = none ∧
        (ds_port_get_connected_stream_vcall r h.user_data
          (handlePollEvents c r pre 0 (pollOrSleep c r f0 t0).1).f).2 = some s ∧
        h.user_data < f0._ds_port_array.length ∧
        (ds_ipc_stream_factory_get_next_available_stream c flags rounds f).1
          = (pollRound c r f0 t0).f ∧
        (ds_ipc_stream_factory_get_next_available_stream c flags rounds f).1._ds_current_port
          = some h.user_data) ∧
    (flags.PERFTRACING_DISABLE_THREADS = false →
      (ds_ipc_stream_factory_get_next_available_stream c flags rounds f).2 = some none →
      (ds_ipc_stream_factory_get_next_available_stream c flags rounds f).1._ds_current_port =
        none) ∧
    (∀ (r : PollRound) (rest : List PollRound) (g : Factory) (t : Nat),
      (pollRound c r g t).stream = none → (pollRound c r g t).saw_error = true →
      (pollLoop c flags (r :: rest) g t).2 = some none ∧
      (pollLoop c flags (r :: rest) g t).1._ds_current_port = none) := by
  refine ⟨?_, ?_, ?_⟩
  · intro s h
    obtain ⟨done, r, rest, f0, t0, e, hstate, hstream, hres⟩ :=
      pollLoop_stream_origin c flags rounds f _ s h
    obtain ⟨pre, hd, post, e2, hret, hev, hpre, hv, hcur, hlt⟩ :=
      pollRound_stream_origin c r f0 t0 s hstream
    refine ⟨done, r, rest, f0, t0, pre, hd, post, e, hstate, e2, hret, hev, hpre, hv, hlt,
      hres, ?_⟩
    rw [show (ds_ipc_stream_factory_get_next_available_stream c flags rounds f).1
      = (pollRound c r f0 t0).f from hres]
    exact hcur
  · intro hthreads h
    exact pollLoop_null_current c flags hthreads rounds f _ h
  · intro r rest g t h1 h2
    unfold pollLoop
    simp [h1, h2]

/-- Witness for C16: two listen ports; the first pass times out, in the second both handles
are signalled and `ds_ipc_accept` yields stream 5 on port 0.  The function returns 5 with
current port 0, and 5 is what `ds_port_get_connected_stream_vcall` returned for the port
of a handle of the returning pass, which is the current port. -/
theorem get_next_available_stream_current_port_witness :
    (ds_ipc_stream_factory_get_next_available_stream dsIpcConsts defaultBuild
      [failingRound, acceptingRound] (factoryWith twoListenPorts)).2 = some (some 5) ∧
    (ds_ipc_stream_factory_get_next_available_stream dsIpcConsts defaultBuild
      [failingRound, acceptingRound] (factoryWith twoListenPorts)).1._ds_current_port
      = some 0 ∧
    ∃ (done : List PollRound) (r : PollRound) (f0 : Factory) (t0 : Nat)
      (pre : List DiagnosticsIpcPollHandle) (h : DiagnosticsIpcPollHandle),
      pollLoopState dsIpcConsts defaultBuild done (factoryWith twoListenPorts)
        dsIpcConsts.DS_IPC_TIMEOUT_INFINITE = some (f0, t0) ∧
      (ds_port_get_connected_stream_vcall r h.user_data
        (handlePollEvents dsIpcConsts r pre 0 (pollOrSleep dsIpcConsts r f0 t0).1).f).2
        = some 5 ∧
      (ds_ipc_stream_factory_get_next_available_stream dsIpcConsts defaultBuild
        [failingRound, acceptingRound] (factoryWith twoListenPorts)).1._ds_current_port
        = some h.user_data := by
  refine ⟨by decide, by decide, ?_⟩
  obtain ⟨done, r, _, f0, t0, pre, h, _, _, hstate, _, _, _, _, hv, _, _, hcur⟩ :=
    (get_next_available_stream_current_port dsIpcConsts defaultBuild
      [failingRound, acceptingRound] (factoryWith twoListenPorts)).1 5 (by decide)
  exact ⟨done, r, f0, t0, pre, h, hstate, hv, hcur⟩

/-! ## Several signalled handles in one poll return -/

theorem handlePollEvents_append (c : IpcConsts) (r : PollRound)
    (a b : List DiagnosticsIpcPollHandle) :
    ∀ (n : Nat) (st : PollState),
      handlePollEvents c r (a ++ b) n st =
        handlePollEvents c r b (n + a.length) (handlePollEvents c r a n st) := by
  induction a with
  | nil => intro n st; rfl
  | cons h rest ih =>
    intro n st
    have e1 : (h :: rest) ++ b = h :: (rest ++ b) := rfl
    have step : ∀ (l : List DiagnosticsIpcPollHandle),
        handlePollEvents c r (h :: l) n st =
          handlePollEvents c r l (n + 1) (handlePollEvent c r h (r.events n) st) :=
      fun _ => rfl
    have e2 : n + 1 + rest.length = n + (h :: rest).length := by
      simp only [List.length_cons]; omega
    rw [e1, step, step, ih, e2]

/-- Handles that are signalled or without events change nothing once a stream is held. -/
theorem handlePollEvents_signalled_noop (c : IpcConsts) (r : PollRound)
    (hs : List DiagnosticsIpcPollHandle) :
    ∀ (n : Nat) (st : PollState), st.stream.isSome = true →
      (∀ j, j < hs.length → r.events (n + j) = DS_IPC_POLL_EVENTS_SIGNALED ∨
        r.events (n + j) = DS_IPC_POLL_EVENTS_NONE) →
      handlePollEvents c r hs n st = st := by
  induction hs with
  | nil => intro n st _ _; rfl
  | cons h rest ih =>
    intro n st hst hev
    unfold handlePollEvents
    have hstep : handlePollEvent c r h (r.events n) st = st := by
      have h0 := hev 0 (by simp)
      simp only [Nat.add_zero] at h0
      obtain ⟨s, hs⟩ := Option.isSome_iff_exists.mp hst
      rcases h0 with h0 | h0 <;> rw [h0] <;> simp [handlePollEvent, hs]
    rw [hstep]
    apply ih (n + 1) st hst
    intro j hj
    have := hev (j + 1) (by simp; omega)
    have e : n + (j + 1) = n + 1 + j := by omega
    rw [e] at this
    exact this

/-- Handles that are not signalled leave the stream variable as it is. -/
theorem handlePollEvents_unsignalled_stream (c : IpcConsts) (r : PollRound)
    (hs : List DiagnosticsIpcPollHandle) :
    ∀ (n : Nat) (st : PollState),
      (∀ j, j < hs.length → r.events (n + j) ≠ DS_IPC_POLL_EVENTS_SIGNALED) →
      (handlePollEvents c r hs n st).stream = st.stream := by
  induction hs with
  | nil => intro n st _; rfl
  | cons h rest ih =>
    intro n st hev
    unfold handlePollEvents
    have h0 := hev 0 (by simp)
    simp only [Nat.add_zero] at h0
    have hstep : (handlePollEvent c r h (r.events n) st).stream = st.stream := by
      unfold handlePollEvent
      cases hr : r.events n
      · rfl
      · exact absurd hr h0
      · rfl
      · rfl
      · rfl
    rw [ih (n + 1), hstep]
    intro j hj
    have := hev (j + 1) (by simp; omega)
    have e : n + (j + 1) = n + 1 + j := by omega
    rw [e] at this
    exact this

/-- C13 (as stated, refuted): with two listen ports both signalled, when `ds_ipc_accept`
fails on port 0 it is called on port 1 as well; the stream returned is the one of port 1
and the current port is port 1. -/
theorem accept_tried_on_second_signalled_port :
    acceptedPorts (ds_ipc_stream_factory_get_next_available_stream dsIpcConsts defaultBuild
      [secondAcceptsRound] (factoryWith twoListenPorts)).1.calls = [0, 1] ∧
    (ds_ipc_stream_factory_get_next_available_stream dsIpcConsts defaultBuild
      [secondAcceptsRound] (factoryWith twoListenPorts)).2 = some (some 9) ∧
    (ds_ipc_stream_factory_get_next_available_stream dsIpcConsts defaultBuild
      [secondAcceptsRound] (factoryWith twoListenPorts)).1._ds_current_port = some 1 := by
  refine ⟨by decide, by decide, by decide⟩

/-- C13 (amended): the polled handles are examined in index order.  If no stream is held,
the handles before `h` are not signalled, `h` is signalled and `acceptStream` of its port
yields the stream `s`, then after all handles have been examined the stream is `s` and the
current port is the port of `h`; examining a signalled handle while a stream is held
changes nothing; and when the handles after `h` are signalled or without events, the
state is the one left right after `h`. -/
theorem first_yielding_signalled_port_wins (c : IpcConsts) (r : PollRound)
    (pre rest : List DiagnosticsIpcPollHandle) (h : DiagnosticsIpcPollHandle) (n : Nat)
    (st : PollState) (s : Nat) (hst : st.stream = none)
    (hpre : ∀ j, j < pre.length → r.events (n + j) ≠ DS_IPC_POLL_EVENTS_SIGNALED)
    (hsig : r.events (n + pre.length) = DS_IPC_POLL_EVENTS_SIGNALED)
    (hgot : (ds_port_get_connected_stream_vcall r h.user_data
      (handlePollEvents c r pre n st).f).2 = some s) :
    (handlePollEvents c r (pre ++ h :: rest) n st).stream = some s ∧
    (handlePollEvents c r (pre ++ h :: rest) n st).f._ds_current_port = some h.user_data ∧
    (∀ (later : DiagnosticsIpcPollHandle) (st' : PollState), st'.stream.isSome = true →
      handlePollEvent c r later DS_IPC_POLL_EVENTS_SIGNALED st' = st') ∧
    ((∀ j, j < rest.length →
        r.events (n + pre.length + 1 + j) = DS_IPC_POLL_EVENTS_SIGNALED ∨
        r.events (n + pre.length + 1 + j) = DS_IPC_POLL_EVENTS_NONE) →
      handlePollEvents c r (pre ++ h :: rest) n st =
        handlePollEvent c r h DS_IPC_POLL_EVENTS_SIGNALED (handlePollEvents c r pre n st)) := by
  have hnone : (handlePollEvents c r pre n st).stream = none := by
    rw [handlePollEvents_unsignalled_stream c r pre n st hpre]; exact hst
  have hsplit : handlePollEvents c r (pre ++ h :: rest) n st =
      handlePollEvents c r rest (n + pre.length + 1)
        (handlePollEvent c r h DS_IPC_POLL_EVENTS_SIGNALED (handlePollEvents c r pre n st)) := by
    rw [handlePollEvents_append]
    show handlePollEvents c r rest (n + pre.length + 1)
      (handlePollEvent c r h (r.events (n + pre.length)) (handlePollEvents c r pre n st)) = _
    rw [hsig]
  have hafter : (handlePollEvent c r h DS_IPC_POLL_EVENTS_SIGNALED
      (handlePollEvents c r pre n st)).stream = some s ∧
      (handlePollEvent c r h DS_IPC_POLL_EVENTS_SIGNALED
        (handlePollEvents c r pre n st)).f._ds_current_port = some h.user_data := by
    simp [handlePollEvent, hnone, hgot]
  obtain ⟨k1, k2⟩ := handlePollEvents_keeps_stream c r rest (n + pre.length + 1) _ s hafter.1
  refine ⟨?_, ?_, ?_, ?_⟩
  · rw [hsplit]; exact k1
  · rw [hsplit, k2]; exact hafter.2
  · intro later st' hst'
    obtain ⟨s', hs'⟩ := Option.isSome_iff_exists.mp hst'
    simp [handlePollEvent, hs']
  · intro hrest
    rw [hsplit]
    apply handlePollEvents_signalled_noop c r rest _ _ _ hrest
    rw [hafter.1]
    rfl

/-- Witness for C13 (amended): two listen ports, both signalled, `ds_ipc_accept` yields
stream 5 on port 0: only port 0 is accepted, the stream is 5 and the current port is 0. -/
theorem first_yielding_signalled_port_wins_witness :
    (pollOrSleep dsIpcConsts acceptingRound (factoryWith twoListenPorts)
      dsIpcConsts.DS_IPC_TIMEOUT_INFINITE).1.stream = none ∧
    acceptingRound.events (0 + ([] : List DiagnosticsIpcPollHandle).length) =
      DS_IPC_POLL_EVENTS_SIGNALED ∧
    (handlePollEvents dsIpcConsts acceptingRound
      ([] ++
        { ipc := (defaultListenPort DS_PORT_SUSPEND_MODE_NOSUSPEND).ipc, stream := none,
          events := DS_IPC_POLL_EVENTS_NONE, user_data := 0 } ::
        [{ ipc := (defaultListenPort DS_PORT_SUSPEND_MODE_NOSUSPEND).ipc, stream := none,
           events := DS_IPC_POLL_EVENTS_NONE, user_data := 1 }]) 0
      (pollOrSleep dsIpcConsts acceptingRound (factoryWith twoListenPorts)
        dsIpcConsts.DS_IPC_TIMEOUT_INFINITE).1).stream = some 5 ∧
    acceptedPorts (ds_ipc_stream_factory_get_next_available_stream dsIpcConsts defaultBuild
      [acceptingRound] (factoryWith twoListenPorts)).1.calls = [0] ∧
    (ds_ipc_stream_factory_get_next_available_stream dsIpcConsts defaultBuild
      [acceptingRound] (factoryWith twoListenPorts)).1._ds_current_port = some 0 :=
  ⟨by decide, rfl,
    (first_yielding_signalled_port_wins dsIpcConsts acceptingRound []
      [{ ipc := (defaultListenPort DS_PORT_SUSPEND_MODE_NOSUSPEND).ipc, stream := none,
         events := DS_IPC_POLL_EVENTS_NONE, user_data := 1 }]
      { ipc := (defaultListenPort DS_PORT_SUSPEND_MODE_NOSUSPEND).ipc, stream := none,
        events := DS_IPC_POLL_EVENTS_NONE, user_data := 0 } 0
      (pollOrSleep dsIpcConsts acceptingRound (factoryWith twoListenPorts)
        dsIpcConsts.DS_IPC_TIMEOUT_INFINITE).1 5 (by decide)
      (fun j hj => absurd hj (Nat.not_lt_zero j)) rfl (by decide)).1,
    by decide, by decide⟩

/-! ## The cached stream of a connect port -/

/-- On a connect port every vtable operation keeps the port a connect port and changes the
cached stream as `specCachedStream` says. -/
theorem applyPortOp_connect (port : Nat) (f : Factory) (p : DiagnosticsPort) (op : PortOp)
    (hp : f._ds_port_array[port]? = some p) (ht : p.type = DS_PORT_TYPE_CONNECT) :
    (applyPortOp port f op)._ds_port_array[port]? =
      some { p with stream := specCachedStream port p.stream op } := by
  cases op with
  | getPollHandle r =>
    simp only [applyPortOp, ds_port_get_ipc_poll_handle_vcall, hp, ht,
      connect_port_get_ipc_poll_handle_func, specCachedStream]
    cases hs : p.stream with
    | some cached =>
      simp only [hp]
      congr 1
      cases p
      simp_all
    | none =>
      simp only
      cases hc : r.connect port with
      | failed t =>
        simp only [Factory.call, hp]
        congr 1
        cases p
        simp_all
      | connected s ok =>
        cases ok with
        | false =>
          simp only [Factory.call, hp, Bool.not_false, if_true]
          congr 1
          cases p
          simp_all
        | true =>
          simp only [Factory.call, Bool.not_true, Bool.false_eq_true, if_false]
          rw [updatePort_getElem?_eq, hp]
          simp [ht]
  | acceptStream r =>
    simp only [applyPortOp, ds_port_get_connected_stream_vcall, hp, ht, specCachedStream]
    rw [updatePort_getElem?_eq, hp]
    simp [ht]
  | reset =>
    simp only [applyPortOp, ds_port_reset_vcall, hp, ht, specCachedStream, Factory.call]
    rw [updatePort_getElem?_eq, hp]
    simp [ht]

theorem cachedStreamAt_eq (port : Nat) (f : Factory) (p : DiagnosticsPort)
    (hp : f._ds_port_array[port]? = some p) : cachedStreamAt port f = p.stream := by
  simp [cachedStreamAt, hp]

/-- Along every sequence of operations on a connect port: the port stays a connect port,
its cache is filled exactly when `cachedSince` is set, `cachedSince` implies
`connectedSinceReset`, and a cached stream is one on which the advertise send succeeded. -/
theorem runPortOps_invariant (port : Nat) (ops : List PortOp) :
    ∀ (f : Factory) (h : ConnectHistory) (p : DiagnosticsPort),
      f._ds_port_array[port]? = some p → p.type = DS_PORT_TYPE_CONNECT →
      (p.stream.isSome = true ↔ h.cachedSince = true) →
      (h.cachedSince = true → h.connectedSinceReset = true) →
      (∀ s, p.stream = some s → s ∈ h.advertised) →
      ∃ p', (runPortOps port f h ops).1._ds_port_array[port]? = some p' ∧
        p'.type = DS_PORT_TYPE_CONNECT ∧
        (p'.stream.isSome = true ↔ (runPortOps port f h ops).2.cachedSince = true) ∧
        ((runPortOps port f h ops).2.cachedSince = true →
          (runPortOps port f h ops).2.connectedSinceReset = true) ∧
        (∀ s, p'.stream = some s → s ∈ (runPortOps port f h ops).2.advertised) := by
  induction ops with
  | nil =>
    intro f h p hp ht h1 h2 h3
    exact ⟨p, hp, ht, h1, h2, h3⟩
  | cons op rest ih =>
    intro f h p hp ht h1 h2 h3
    unfold runPortOps
    have hstep := applyPortOp_connect port f p op hp ht
    have hcache := cachedStreamAt_eq port f p hp
    apply ih _ _ _ hstep ht
    · cases op with
      | getPollHandle r =>
        simp only [specCachedStream, historyStep, hcache]
        cases hs : p.stream with
        | some cached =>
          simp only
          rw [← h1, hs]
        | none =>
          have hfalse : h.cachedSince = false := by
            cases hc : h.cachedSince
            · rfl
            · have := h1.mpr hc
              rw [hs] at this
              cases this
          simp only
          cases r.connect port with
          | failed t => simp [hfalse]
          | connected s ok => cases ok <;> simp [hfalse]
      | acceptStream r => simp [specCachedStream, historyStep]
      | reset => simp [specCachedStream, historyStep]
    · cases op with
      | getPollHandle r =>
        simp only [historyStep, hcache]
        cases hs : p.stream with
        | some cached => exact h2
        | none =>
          simp only
          cases r.connect port with
          | failed t => exact h2
          | connected s ok => intro _; rfl
      | acceptStream r => simp [historyStep]
      | reset => simp [historyStep]
    · intro s
      cases op with
      | getPollHandle r =>
        simp only [specCachedStream, historyStep, hcache]
        cases hs : p.stream with
        | some cached =>
          simp only
          intro hsome
          exact h3 s (by rw [hs]; exact hsome)
        | none =>
          simp only
          cases r.connect port with
          | failed t => simp
          | connected s' ok =>
            cases ok
            · simp
            · simp only [Option.some.injEq, if_true, List.mem_cons]
              intro he
              exact Or.inl he.symm
      | acceptStream r => simp [specCachedStream]
      | reset => simp [specCachedStream]

/-- C14 (as stated, refuted): after a connect with a successful advertise send followed by
`acceptStream`, and also after a connect whose advertise send fails, the cache of the
connect port is empty although a connect has succeeded and no reset has happened. -/
theorem cached_stream_null_after_successful_connect :
    cachedStreamAt 0
      (runPortOps 0 (factoryWith [connectPortAt "/tmp/a" DS_PORT_SUSPEND_MODE_SUSPEND])
        freshHistory
        [PortOp.getPollHandle signalledRound, PortOp.acceptStream signalledRound]).1 = none ∧
    (runPortOps 0 (factoryWith [connectPortAt "/tmp/a" DS_PORT_SUSPEND_MODE_SUSPEND])
        freshHistory
        [PortOp.getPollHandle signalledRound,
          PortOp.acceptStream signalledRound]).2.connectedSinceReset = true ∧
    cachedStreamAt 0
      (runPortOps 0 (factoryWith [connectPortAt "/tmp/a" DS_PORT_SUSPEND_MODE_SUSPEND])
        freshHistory [PortOp.getPollHandle advertiseFailsRound]).1 = none ∧
    (runPortOps 0 (factoryWith [connectPortAt "/tmp/a" DS_PORT_SUSPEND_MODE_SUSPEND])
        freshHistory [PortOp.getPollHandle advertiseFailsRound]).2.connectedSinceReset = true := by
  refine ⟨by decide, by decide, by decide, by decide⟩

/-- C14 (amended): in every state of a connect port reached from an empty cache through
`getPollHandle`, `acceptStream` and `reset`, the cached stream is non-null exactly when a
connect whose advertise send succeeded has happened since the last reset or `acceptStream`;
a non-null cached stream implies that a connect has succeeded since the last reset. -/
theorem cached_stream_iff_connected_and_not_taken (port : Nat) (f : Factory)
    (p : DiagnosticsPort) (ops : List PortOp)
    (hp : f._ds_port_array[port]? = some p) (ht : p.type = DS_PORT_TYPE_CONNECT)
    (hs : p.stream = none) :
    ((cachedStreamAt port (runPortOps port f freshHistory ops).1).isSome = true ↔
      (runPortOps port f freshHistory ops).2.cachedSince = true) ∧
    ((cachedStreamAt port (runPortOps port f freshHistory ops).1).isSome = true →
      (runPortOps port f freshHistory ops).2.connectedSinceReset = true) := by
  obtain ⟨p', hp', _, h1, h2, _⟩ := runPortOps_invariant port ops f freshHistory p hp ht
    (by simp [hs, freshHistory]) (by simp [freshHistory]) (by simp [hs])
  rw [cachedStreamAt_eq port _ p' hp']
  exact ⟨h1, fun h => h2 (h1.mp h)⟩

/-- Witness for C14 (amended): connect with advertise, accept, reset, connect again: the
cache holds a stream and both history flags are set. -/
theorem cached_stream_iff_connected_and_not_taken_witness :
    (factoryWith [connectPortAt "/tmp/a" DS_PORT_SUSPEND_MODE_SUSPEND])._ds_port_array[0]? =
      some (connectPortAt "/tmp/a" DS_PORT_SUSPEND_MODE_SUSPEND) ∧
    ((cachedStreamAt 0
        (runPortOps 0 (factoryWith [connectPortAt "/tmp/a" DS_PORT_SUSPEND_MODE_SUSPEND])
          freshHistory
          [PortOp.getPollHandle signalledRound, PortOp.acceptStream signalledRound,
            PortOp.reset, PortOp.getPollHandle signalledRound]).1).isSome = true ↔
      (runPortOps 0 (factoryWith [connectPortAt "/tmp/a" DS_PORT_SUSPEND_MODE_SUSPEND])
        freshHistory
        [PortOp.getPollHandle signalledRound, PortOp.acceptStream signalledRound,
          PortOp.reset, PortOp.getPollHandle signalledRound]).2.cachedSince = true) ∧
    cachedStreamAt 0
      (runPortOps 0 (factoryWith [connectPortAt "/tmp/a" DS_PORT_SUSPEND_MODE_SUSPEND])
        freshHistory
        [PortOp.getPollHandle signalledRound, PortOp.acceptStream signalledRound,
          PortOp.reset, PortOp.getPollHandle signalledRound]).1 = some 7 :=
  ⟨rfl,
    (cached_stream_iff_connected_and_not_taken 0
      (factoryWith [connectPortAt "/tmp/a" DS_PORT_SUSPEND_MODE_SUSPEND])
      (connectPortAt "/tmp/a" DS_PORT_SUSPEND_MODE_SUSPEND)
      [PortOp.getPollHandle signalledRound, PortOp.acceptStream signalledRound,
        PortOp.reset, PortOp.getPollHandle signalledRound] rfl rfl rfl).1,
    by decide⟩

/-- C15: on a connect port with an empty cache, `getPollHandle` calls `ds_ipc_connect`;
when the connect fails it frees the (null) connection, returns false and leaves the ports
unchanged; when the advertise send fails it frees the new stream, returns false and leaves the
ports unchanged; when the advertise send succeeds, and only then, it stores the stream in
the cache, after the send, and returns a handle on it.  Hence in every state reached from
an empty cache through `getPollHandle`, `acceptStream` and `reset`, a cached stream is one
on which the advertise send has succeeded. -/
theorem connect_port_caches_only_advertised_stream (r : PollRound) (port : Nat) (f : Factory)
    (p : DiagnosticsPort) (ops : List PortOp)
    (hp : f._ds_port_array[port]? = some p) (ht : p.type = DS_PORT_TYPE_CONNECT)
    (hs : p.stream = none) :
    (∀ t, r.connect port = ConnectResult.failed t →
      (ds_port_get_ipc_poll_handle_vcall r port f).2 = none ∧
      (ds_port_get_ipc_poll_handle_vcall r port f).1._ds_port_array = f._ds_port_array ∧
      (ds_port_get_ipc_poll_handle_vcall r port f).1.calls =
        f.calls ++ [IpcCall.ds_ipc_connect port, IpcCall.ds_ipc_stream_free none]) ∧
    (∀ s, r.connect port = ConnectResult.connected s false →
      (ds_port_get_ipc_poll_handle_vcall r port f).2 = none ∧
      (ds_port_get_ipc_poll_handle_vcall r port f).1._ds_port_array = f._ds_port_array ∧
      (ds_port_get_ipc_poll_handle_vcall r port f).1.calls =
        f.calls ++ [IpcCall.ds_ipc_connect port, IpcCall.ds_ipc_advertise_v1_send s,
          IpcCall.ds_ipc_stream_free (some s)]) ∧
    (∀ s, r.connect port = ConnectResult.connected s true →
      (ds_port_get_ipc_poll_handle_vcall r port f).2 =
        some { ipc := none, stream := some s, events := DS_IPC_POLL_EVENTS_NONE,
               user_data := port } ∧
      cachedStreamAt port (ds_port_get_ipc_poll_handle_vcall r port f).1 = some s ∧
      (ds_port_get_ipc_poll_handle_vcall r port f).1.calls =
        f.calls ++ [IpcCall.ds_ipc_connect port, IpcCall.ds_ipc_advertise_v1_send s]) ∧
    (∀ s, cachedStreamAt port (runPortOps port f freshHistory ops).1 = some s →
      s ∈ (runPortOps port f freshHistory ops).2.advertised) := by
  refine ⟨?_, ?_, ?_, ?_⟩
  · intro t hc
    simp [ds_port_get_ipc_poll_handle_vcall, hp, ht, connect_port_get_ipc_poll_handle_func,
      hs, hc, Factory.call]
  · intro s hc
    simp [ds_port_get_ipc_poll_handle_vcall, hp, ht, connect_port_get_ipc_poll_handle_func,
      hs, hc, Factory.call]
  · intro s hc
    have hstep := applyPortOp_connect port f p (PortOp.getPollHandle r) hp ht
    simp only [applyPortOp, specCachedStream, hs, hc] at hstep
    refine ⟨?_, ?_, ?_⟩
    · simp [ds_port_get_ipc_poll_handle_vcall, hp, ht, connect_port_get_ipc_poll_handle_func,
        hs, hc]
    · rw [cachedStreamAt_eq port _ _ hstep]
    · simp [ds_port_get_ipc_poll_handle_vcall, hp, ht, connect_port_get_ipc_poll_handle_func,
        hs, hc, Factory.call]
  · intro s hcached
    obtain ⟨p', hp', _, _, _, h3⟩ := runPortOps_invariant port ops f freshHistory p hp ht
      (by simp [hs, freshHistory]) (by simp [freshHistory]) (by simp [hs])
    rw [cachedStreamAt_eq port _ p' hp'] at hcached
    exact h3 s hcached

/-- Witness for C15: a fresh connect port whose connect yields stream 8 with a failing
advertise send keeps an empty cache and frees stream 8; a later connect with a successful
advertise send on stream 7 caches stream 7. -/
theorem connect_port_caches_only_advertised_stream_witness :
    (factoryWith [connectPortAt "/tmp/a" DS_PORT_SUSPEND_MODE_SUSPEND])._ds_port_array[0]? =
      some (connectPortAt "/tmp/a" DS_PORT_SUSPEND_MODE_SUSPEND) ∧
    (ds_port_get_ipc_poll_handle_vcall advertiseFailsRound 0
      (factoryWith [connectPortAt "/tmp/a" DS_PORT_SUSPEND_MODE_SUSPEND])).1.calls =
        [IpcCall.ds_ipc_connect 0, IpcCall.ds_ipc_advertise_v1_send 8,
          IpcCall.ds_ipc_stream_free (some 8)] ∧
    cachedStreamAt 0
      (runPortOps 0 (factoryWith [connectPortAt "/tmp/a" DS_PORT_SUSPEND_MODE_SUSPEND])
        freshHistory
        [PortOp.getPollHandle advertiseFailsRound, PortOp.getPollHandle signalledRound]).1
      = some 7 ∧
    7 ∈ (runPortOps 0 (factoryWith [connectPortAt "/tmp/a" DS_PORT_SUSPEND_MODE_SUSPEND])
        freshHistory
        [PortOp.getPollHandle advertiseFailsRound,
          PortOp.getPollHandle signalledRound]).2.advertised :=
  ⟨rfl,
    ((connect_port_caches_only_advertised_stream advertiseFailsRound 0
      (factoryWith [connectPortAt "/tmp/a" DS_PORT_SUSPEND_MODE_SUSPEND])
      (connectPortAt "/tmp/a" DS_PORT_SUSPEND_MODE_SUSPEND) [] rfl rfl rfl).2.1 8 rfl).2.2,
    by decide,
    (connect_port_caches_only_advertised_stream advertiseFailsRound 0
      (factoryWith [connectPortAt "/tmp/a" DS_PORT_SUSPEND_MODE_SUSPEND])
      (connectPortAt "/tmp/a" DS_PORT_SUSPEND_MODE_SUSPEND)
      [PortOp.getPollHandle advertiseFailsRound, PortOp.getPollHandle signalledRound]
      rfl rfl rfl).2.2.2 7 (by decide)⟩

end DsIpc

/-! # Theorems: finalizer thread activations -/

namespace FinalizerThread

/-! ## Quit requests -/

theorem SignalFinalizationDone_fQuit (v : Int) (w : World) :
    (SignalFinalizationDone v w).fQuitFinalizer = w.fQuitFinalizer := rfl

theorem workerCycle_fQuit (e : CycleEnv) (b : Bool) (w : World) :
    (workerCycle e b w).1.fQuitFinalizer =
      (afterDrain e (cycleUntilSnapshot e b w).1).fQuitFinalizer := rfl

end FinalizerThread

namespace FinalizerThread

/-! ## Drains after a quit request -/

theorem drains_append (a b : List WorkerStep) : drains (a ++ b) = drains a + drains b := by
  simp [drains, List.count_append]

/-- The state at the snapshot: the environment's `beforeSnapshot` applied to a state that
extends the record of operations after the wait by the priority attempt (when the local
flag is clear), the platform initialisation (when the static flag is clear) and the
reclaim hook. -/
theorem cycleUntilSnapshot_shape (e : CycleEnv) (b : Bool) (w : World) :
    ∃ w4 : World,
      (cycleUntilSnapshot e b w).1 = e.beforeSnapshot w4 ∧
      w4.steps = (e.beforeDrain (record WorkerStep.waitForFinalizerEvent w)).steps ++
        ((if b then [] else [WorkerStep.setThreadPriorityHighest]) ++
          (if (e.beforeDrain (record WorkerStep.waitForFinalizerEvent
              w)).s_InitializedFinalizerThreadForPlatform then []
            else [WorkerStep.initializationForManagedThreadInNative]) ++
          [WorkerStep.jitHostReclaim]) ∧
      w4.fQuitFinalizer =
        (e.beforeDrain (record WorkerStep.waitForFinalizerEvent w)).fQuitFinalizer ∧
      w4.s_InitializedFinalizerThreadForPlatform = true ∧
      (cycleUntilSnapshot e b w).2 = (if b then true else e.setThreadPriorityOk) := by
  unfold cycleUntilSnapshot
  generalize e.beforeDrain (record WorkerStep.waitForFinalizerEvent w) = w1
  cases b <;> cases hi : w1.s_InitializedFinalizerThreadForPlatform <;>
    exact ⟨_, by simp only [record, hi]; rfl, by simp [record, hi], by simp [record, hi],
      by simp [record, hi], by simp⟩

theorem cycleUntilSnapshot_records (e : CycleEnv) (he : e.wellBehaved) (b : Bool) (w : World) :
    drains (cycleUntilSnapshot e b w).1.steps = drains w.steps ∧
    ((e.beforeDrain (record WorkerStep.waitForFinalizerEvent w)).fQuitFinalizer = true →
      (cycleUntilSnapshot e b w).1.fQuitFinalizer = true) := by
  obtain ⟨w4, h4, hsteps, hquit, _, _⟩ := cycleUntilSnapshot_shape e b w
  obtain ⟨h1, h2, _⟩ := he
  rw [h4]
  constructor
  · rw [(h2 w4).1, hsteps, (h1 _).1]
    cases b <;>
      cases (e.beforeDrain (record WorkerStep.waitForFinalizerEvent
        w)).s_InitializedFinalizerThreadForPlatform <;>
      simp [record, drains, List.count_append, List.count_cons]
  · intro hq
    exact (h2 w4).2.2 (by rw [hquit]; exact hq)

theorem afterDrain_records (e : CycleEnv) (he : e.wellBehaved) (w : World) :
    drains (afterDrain e w).steps = drains w.steps + 1 ∧
    (w.fQuitFinalizer = true → (afterDrain e w).fQuitFinalizer = true) := by
  obtain ⟨_, _, h3⟩ := he
  unfold afterDrain
  constructor
  · rw [(h3 _).1]
    simp [record, drains, List.count_append, List.count_cons]
  · intro hq
    exact (h3 _).2.2 (by simpa [record] using hq)

theorem workerCycle_drains (e : CycleEnv) (he : e.wellBehaved) (b : Bool) (w : World) :
    drains (workerCycle e b w).1.steps = drains w.steps + 1 := by
  have h1 := (afterDrain_records e he (cycleUntilSnapshot e b w).1).1
  have h2 := (cycleUntilSnapshot_records e he b w).1
  have h3 : (workerCycle e b w).1.steps =
      (afterDrain e (cycleUntilSnapshot e b w).1).steps ++
        [WorkerStep.storeFullGcCountSeen
            (sizeToInt (cycleUntilSnapshot e b w).1.collectionCountMaxGen),
          WorkerStep.setFinalizerDone] := by
    simp [workerCycle, SignalFinalizationDone, record]
  rw [h3, drains_append, h1, h2]
  simp [drains, List.count_cons]

/-- A cycle invokes the drain at most once, however it ends. -/
theorem cycleEnd_drains (e : CycleEnv) (he : e.wellBehaved) (b : Bool) (w : World)
    (x : CycleExit) : drains (cycleEnd e b w x).steps ≤ drains w.steps + 1 := by
  cases x with
  | completes =>
    simp only [cycleEnd]
    rw [workerCycle_drains e he]
  | throwsInPendingWork =>
    simp only [cycleEnd]
    rw [(he.1 _).1]
    simp [record, drains, List.count_append, List.count_cons]
  | throwsInExtraWork =>
    simp only [cycleEnd]
    rw [(cycleUntilSnapshot_records e he b w).1]
    omega
  | throwsInDrain =>
    simp only [cycleEnd]
    rw [(afterDrain_records e he _).1, (cycleUntilSnapshot_records e he b w).1]

theorem workerRun_of_quit (cycles : List (CycleEnv × CycleExit)) (b : Bool) (w : World)
    (hq : w.fQuitFinalizer = true) : workerRun cycles b w = some (w, true) := by
  unfold workerRun
  simp [hq]

theorem workerRun_cons (e : CycleEnv) (x : CycleExit) (rest : List (CycleEnv × CycleExit))
    (b : Bool) (w : World) (hq : w.fQuitFinalizer = false) :
    workerRun ((e, x) :: rest) b w =
      match x with
      | CycleExit.completes => workerRun rest (workerCycle e b w).2 (workerCycle e b w).1
      | _ => some (cycleEnd e b w x, false) := by
  conv_lhs => unfold workerRun
  cases x <;> simp [hq]

theorem kickOffLoop_of_quit (activations : List (List (CycleEnv × CycleExit))) (w : World)
    (hq : w.fQuitFinalizer = true) : kickOffLoop activations w = some w := by
  unfold kickOffLoop
  simp [hq]

theorem workerExit_records (w : World) (n : Bool) :
    (workerExit (w, n)).fQuitFinalizer = w.fQuitFinalizer ∧
    drains (workerExit (w, n)).steps = drains w.steps := by
  cases n
  · exact ⟨rfl, rfl⟩
  · simp only [workerExit]
    split
    · simp [record, drains, List.count_append, List.count_cons]
    · exact ⟨rfl, rfl⟩

theorem finishStart_records (w : World) :
    drains (finishStart w).steps = drains w.steps ∧
    (finishStart w).steps.getLast? = some WorkerStep.setFinalizerToShutDown := by
  simp [finishStart, record, drains, List.count_append, List.count_cons]

/-- The rest of the thread once the loop of the worker is left with the request set. -/
theorem threadFrom_of_left_with_quit (activations : List (List (CycleEnv × CycleExit)))
    (w : World) (n : Bool) (hq : w.fQuitFinalizer = true) :
    (match kickOffLoop activations (afterKickOff (workerExit (w, n))) with
      | none => none
      | some w1 => some (finishStart w1)) = some (finishStart (workerExit (w, n))) := by
  have h1 : (workerExit (w, n)).fQuitFinalizer = true := by
    rw [(workerExit_records w n).1]; exact hq
  have h2 : afterKickOff (workerExit (w, n)) = workerExit (w, n) := by
    simp [afterKickOff, h1]
  rw [h2, kickOffLoop_of_quit _ _ h1]

end FinalizerThread

namespace FinalizerThread

/-- C18: with an environment that never clears a quit request.  (1) When the request is
set at a test of the worker's loop condition, the rest of the thread invokes no drain and
sets `hEventFinalizerToShutDown`.  (2) When the request is clear at that test and is set in
the state in which the cycle that follows ends (it completes or throws), the rest of the
thread invokes the drain at most once, does not enter the worker again and sets
`hEventFinalizerToShutDown`.  (3) A request raised at any point of a cycle is still set at
every later point of it.  (4) `FinalizerThreadStart` is the rest of the thread from the
first test, with `bPriorityBoosted` clear. -/
theorem at_most_one_drain_after_quit (e : CycleEnv) (x : CycleExit)
    (rest : List (CycleEnv × CycleExit)) (b : Bool)
    (activations : List (List (CycleEnv × CycleExit))) (w : World) (he : e.wellBehaved) :
    (∀ cycles, w.fQuitFinalizer = true →
      threadFrom cycles b activations w = some (finishStart (workerExit (w, true))) ∧
      drains (finishStart (workerExit (w, true))).steps = drains w.steps ∧
      (finishStart (workerExit (w, true))).steps.getLast? =
        some WorkerStep.setFinalizerToShutDown) ∧
    (w.fQuitFinalizer = false → (cycleEnd e b w x).fQuitFinalizer = true →
      ∃ wf, threadFrom ((e, x) :: rest) b activations w = some wf ∧
        drains wf.steps ≤ drains w.steps + 1 ∧
        wf.steps.getLast? = some WorkerStep.setFinalizerToShutDown) ∧
    (((e.beforeDrain (record WorkerStep.waitForFinalizerEvent w)).fQuitFinalizer = true →
        (cycleUntilSnapshot e b w).1.fQuitFinalizer = true) ∧
      ((cycleUntilSnapshot e b w).1.fQuitFinalizer = true →
        (afterDrain e (cycleUntilSnapshot e b w).1).fQuitFinalizer = true) ∧
      ((afterDrain e (cycleUntilSnapshot e b w).1).fQuitFinalizer = true →
        (workerCycle e b w).1.fQuitFinalizer = true)) ∧
    ((w.fQuitFinalizer = false → ∀ cycles,
        FinalizerThreadStart true (cycles :: activations) w =
          threadFrom cycles false activations w) ∧
      (w.fQuitFinalizer = true →
        FinalizerThreadStart true activations w = some (finishStart w))) := by
  refine ⟨?_, ?_, ⟨?_, ?_, ?_⟩, ⟨?_, ?_⟩⟩
  · intro cycles hq
    refine ⟨?_, ?_, (finishStart_records _).2⟩
    · unfold threadFrom
      rw [workerRun_of_quit cycles b w hq]
      exact threadFrom_of_left_with_quit activations w true hq
    · rw [(finishStart_records _).1, (workerExit_records w true).2]
  · intro hq hend
    have key : ∀ n : Bool, workerRun ((e, x) :: rest) b w = some (cycleEnd e b w x, n) →
        ∃ wf, threadFrom ((e, x) :: rest) b activations w = some wf ∧
          drains wf.steps ≤ drains w.steps + 1 ∧
          wf.steps.getLast? = some WorkerStep.setFinalizerToShutDown := by
      intro n hrun
      refine ⟨finishStart (workerExit (cycleEnd e b w x, n)), ?_, ?_, (finishStart_records _).2⟩
      · unfold threadFrom
        rw [hrun]
        exact threadFrom_of_left_with_quit activations _ n hend
      · rw [(finishStart_records _).1, (workerExit_records _ n).2]
        exact cycleEnd_drains e he b w x
    cases x with
    | completes =>
      apply key true
      rw [workerRun_cons e _ rest b w hq]
      simp only
      exact workerRun_of_quit rest _ _ hend
    | throwsInPendingWork =>
      apply key false
      rw [workerRun_cons e _ rest b w hq]
    | throwsInExtraWork =>
      apply key false
      rw [workerRun_cons e _ rest b w hq]
    | throwsInDrain =>
      apply key false
      rw [workerRun_cons e _ rest b w hq]
  · exact (cycleUntilSnapshot_records e he b w).2
  · exact (afterDrain_records e he _).2
  · intro h
    rw [workerCycle_fQuit]
    exact h
  · intro hq cycles
    simp only [FinalizerThreadStart, threadFrom, if_true]
    conv_lhs => unfold kickOffLoop
    simp only [hq, Bool.false_eq_true, if_false]
    cases workerRun cycles false w <;> rfl
  · intro hq
    simp only [FinalizerThreadStart, if_true]
    rw [kickOffLoop_of_quit _ _ hq]

theorem envQuitWhileWaiting_wellBehaved : envQuitWhileWaiting.wellBehaved := by
  refine ⟨?_, ?_, ?_⟩ <;> intro w <;> simp [envQuitWhileWaiting]

/-- Witness for C18: the quit request is raised while the worker waits in its first cycle;
the thread runs that cycle's drain, leaves the worker and sets `hEventFinalizerToShutDown`:
one drain in total, although more cycles and another activation were available. -/
theorem at_most_one_drain_after_quit_witness :
    envQuitWhileWaiting.wellBehaved ∧
    worldSeven.fQuitFinalizer = false ∧
    (FinalizerThreadStart true
      [[(envQuitWhileWaiting, CycleExit.completes), (envQuiet, CycleExit.completes)],
        [(envQuiet, CycleExit.completes)]] worldSeven).map (fun w => drains w.steps) =
        some 1 ∧
    ∃ wf, threadFrom
        [(envQuitWhileWaiting, CycleExit.completes), (envQuiet, CycleExit.completes)] false
        [[(envQuiet, CycleExit.completes)]] worldSeven = some wf ∧
      drains wf.steps ≤ drains worldSeven.steps + 1 ∧
      wf.steps.getLast? = some WorkerStep.setFinalizerToShutDown :=
  ⟨envQuitWhileWaiting_wellBehaved, rfl, by decide,
    (at_most_one_drain_after_quit envQuitWhileWaiting CycleExit.completes
      [(envQuiet, CycleExit.completes)] false [[(envQuiet, CycleExit.completes)]] worldSeven
      envQuitWhileWaiting_wellBehaved).2.1 rfl (by decide)⟩

end FinalizerThread

namespace FinalizerThread

/-! ## First-cycle initialisation -/

/-- Extending the record by operations other than the platform initialisation, with the
static flag unchanged, keeps `initRecorded`. -/
theorem initRecorded_of_append (w w' : World) (extra : List WorkerStep)
    (h1 : w'.steps = w.steps ++ extra)
    (h2 : w'.s_InitializedFinalizerThreadForPlatform = w.s_InitializedFinalizerThreadForPlatform)
    (h3 : platformInits extra = 0) (hw : initRecorded w) : initRecorded w' := by
  unfold initRecorded at hw ⊢
  rw [h1, h2, ← hw]
  unfold platformInits at h3 ⊢
  rw [List.count_append, h3]
  rfl

theorem initRecorded_record (st : WorkerStep) (w : World)
    (hst : st ≠ WorkerStep.initializationForManagedThreadInNative) (hw : initRecorded w) :
    initRecorded (record st w) := by
  refine initRecorded_of_append w _ [st] rfl rfl ?_ hw
  unfold platformInits
  rw [List.count_cons, List.count_nil]
  simp [hst]

theorem initRecorded_env (g : World → World) (hg : keepsWorkerRecords g) (w : World)
    (hw : initRecorded w) : initRecorded (g w) := by
  refine initRecorded_of_append w _ [] ?_ (hg w).2.1 rfl hw
  rw [(hg w).1]
  simp

theorem cycleUntilSnapshot_initRecorded (e : CycleEnv) (he : e.wellBehaved) (b : Bool)
    (w : World) (hw : initRecorded w) :
    initRecorded (cycleUntilSnapshot e b w).1 ∧
    (cycleUntilSnapshot e b w).1.s_InitializedFinalizerThreadForPlatform = true := by
  obtain ⟨w4, h4, hsteps, _, hinit, _⟩ := cycleUntilSnapshot_shape e b w
  have hw1 : initRecorded (e.beforeDrain (record WorkerStep.waitForFinalizerEvent w)) :=
    initRecorded_env _ he.1 _ (initRecorded_record _ w (by decide) hw)
  have hw4 : initRecorded w4 := by
    unfold initRecorded at hw1 ⊢
    rw [hsteps, hinit]
    unfold platformInits at hw1 ⊢
    rw [List.count_append, hw1]
    cases b <;>
      cases (e.beforeDrain (record WorkerStep.waitForFinalizerEvent
        w)).s_InitializedFinalizerThreadForPlatform <;>
      simp [List.count_cons]
  rw [h4]
  exact ⟨initRecorded_env _ he.2.1 _ hw4, by rw [(he.2.1 w4).2.1]; exact hinit⟩

theorem afterDrain_initRecorded (e : CycleEnv) (he : e.wellBehaved) (w : World)
    (hw : initRecorded w) : initRecorded (afterDrain e w) :=
  initRecorded_env _ he.2.2 _ (initRecorded_record _ w (by decide) hw)

theorem SignalFinalizationDone_initRecorded (v : Int) (w : World) (hw : initRecorded w) :
    initRecorded (SignalFinalizationDone v w) := by
  refine initRecorded_of_append w _
    [WorkerStep.storeFullGcCountSeen v, WorkerStep.setFinalizerDone] ?_ rfl ?_ hw
  · simp [SignalFinalizationDone, record]
  · simp [platformInits, List.count_cons]

theorem cycleEnd_initRecorded (e : CycleEnv) (he : e.wellBehaved) (b : Bool) (w : World)
    (x : CycleExit) (hw : initRecorded w) : initRecorded (cycleEnd e b w x) := by
  cases x with
  | completes =>
    exact SignalFinalizationDone_initRecorded _ _
      (afterDrain_initRecorded e he _ (cycleUntilSnapshot_initRecorded e he b w hw).1)
  | throwsInPendingWork =>
    exact initRecorded_env _ he.1 _ (initRecorded_record _ w (by decide) hw)
  | throwsInExtraWork => exact (cycleUntilSnapshot_initRecorded e he b w hw).1
  | throwsInDrain =>
    exact afterDrain_initRecorded e he _ (cycleUntilSnapshot_initRecorded e he b w hw).1

theorem workerRun_initRecorded (cycles : List (CycleEnv × CycleExit))
    (hall : ∀ ce, ce ∈ cycles → ce.1.wellBehaved) :
    ∀ (b : Bool) (w : World) (r : World × Bool), initRecorded w →
      workerRun cycles b w = some r → initRecorded r.1 := by
  induction cycles with
  | nil =>
    intro b w r hw hrun
    unfold workerRun at hrun
    by_cases hq : w.fQuitFinalizer = true
    · simp [hq] at hrun
      rw [← hrun]
      exact hw
    · simp [hq] at hrun
  | cons ce rest ih =>
    intro b w r hw hrun
    obtain ⟨e, x⟩ := ce
    have he : e.wellBehaved := hall (e, x) (List.mem_cons_self _ _)
    by_cases hq : w.fQuitFinalizer = true
    · rw [workerRun_of_quit _ b w hq] at hrun
      cases hrun
      exact hw
    · have hq' : w.fQuitFinalizer = false := by simpa using hq
      rw [workerRun_cons e x rest b w hq'] at hrun
      cases x with
      | completes =>
        simp only at hrun
        exact ih (fun ce hce => hall ce (List.mem_cons_of_mem _ hce)) _ _ r
          (cycleEnd_initRecorded e he b w CycleExit.completes hw) hrun
      | throwsInPendingWork =>
        simp only [Option.some.injEq] at hrun
        rw [← hrun]
        exact cycleEnd_initRecorded e he b w _ hw
      | throwsInExtraWork =>
        simp only [Option.some.injEq] at hrun
        rw [← hrun]
        exact cycleEnd_initRecorded e he b w _ hw
      | throwsInDrain =>
        simp only [Option.some.injEq] at hrun
        rw [← hrun]
        exact cycleEnd_initRecorded e he b w _ hw

theorem workerExit_initRecorded (r : World × Bool) (hr : initRecorded r.1) :
    initRecorded (workerExit r) := by
  obtain ⟨w, n⟩ := r
  cases n
  · exact hr
  · simp only [workerExit]
    split
    · exact initRecorded_record _ w (by decide) hr
    · exact hr

theorem afterKickOff_initRecorded (w : World) (hw : initRecorded w) :
    initRecorded (afterKickOff w) := by
  unfold afterKickOff
  split
  · exact initRecorded_record _ w (by decide) hw
  · exact hw

theorem kickOffLoop_initRecorded (activations : List (List (CycleEnv × CycleExit)))
    (hall : ∀ cycles, cycles ∈ activations → ∀ ce, ce ∈ cycles → ce.1.wellBehaved) :
    ∀ (w wf : World), initRecorded w → kickOffLoop activations w = some wf →
      initRecorded wf := by
  induction activations with
  | nil =>
    intro w wf hw hrun
    unfold kickOffLoop at hrun
    by_cases hq : w.fQuitFinalizer = true
    · simp [hq] at hrun
      rw [← hrun]
      exact hw
    · simp [hq] at hrun
  | cons cycles rest ih =>
    intro w wf hw hrun
    by_cases hq : w.fQuitFinalizer = true
    · rw [kickOffLoop_of_quit _ w hq] at hrun
      cases hrun
      exact hw
    · unfold kickOffLoop at hrun
      simp only [hq, if_false] at hrun
      cases hr : workerRun cycles false w with
      | none => simp [hr] at hrun
      | some r =>
        simp only [hr] at hrun
        have h1 := workerRun_initRecorded cycles (hall cycles (List.mem_cons_self _ _))
          false w r hw hr
        exact ih (fun c hc => hall c (List.mem_cons_of_mem _ hc)) _ wf
          (afterKickOff_initRecorded _ (workerExit_initRecorded r h1)) hrun

end FinalizerThread

namespace FinalizerThread

theorem envQuiet_wellBehaved : envQuiet.wellBehaved := by
  refine ⟨?_, ?_, ?_⟩ <;> intro w <;> simp [envQuiet]

theorem envRacingGc_wellBehaved : envRacingGc.wellBehaved := by
  refine ⟨?_, ?_, ?_⟩ <;> intro w <;> simp [envRacingGc]

/-- C19 (as stated, refuted): the priority boost is attempted twice when the first attempt
fails (two cycles of one activation), and twice when the worker is entered again after an
exception although the first attempt succeeded; the platform initialisation is called once
in both runs. -/
theorem priority_boost_attempted_twice :
    (FinalizerThreadStart true
      [[(envPriorityFails, CycleExit.completes), (envRacingGc, CycleExit.completes)]]
      worldSeven).map (fun w => (priorityAttempts w.steps, platformInits w.steps)) =
        some (2, 1) ∧
    (FinalizerThreadStart true
      [[(envQuiet, CycleExit.throwsInDrain)], [(envRacingGc, CycleExit.completes)]]
      worldSeven).map (fun w => (priorityAttempts w.steps, platformInits w.steps)) =
        some (2, 1) := by
  constructor <;> decide

/-- C19 (amended): over a whole run of `FinalizerThreadStart`, with every activation of the
worker and every exception, the platform initialisation is called at most once, and
exactly once when the static flag is set at the end; every completed snapshot leaves the
flag set.  The priority boost is attempted in a cycle exactly when the local
`bPriorityBoosted` is clear, which then takes the result of the attempt; every activation
of the worker starts with it clear. -/
theorem platform_init_once_priority_retried
    (activations : List (List (CycleEnv × CycleExit))) (w wf : World)
    (hall : ∀ cycles, cycles ∈ activations → ∀ ce, ce ∈ cycles → ce.1.wellBehaved)
    (hw : initRecorded w) (hrun : FinalizerThreadStart true activations w = some wf) :
    platformInits wf.steps ≤ 1 ∧
    (wf.s_InitializedFinalizerThreadForPlatform = true → platformInits wf.steps = 1) ∧
    (∀ (e : CycleEnv) (b : Bool) (w' : World), e.wellBehaved →
      priorityAttempts (cycleUntilSnapshot e b w').1.steps =
        priorityAttempts w'.steps + (if b then 0 else 1) ∧
      (cycleUntilSnapshot e b w').2 = (if b then true else e.setThreadPriorityOk) ∧
      (cycleUntilSnapshot e b w').1.s_InitializedFinalizerThreadForPlatform = true) ∧
    (∀ (cycles : List (CycleEnv × CycleExit)) (rest : List (List (CycleEnv × CycleExit)))
      (w' : World), w'.fQuitFinalizer = false →
      kickOffLoop (cycles :: rest) w' =
        match workerRun cycles false w' with
        | none => none
        | some r => kickOffLoop rest (afterKickOff (workerExit r))) := by
  have hfin : initRecorded wf := by
    simp only [FinalizerThreadStart, if_true] at hrun
    cases hk : kickOffLoop activations w with
    | none => simp [hk] at hrun
    | some w1 =>
      simp only [hk, Option.some.injEq] at hrun
      rw [← hrun]
      have h1 := kickOffLoop_initRecorded activations hall w w1 hw hk
      exact initRecorded_record _ _ (by decide) (initRecorded_record _ _ (by decide) h1)
  refine ⟨?_, ?_, ?_, ?_⟩
  · unfold initRecorded at hfin
    rw [hfin]
    split <;> omega
  · intro hs
    unfold initRecorded at hfin
    rw [hfin, hs]
    rfl
  · intro e b w' he
    obtain ⟨w4, h4, hsteps, _, hinit, hflag⟩ := cycleUntilSnapshot_shape e b w'
    refine ⟨?_, hflag, ?_⟩
    · rw [h4, (he.2.1 w4).1, hsteps, (he.1 _).1]
      cases b <;>
        cases (e.beforeDrain (record WorkerStep.waitForFinalizerEvent
          w')).s_InitializedFinalizerThreadForPlatform <;>
        simp [record, priorityAttempts, List.count_append, List.count_cons]
    · rw [h4, (he.2.1 w4).2.1]
      exact hinit
  · intro cycles rest w' hq
    conv_lhs => unfold kickOffLoop
    simp [hq]

/-- Witness for C19 (amended): the worker is entered again after an exception in the
drain of its first activation; the platform initialisation is called once in the run. -/
theorem platform_init_once_priority_retried_witness :
    initRecorded worldSeven ∧
    (FinalizerThreadStart true
      [[(envQuiet, CycleExit.throwsInDrain)], [(envRacingGc, CycleExit.completes)]]
      worldSeven).isSome = true ∧
    ∀ wf, FinalizerThreadStart true
        [[(envQuiet, CycleExit.throwsInDrain)], [(envRacingGc, CycleExit.completes)]]
        worldSeven = some wf → platformInits wf.steps ≤ 1 :=
  ⟨by unfold initRecorded; decide, by decide, fun wf hrun =>
    (platform_init_once_priority_retried
      [[(envQuiet, CycleExit.throwsInDrain)], [(envRacingGc, CycleExit.completes)]]
      worldSeven wf
      (by
        intro cycles hc ce hce
        simp only [List.mem_cons, List.mem_singleton, List.not_mem_nil, or_false] at hc
        rcases hc with rfl | rfl
        · simp only [List.mem_singleton] at hce
          subst hce
          exact envQuiet_wellBehaved
        · simp only [List.mem_singleton] at hce
          subst hce
          exact envRacingGc_wellBehaved)
      (by unfold initRecorded; decide) hrun).1⟩

end FinalizerThread

namespace FinalizerThread

/-! ## The handles waited on in phase 2 -/

theorem waitedHandles_excluded (p : WaitPass) (h : lowMemoryExcluded p = true) :
    waitedHandles p = [MHandleType.kFinalizer] ∧ uiEventIndexOffsetForWait p = 1 := by
  simp [waitedHandles, uiEventIndexOffsetForWait, cEventsForWait, h, MHandles, kHandleCount,
    MHandleType.value]

/-- A return value that is not a wake: when the low-memory handle is left out and the wait
fails with `WAIT_FAILED`, the sum with the offset wraps to `0` in 32-bit arithmetic and the
low-memory branch is taken. -/
theorem phase2_wait_failed_wraps (linuxHeapDump : Bool) (p : WaitPass)
    (hex : lowMemoryExcluded p = true) (hfail : p.multiWait = WAIT_FAILED) :
    switchValue p = WAIT_OBJECT_0 + MHandleType.kLowMemoryNotification.value ∧
    WaitCall.garbageCollectGen0 ∈ (phase2Pass linuxHeapDump p).1 := by
  have hsv : switchValue p = 0 := by
    unfold switchValue
    rw [(waitedHandles_excluded p hex).2, hfail]
    rfl
  exact ⟨hsv, by simp [phase2Pass, hsv, WAIT_OBJECT_0, MHandleType.value]⟩

end FinalizerThread

namespace FinalizerThread

/-! ## The next finalizable object -/

theorem ClrBit_and_bit (bits bit : Nat) (h : bit < 4294967296) : ClrBit bits bit &&& bit = 0 := by
  unfold ClrBit
  apply Nat.eq_of_testBit_eq
  intro i
  simp only [Nat.testBit_and, Nat.testBit_xor, Nat.zero_testBit]
  cases hb : bit.testBit i
  · simp
  · have hi : i < 32 := by
      by_contra hge
      have hlt : bit < 2 ^ i := lt_of_lt_of_le h (by
        have e : (4294967296 : Nat) = 2 ^ 32 := by norm_num
        rw [e]; exact Nat.pow_le_pow_right (by norm_num) (by omega))
      rw [Nat.testBit_lt_two_pow hlt] at hb
      exact absurd hb (by simp)
    have e : (4294967295 : Nat) = 2 ^ 32 - 1 := by norm_num
    rw [e, Nat.testBit_two_pow_sub_one]
    simp [hi]

theorem Again_of_quit (bit : Nat) (quitAt : Nat → Bool) (mt : Nat → MethodTable) (k : Nat)
    (queue : List Nat) (header : Nat → Nat) (hq : quitAt k = true) :
    Again bit quitAt mt k queue header = (none, queue, header) := by
  unfold Again
  simp [hq]

theorem Again_nil (bit : Nat) (quitAt : Nat → Bool) (mt : Nat → MethodTable) (k : Nat)
    (header : Nat → Nat) :
    Again bit quitAt mt k [] header = (none, [], header) := by
  unfold Again
  by_cases hq : quitAt k = true <;> simp [hq]

theorem Again_cons_bit (bit : Nat) (quitAt : Nat → Bool) (mt : Nat → MethodTable) (k : Nat)
    (obj : Nat) (rest : List Nat) (header : Nat → Nat) (hq : quitAt k = false)
    (hb : header obj &&& bit ≠ 0) :
    Again bit quitAt mt k (obj :: rest) header
      = Again bit quitAt mt (k + 1) rest (Function.update header obj (ClrBit (header obj) bit)) := by
  conv_lhs => unfold Again
  simp [hq, hb]

theorem Again_cons_init_error (bit : Nat) (quitAt : Nat → Bool) (mt : Nat → MethodTable) (k : Nat)
    (obj : Nat) (rest : List Nat) (header : Nat → Nat) (hq : quitAt k = false)
    (hb : header obj &&& bit = 0) (ht : skipsForInitError (mt obj) = true) :
    Again bit quitAt mt k (obj :: rest) header = Again bit quitAt mt (k + 1) rest header := by
  conv_lhs => unfold Again
  simp [hq, hb, ht]

theorem Again_cons_return (bit : Nat) (quitAt : Nat → Bool) (mt : Nat → MethodTable) (k : Nat)
    (obj : Nat) (rest : List Nat) (header : Nat → Nat) (hq : quitAt k = false)
    (hb : header obj &&& bit = 0) (ht : skipsForInitError (mt obj) = false) :
    Again bit quitAt mt k (obj :: rest) header = (some obj, rest, header) := by
  conv_lhs => unfold Again
  simp [hq, hb, ht]

theorem Again_spec (bit : Nat) (hbit : bit < 4294967296) (quitAt : Nat → Bool)
    (mt : Nat → MethodTable) :
    ∀ (queue : List Nat) (k : Nat) (header : Nat → Nat),
      ∃ skipped : List Nat,
        queue = skipped ++ ((Again bit quitAt mt k queue header).1.toList
          ++ (Again bit quitAt mt k queue header).2.1) ∧
        (∀ i, i < skipped.length → quitAt (k + i) = false) ∧
        (∀ x ∈ skipped, header x &&& bit ≠ 0 ∨ skipsForInitError (mt x) = true) ∧
        (∀ obj, (Again bit quitAt mt k queue header).1 = some obj →
          quitAt (k + skipped.length) = false ∧
          (Again bit quitAt mt k queue header).2.2 obj &&& bit = 0 ∧
          skipsForInitError (mt obj) = false) ∧
        ((Again bit quitAt mt k queue header).1 = none →
          (Again bit quitAt mt k queue header).2.1 = [] ∨ quitAt (k + skipped.length) = true) ∧
        (∀ y, (Again bit quitAt mt k queue header).2.2 y
          = if y ∈ skipped ∧ header y &&& bit ≠ 0 then ClrBit (header y) bit else header y) := by
  intro queue
  induction queue with
  | nil =>
    intro k header
    refine ⟨[], ?_⟩
    rw [Again_nil]
    simp
  | cons obj rest ih =>
    intro k header
    by_cases hq : quitAt k = true
    · refine ⟨[], ?_⟩
      rw [Again_of_quit bit quitAt mt k _ header hq]
      simp [hq]
    · have hq0 : quitAt k = false := by simpa using hq
      by_cases hb : header obj &&& bit ≠ 0
      · obtain ⟨sk, h1, h2, h3, h4, h5, h6⟩ :=
          ih (k + 1) (Function.update header obj (ClrBit (header obj) bit))
        rw [Again_cons_bit bit quitAt mt k obj rest header hq0 hb]
        refine ⟨obj :: sk, ?_, ?_, ?_, ?_, ?_, ?_⟩
        · rw [List.cons_append, ← h1]
        · intro i hi
          cases i with
          | zero => simpa using hq0
          | succ j =>
            have := h2 j (by simpa using hi)
            rw [show k + (j + 1) = k + 1 + j by omega]
            exact this
        · intro x hx
          rcases List.mem_cons.mp hx with rfl | hx
          · exact Or.inl hb
          · rcases h3 x hx with h | h
            · by_cases hxo : x = obj
              · subst hxo
                exact Or.inl hb
              · rw [Function.update_noteq hxo] at h
                exact Or.inl h
            · exact Or.inr h
        · intro o ho
          have := h4 o ho
          rw [show k + (obj :: sk).length = k + 1 + sk.length by simp; omega]
          exact this
        · intro hn
          have := h5 hn
          rw [show k + (obj :: sk).length = k + 1 + sk.length by simp; omega]
          exact this
        · intro y
          rw [h6 y]
          by_cases hy : y = obj
          · subst hy
            have hc : ClrBit (header y) bit &&& bit = 0 := ClrBit_and_bit _ _ hbit
            simp [Function.update_same, hc, hb]
          · simp [Function.update_noteq hy, hy]
      · have hb0 : header obj &&& bit = 0 := by simpa using hb
        cases ht : skipsForInitError (mt obj)
        · refine ⟨[], ?_⟩
          rw [Again_cons_return bit quitAt mt k obj rest header hq0 hb0 ht]
          simp [hq0, hb0, ht]
        · obtain ⟨sk, h1, h2, h3, h4, h5, h6⟩ := ih (k + 1) header
          rw [Again_cons_init_error bit quitAt mt k obj rest header hq0 hb0 ht]
          refine ⟨obj :: sk, ?_, ?_, ?_, ?_, ?_, ?_⟩
          · rw [List.cons_append, ← h1]
          · intro i hi
            cases i with
            | zero => simpa using hq0
            | succ j =>
              have := h2 j (by simpa using hi)
              rw [show k + (j + 1) = k + 1 + j by omega]
              exact this
          · intro x hx
            rcases List.mem_cons.mp hx with rfl | hx
            · exact Or.inr ht
            · exact h3 x hx
          · intro o ho
            have := h4 o ho
            rw [show k + (obj :: sk).length = k + 1 + sk.length by simp; omega]
            exact this
          · intro hn
            have := h5 hn
            rw [show k + (obj :: sk).length = k + 1 + sk.length by simp; omega]
            exact this
          · intro y
            rw [h6 y]
            by_cases hy : y = obj
            · subst hy
              simp [hb0]
            · simp [hy]

theorem preciseInitFailed_eq_any (pMT : MethodTable) :
    preciseInitFailed pMT
      = pMT.typeChain.any (fun m => !m.IsBeforeFieldInit && m.IsInitError) := by
  induction pMT using MethodTable.rec
    (motive_2 := fun o => ∀ p, o = some p → preciseInitFailed p
      = p.typeChain.any (fun m => !m.IsBeforeFieldInit && m.IsInitError)) with
  | mk a b c parent ih =>
    cases parent with
    | none =>
      simp [preciseInitFailed, MethodTable.typeChain, MethodTable.IsBeforeFieldInit,
        MethodTable.IsInitError]
    | some p =>
      have := ih p rfl
      unfold preciseInitFailed
      simp only [MethodTable.typeChain, List.any_cons, MethodTable.IsBeforeFieldInit,
        MethodTable.IsInitError, this]
      cases b <;> cases c <;> simp
  | none => rename_i p hp; cases hp
  | some val ih => rename_i p hp; cases hp; exact ih

/-- C23: `GetNextFinalizableObject` is a total function of the queue, the headers and the
values of `fQuitFinalizer` it reads, so it returns for every finite queue.  (1) When the
quit request is set at entry it returns `NULL` and leaves the queue and the headers as they
were.  (2) Otherwise the queue at entry is the dequeued objects that were passed over,
then the returned object (if any), then the queue at exit; every object passed over had
`BIT_SBLK_FINALIZER_RUN` set or failed the precise-init test, and no quit request was read
before it; the returned object has the bit clear and passes the precise-init test; `NULL`
is returned only with the queue exhausted or a quit request read at that point; after the
call the bit is clear in every object passed over, the header of an object passed over
with the bit set is its old header with that bit cleared, and every other header is
unchanged.  (3) The precise-init test fails exactly for a type that has precise-init
class constructors and whose type chain contains a type that is not before-field-init and
is in the init-error state. -/
theorem GetNextFinalizableObject_returns_first_eligible (bit : Nat) (hbit : bit < 4294967296)
    (quitAt : Nat → Bool) (heap : GCHeap) :
    (quitAt 0 = true → GetNextFinalizableObject bit quitAt heap = (none, heap)) ∧
    (∃ skipped : List Nat,
      heap.finalizationQueue = skipped ++ ((GetNextFinalizableObject bit quitAt heap).1.toList
        ++ (GetNextFinalizableObject bit quitAt heap).2.finalizationQueue) ∧
      (∀ i, i < skipped.length → quitAt i = false) ∧
      (∀ x ∈ skipped,
        heap.header x &&& bit ≠ 0 ∨ skipsForInitError (heap.methodTable x) = true) ∧
      (∀ obj, (GetNextFinalizableObject bit quitAt heap).1 = some obj →
        quitAt skipped.length = false ∧
        (GetNextFinalizableObject bit quitAt heap).2.header obj &&& bit = 0 ∧
        skipsForInitError (heap.methodTable obj) = false) ∧
      ((GetNextFinalizableObject bit quitAt heap).1 = none →
        (GetNextFinalizableObject bit quitAt heap).2.finalizationQueue = [] ∨
        quitAt skipped.length = true) ∧
      (∀ x ∈ skipped, (GetNextFinalizableObject bit quitAt heap).2.header x &&& bit = 0) ∧
      (∀ y, (GetNextFinalizableObject bit quitAt heap).2.header y
        = if y ∈ skipped ∧ heap.header y &&& bit ≠ 0 then ClrBit (heap.header y) bit
          else heap.header y) ∧
      (GetNextFinalizableObject bit quitAt heap).2.methodTable = heap.methodTable) ∧
    (∀ pMT : MethodTable, skipsForInitError pMT
      = (pMT.HasPreciseInitCctors
        && pMT.typeChain.any (fun m => !m.IsBeforeFieldInit && m.IsInitError))) := by
  refine ⟨?_, ?_, ?_⟩
  · intro hq
    unfold GetNextFinalizableObject
    rw [Again_of_quit bit quitAt heap.methodTable 0 _ _ hq]
  · obtain ⟨skipped, h1, h2, h3, h4, h5, h6⟩ :=
      Again_spec bit hbit quitAt heap.methodTable heap.finalizationQueue 0 heap.header
    refine ⟨skipped, h1, ?_, h3, ?_, ?_, ?_, h6, rfl⟩
    · intro i hi
      have := h2 i hi
      rwa [Nat.zero_add] at this
    · intro obj ho
      have := h4 obj ho
      rwa [Nat.zero_add] at this
    · intro hn
      have := h5 hn
      rwa [Nat.zero_add] at this
    · intro x hx
      have hy := h6 x
      by_cases hb : heap.header x &&& bit ≠ 0
      · have e : (GetNextFinalizableObject bit quitAt heap).2.header x
            = ClrBit (heap.header x) bit := by
          rw [show (GetNextFinalizableObject bit quitAt heap).2.header x = _ from hy]
          simp [hx, hb]
        rw [e]
        exact ClrBit_and_bit _ _ hbit
      · have hb0 : heap.header x &&& bit = 0 := by simpa using hb
        have e : (GetNextFinalizableObject bit quitAt heap).2.header x = heap.header x := by
          rw [show (GetNextFinalizableObject bit quitAt heap).2.header x = _ from hy]
          simp [hb0]
        rw [e]
        exact hb0
  · intro pMT
    unfold skipsForInitError
    rw [preciseInitFailed_eq_any]

/-- Witness for C23: objects 1 to 4 are queued, object 1 has `BIT_SBLK_FINALIZER_RUN` set
and object 2 has a parent type in the init-error state.  Objects 1 and 2 are passed over,
object 3 is returned, object 4 stays queued, and the header of object 1 keeps its other
bits. -/
theorem GetNextFinalizableObject_returns_first_eligible_witness :
    finalizerRunBit < 4294967296 ∧
    (GetNextFinalizableObject finalizerRunBit neverQuit heapFour).1 = some 3 ∧
    (GetNextFinalizableObject finalizerRunBit neverQuit heapFour).2.finalizationQueue = [4] ∧
    (GetNextFinalizableObject finalizerRunBit neverQuit heapFour).2.header 1 = 5 ∧
    (GetNextFinalizableObject finalizerRunBit (fun _ => true) heapFour).1 = none ∧
    (GetNextFinalizableObject finalizerRunBit (fun _ => true) heapFour).2.finalizationQueue
      = [1, 2, 3, 4] ∧
    ∃ skipped : List Nat,
      heapFour.finalizationQueue
        = skipped ++ ((GetNextFinalizableObject finalizerRunBit neverQuit heapFour).1.toList
          ++ (GetNextFinalizableObject finalizerRunBit neverQuit heapFour).2.finalizationQueue) ∧
      ∀ x ∈ skipped,
        (GetNextFinalizableObject finalizerRunBit neverQuit heapFour).2.header x
          &&& finalizerRunBit = 0 :=
  ⟨by decide, by decide, by decide, by decide, by decide, by decide,
    (GetNextFinalizableObject_returns_first_eligible finalizerRunBit (by decide) neverQuit
      heapFour).2.1.imp (fun _ h => ⟨h.1, h.2.2.2.2.2.1⟩)⟩

end FinalizerThread

namespace DsIpc

open DiagnosticsPortType DiagnosticsPortSuspendMode

/-! ## Conflicting tags in one port-config -/

theorem compare_ne_zero_of_eqIgnoreCase_other (tag a b : List Char)
    (hab : a.map Char.toLower ≠ b.map Char.toLower) (ha : eqIgnoreCase tag a) :
    ep_rt_utf8_string_compare_ignore_case tag b ≠ 0 :=
  fun hb => hab (ha.symm.trans ((compare_ignore_case_eq_zero_iff tag b).mp hb))

theorem set_tag_type_of_not_typeTag (b : DiagnosticsPortBuilder) (t : List Char)
    (h : ¬ isTypeTag t) : (ds_port_builder_set_tag b t).type = b.type := by
  have h1 : ep_rt_utf8_string_compare_ignore_case t "listen".toList ≠ 0 :=
    fun h0 => h (Or.inl ((compare_ignore_case_eq_zero_iff t _).mp h0))
  have h2 : ep_rt_utf8_string_compare_ignore_case t "connect".toList ≠ 0 :=
    fun h0 => h (Or.inr ((compare_ignore_case_eq_zero_iff t _).mp h0))
  unfold ds_port_builder_set_tag
  rw [if_neg h1, if_neg h2]
  split
  · rfl
  · split <;> rfl

theorem set_tag_type_of_typeTag (b : DiagnosticsPortBuilder) (t : List Char)
    (h : isTypeTag t) : (ds_port_builder_set_tag b t).type = typeOfTag t := by
  unfold typeOfTag
  rcases h with h | h
  · unfold ds_port_builder_set_tag
    rw [if_pos ((compare_ignore_case_eq_zero_iff t _).mpr h), if_pos h]
  · have hl : ¬ eqIgnoreCase t "listen".toList := by
      intro hl
      have : "listen".toList.map Char.toLower = "connect".toList.map Char.toLower :=
        hl.symm.trans h
      exact absurd this (by decide)
    unfold ds_port_builder_set_tag
    rw [if_neg (compare_ne_zero_of_eqIgnoreCase_other t _ "listen".toList (by decide) h),
      if_pos ((compare_ignore_case_eq_zero_iff t _).mpr h), if_neg hl]

theorem set_tag_suspend_of_not_suspendTag (b : DiagnosticsPortBuilder) (t : List Char)
    (h : ¬ isSuspendTag t) : (ds_port_builder_set_tag b t).suspend_mode = b.suspend_mode := by
  have h1 : ep_rt_utf8_string_compare_ignore_case t "nosuspend".toList ≠ 0 :=
    fun h0 => h (Or.inr ((compare_ignore_case_eq_zero_iff t _).mp h0))
  have h2 : ep_rt_utf8_string_compare_ignore_case t "suspend".toList ≠ 0 :=
    fun h0 => h (Or.inl ((compare_ignore_case_eq_zero_iff t _).mp h0))
  unfold ds_port_builder_set_tag
  split_ifs <;> rfl

theorem set_tag_suspend_of_suspendTag (b : DiagnosticsPortBuilder) (t : List Char)
    (h : isSuspendTag t) : (ds_port_builder_set_tag b t).suspend_mode = suspendModeOfTag t := by
  unfold suspendModeOfTag
  rcases h with h | h
  · unfold ds_port_builder_set_tag
    rw [if_neg (compare_ne_zero_of_eqIgnoreCase_other t _ "listen".toList (by decide) h),
      if_neg (compare_ne_zero_of_eqIgnoreCase_other t _ "connect".toList (by decide) h),
      if_neg (compare_ne_zero_of_eqIgnoreCase_other t _ "nosuspend".toList (by decide) h),
      if_pos ((compare_ignore_case_eq_zero_iff t _).mpr h), if_pos h]
  · have hs : ¬ eqIgnoreCase t "suspend".toList := by
      intro hs
      have : "suspend".toList.map Char.toLower = "nosuspend".toList.map Char.toLower :=
        hs.symm.trans h
      exact absurd this (by decide)
    unfold ds_port_builder_set_tag
    rw [if_neg (compare_ne_zero_of_eqIgnoreCase_other t _ "listen".toList (by decide) h),
      if_neg (compare_ne_zero_of_eqIgnoreCase_other t _ "connect".toList (by decide) h),
      if_pos ((compare_ignore_case_eq_zero_iff t _).mpr h), if_neg hs]

/-- When tags are applied one after the other, a field keeps the value given by the last
tag that writes it. -/
theorem foldl_set_tag_last_wins {α : Type} (key : DiagnosticsPortBuilder → α)
    (isTag : List Char → Prop) (val : List Char → α)
    (hno : ∀ b t, ¬ isTag t → key (ds_port_builder_set_tag b t) = key b)
    (hyes : ∀ b t, isTag t → key (ds_port_builder_set_tag b t) = val t)
    (before after : List (List Char)) (t : List Char) (b : DiagnosticsPortBuilder)
    (ht : isTag t) (hafter : ∀ x ∈ after, ¬ isTag x) :
    key ((before ++ t :: after).foldl ds_port_builder_set_tag b) = val t := by
  rw [List.foldl_append, List.foldl_cons]
  have keep : ∀ (l : List (List Char)) (b0 : DiagnosticsPortBuilder),
      (∀ x ∈ l, ¬ isTag x) → key (l.foldl ds_port_builder_set_tag b0) = key b0 := by
    intro l
    induction l with
    | nil => intro b0 _; rfl
    | cons x xs ih =>
      intro b0 hl
      rw [List.foldl_cons, ih _ (fun y hy => hl y (List.mem_cons_of_mem _ hy)),
        hno b0 x (hl x (List.mem_cons_self _ _))]
  rw [keep after _ hafter, hyes _ t ht]

/-- C22 (as stated, refuted): in `listen,connect,/tmp/a` the tag word that appears
earliest is `listen`, which selects type Listen, but the builder has type Connect: the
first part is the address.  In `nosuspend,suspend,/tmp/a` the earliest is `nosuspend`, and
the builder has suspend mode Suspend. -/
theorem tag_word_in_first_position_does_not_win :
    ipc_stream_factory_split_port_config "listen,connect,/tmp/a".toList [','] []
      = ["listen".toList, "connect".toList, "/tmp/a".toList] ∧
    typeOfTag "listen".toList = DS_PORT_TYPE_LISTEN ∧
    (builderOfParts
      (ipc_stream_factory_split_port_config "listen,connect,/tmp/a".toList [','] [])).type
      = DS_PORT_TYPE_CONNECT ∧
    (builderOfParts
      (ipc_stream_factory_split_port_config "listen,connect,/tmp/a".toList [','] [])).path
      = some "listen".toList ∧
    suspendModeOfTag "nosuspend".toList = DS_PORT_SUSPEND_MODE_NOSUSPEND ∧
    (builderOfParts
      (ipc_stream_factory_split_port_config "nosuspend,suspend,/tmp/a".toList [','] [])).suspend_mode
      = DS_PORT_SUSPEND_MODE_SUSPEND := by
  refine ⟨?_, ?_, ?_, ?_, ?_, ?_⟩ <;> decide

/-- C22 (amended): when the parts of a port-config are `address`, then `earlier`, then
`t`, then `later`, the builder has `address` as its path; if `t` is a type tag and no part
of `earlier` is one, the builder has the type selected by `t`, whatever `later` holds; if
`t` is a suspend tag and no part of `earlier` is one, the builder has the suspend mode
selected by `t`.  The value selected by a tag is the one `ds_port_builder_set_tag` writes
for it.  The first part is never applied as a tag. -/
theorem earliest_tag_after_address_wins (port_config address t : List Char)
    (earlier later : List (List Char))
    (hsplit : ipc_stream_factory_split_port_config port_config [','] []
      = address :: (earlier ++ t :: later)) :
    (builderOfParts (ipc_stream_factory_split_port_config port_config [','] [])).path
      = some address ∧
    (isTypeTag t → (∀ x ∈ earlier, ¬ isTypeTag x) →
      (builderOfParts (ipc_stream_factory_split_port_config port_config [','] [])).type
        = typeOfTag t) ∧
    (isSuspendTag t → (∀ x ∈ earlier, ¬ isSuspendTag x) →
      (builderOfParts
        (ipc_stream_factory_split_port_config port_config [','] [])).suspend_mode
        = suspendModeOfTag t) ∧
    (isTypeTag t → ∀ b, (ds_port_builder_set_tag b t).type = typeOfTag t) ∧
    (isSuspendTag t → ∀ b, (ds_port_builder_set_tag b t).suspend_mode = suspendModeOfTag t) := by
  rw [hsplit, builderOfParts_cons]
  have hrev : (earlier ++ t :: later).reverse = later.reverse ++ t :: earlier.reverse := by
    simp
  rw [hrev]
  refine ⟨rfl, ?_, ?_, ?_, ?_⟩
  · intro ht hearlier
    exact foldl_set_tag_last_wins (fun b => b.type) isTypeTag typeOfTag
      set_tag_type_of_not_typeTag set_tag_type_of_typeTag later.reverse earlier.reverse t _ ht
      (fun x hx => hearlier x (List.mem_reverse.mp hx))
  · intro ht hearlier
    exact foldl_set_tag_last_wins (fun b => b.suspend_mode) isSuspendTag suspendModeOfTag
      set_tag_suspend_of_not_suspendTag set_tag_suspend_of_suspendTag later.reverse
      earlier.reverse t _ ht (fun x hx => hearlier x (List.mem_reverse.mp hx))
  · exact fun ht b => set_tag_type_of_typeTag b t ht
  · exact fun ht b => set_tag_suspend_of_suspendTag b t ht

/-- Witness for C22 (amended): in `/tmp/a,foo,Listen,connect,nosuspend,suspend` the first
type tag after the address is `Listen` and the builder has type Listen, although
`connect` follows. -/
theorem earliest_tag_after_address_wins_witness :
    ipc_stream_factory_split_port_config
        "/tmp/a,foo,Listen,connect,nosuspend,suspend".toList [','] []
      = "/tmp/a".toList :: (["foo".toList] ++ "Listen".toList ::
          ["connect".toList, "nosuspend".toList, "suspend".toList]) ∧
    isTypeTag "Listen".toList ∧
    (∀ x ∈ ["foo".toList], ¬ isTypeTag x) ∧
    (builderOfParts (ipc_stream_factory_split_port_config
      "/tmp/a,foo,Listen,connect,nosuspend,suspend".toList [','] [])).type
        = typeOfTag "Listen".toList ∧
    typeOfTag "Listen".toList = DS_PORT_TYPE_LISTEN ∧
    (builderOfParts (ipc_stream_factory_split_port_config
      "/tmp/a,foo,Listen,connect,nosuspend,suspend".toList [','] [])).suspend_mode
        = DS_PORT_SUSPEND_MODE_NOSUSPEND :=
  ⟨by decide, by decide, by decide,
    (earliest_tag_after_address_wins "/tmp/a,foo,Listen,connect,nosuspend,suspend".toList
      "/tmp/a".toList "Listen".toList ["foo".toList]
      ["connect".toList, "nosuspend".toList, "suspend".toList] (by decide)).2.1
      (by decide) (by decide),
    by decide, by decide⟩

end DsIpc

namespace DsIpc

open DiagnosticsPortType DiagnosticsPortSuspendMode DiagnosticsIpcPollEvents

/-! ## A hang-up reported by the poll -/

theorem timeoutsUsed_get_ipc_poll_handle_vcall (r : PollRound) (port : Nat) (f : Factory) :
    timeoutsUsed (ds_port_get_ipc_poll_handle_vcall r port f).1.calls = timeoutsUsed f.calls := by
  unfold ds_port_get_ipc_poll_handle_vcall
  split
  · rfl
  · split
    · rfl
    · unfold connect_port_get_ipc_poll_handle_func
      split
      · split
        · simp [Factory.call, timeoutsUsed_append, timeoutsUsed]
        · split
          · simp [Factory.call, timeoutsUsed_append, timeoutsUsed]
          · simp [Factory.call, timeoutsUsed_append, timeoutsUsed]
      · rfl

theorem timeoutsUsed_gatherPollHandles (r : PollRound) (idxs : List Nat) :
    ∀ (f : Factory) (hs : List DiagnosticsIpcPollHandle) (ok : Bool),
      timeoutsUsed (gatherPollHandles r idxs f hs ok).1.calls = timeoutsUsed f.calls := by
  induction idxs with
  | nil => intro f hs ok; rfl
  | cons i rest ih =>
    intro f hs ok
    unfold gatherPollHandles
    have h1 := timeoutsUsed_get_ipc_poll_handle_vcall r i f
    split
    · rename_i f1 h heq
      rw [ih]
      rw [heq] at h1
      exact h1
    · rename_i f1 heq
      rw [ih]
      rw [heq] at h1
      exact h1

/-- Examining a handle leaves the timeout as it is or sets it to the minimum. -/
theorem handlePollEvent_timeout (c : IpcConsts) (r : PollRound) (h : DiagnosticsIpcPollHandle)
    (ev : DiagnosticsIpcPollEvents) (st : PollState) :
    (handlePollEvent c r h ev st).poll_timeout_ms = st.poll_timeout_ms ∨
    (handlePollEvent c r h ev st).poll_timeout_ms = c.DS_IPC_POLL_TIMEOUT_MIN_MS := by
  cases ev with
  | DS_IPC_POLL_EVENTS_NONE => exact Or.inl rfl
  | DS_IPC_POLL_EVENTS_SIGNALED =>
    left
    unfold handlePollEvent
    cases st.stream <;> rfl
  | DS_IPC_POLL_EVENTS_HANGUP => exact Or.inr rfl
  | DS_IPC_POLL_EVENTS_ERR => exact Or.inl rfl
  | DS_IPC_POLL_EVENTS_UNKNOWN => exact Or.inl rfl

theorem handlePollEvents_timeout_min (c : IpcConsts) (r : PollRound)
    (hs : List DiagnosticsIpcPollHandle) :
    ∀ (n : Nat) (st : PollState), st.poll_timeout_ms = c.DS_IPC_POLL_TIMEOUT_MIN_MS →
      (handlePollEvents c r hs n st).poll_timeout_ms = c.DS_IPC_POLL_TIMEOUT_MIN_MS := by
  induction hs with
  | nil => intro n st hst; exact hst
  | cons h rest ih =>
    intro n st hst
    have step : handlePollEvents c r (h :: rest) n st =
        handlePollEvents c r rest (n + 1) (handlePollEvent c r h (r.events n) st) := rfl
    rw [step]
    apply ih
    rcases handlePollEvent_timeout c r h (r.events n) st with e | e
    · rw [e]; exact hst
    · exact e

/-- The timeout handed to the poll or to the sleep of one pass of the loop. -/
theorem pollOrSleep_timeout (c : IpcConsts) (r : PollRound) (f : Factory) (t : Nat) :
    timeoutsUsed (pollOrSleep c r f t).1.f.calls
      = timeoutsUsed f.calls ++ [(pollOrSleep c r f t).1.poll_timeout_ms] ∧
    ((gatherPollHandles r (List.range f._ds_port_array.length) f [] true).2.1 ≠ [] →
      (pollOrSleep c r f t).1.poll_timeout_ms
        = if (gatherPollHandles r (List.range f._ds_port_array.length) f [] true).2.2
          then c.DS_IPC_TIMEOUT_INFINITE else ipc_stream_factory_get_next_timeout c t) ∧
    ((pollOrSleep c r f t).1.poll_timeout_ms = c.DS_IPC_TIMEOUT_INFINITE ∨
      (pollOrSleep c r f t).1.poll_timeout_ms = ipc_stream_factory_get_next_timeout c t ∨
      (pollOrSleep c r f t).1.poll_timeout_ms = c.DS_IPC_POLL_TIMEOUT_MAX_MS) := by
  have hg := timeoutsUsed_gatherPollHandles r (List.range f._ds_port_array.length) f [] true
  unfold pollOrSleep
  generalize gatherPollHandles r (List.range f._ds_port_array.length) f [] true = g at hg ⊢
  obtain ⟨f1, hs, cs⟩ := g
  simp only at hg ⊢
  by_cases hlen : hs.length > 0
  · rw [if_pos hlen]
    refine ⟨?_, ?_, ?_⟩
    · simp [Factory.call, timeoutsUsed_append, timeoutsUsed, hg]
    · intro _; rfl
    · cases cs
      · right; left; simp
      · left; simp
  · rw [if_neg hlen]
    refine ⟨?_, ?_, ?_⟩
    · simp [Factory.call, timeoutsUsed_append, timeoutsUsed, hg]
    · intro hne
      exact absurd (List.length_pos.mpr hne) hlen
    · cases cs
      · by_cases hinf : ipc_stream_factory_get_next_timeout c t = c.DS_IPC_TIMEOUT_INFINITE
        · right; right; simp [hinf]
        · right; left; simp [hinf]
      · right; right; simp

/-- C21 (as stated, refuted): with the runtime's constants `POLL_MIN_MS` is 10.  Two listen
ports, a hang-up on the first: the port is reset and listens again, no stream and no error
are seen, and the next poll is made with the infinite timeout.  A connect port and a
listen port, a hang-up on the connected stream: the stream is freed, the reconnect of the
next pass fails, and the next poll is made with 12 ms.  In neither run is the timeout of
the next poll 10 ms. -/
theorem timeout_of_poll_after_hangup_is_not_min :
    dsIpcConsts.DS_IPC_POLL_TIMEOUT_MIN_MS = 10 ∧
    (pollRound dsIpcConsts hangupRound (factoryWith twoListenPorts)
      dsIpcConsts.DS_IPC_TIMEOUT_INFINITE).stream = none ∧
    (pollRound dsIpcConsts hangupRound (factoryWith twoListenPorts)
      dsIpcConsts.DS_IPC_TIMEOUT_INFINITE).saw_error = false ∧
    (ds_ipc_stream_factory_get_next_available_stream dsIpcConsts defaultBuild
      [hangupRound, failingRound] (factoryWith twoListenPorts)).1.calls
      = [IpcCall.ds_ipc_poll
          [{ ipc := (defaultListenPort DS_PORT_SUSPEND_MODE_NOSUSPEND).ipc, stream := none,
             events := DS_IPC_POLL_EVENTS_NONE, user_data := 0 },
           { ipc := (defaultListenPort DS_PORT_SUSPEND_MODE_NOSUSPEND).ipc, stream := none,
             events := DS_IPC_POLL_EVENTS_NONE, user_data := 1 }] 4294967295,
         IpcCall.ds_ipc_reset 0, IpcCall.ds_ipc_listen 0,
         IpcCall.ds_ipc_poll
          [{ ipc := (defaultListenPort DS_PORT_SUSPEND_MODE_NOSUSPEND).ipc, stream := none,
             events := DS_IPC_POLL_EVENTS_NONE, user_data := 0 },
           { ipc := (defaultListenPort DS_PORT_SUSPEND_MODE_NOSUSPEND).ipc, stream := none,
             events := DS_IPC_POLL_EVENTS_NONE, user_data := 1 }] 4294967295] ∧
    (pollRound dsIpcConsts hangupRound (factoryWith connectAndListenPorts)
      dsIpcConsts.DS_IPC_TIMEOUT_INFINITE).stream = none ∧
    (pollRound dsIpcConsts hangupRound (factoryWith connectAndListenPorts)
      dsIpcConsts.DS_IPC_TIMEOUT_INFINITE).saw_error = false ∧
    (ds_ipc_stream_factory_get_next_available_stream dsIpcConsts defaultBuild
      [hangupRound, failingRound] (factoryWith connectAndListenPorts)).1.calls
      = [IpcCall.ds_ipc_connect 0, IpcCall.ds_ipc_advertise_v1_send 7,
         IpcCall.ds_ipc_poll
          [{ ipc := none, stream := some 7, events := DS_IPC_POLL_EVENTS_NONE, user_data := 0 },
           { ipc := (defaultListenPort DS_PORT_SUSPEND_MODE_NOSUSPEND).ipc, stream := none,
             events := DS_IPC_POLL_EVENTS_NONE, user_data := 1 }] 4294967295,
         IpcCall.ds_ipc_stream_free (some 7),
         IpcCall.ds_ipc_connect 0, IpcCall.ds_ipc_stream_free none,
         IpcCall.ds_ipc_poll
          [{ ipc := (defaultListenPort DS_PORT_SUSPEND_MODE_NOSUSPEND).ipc, stream := none,
             events := DS_IPC_POLL_EVENTS_NONE, user_data := 1 }] 12] := by
  refine ⟨?_, ?_, ?_, ?_, ?_, ?_, ?_⟩ <;> decide

/-- C21 (amended): in a pass of the loop whose poll returns with a hang-up on the handle
`h` (the handles are `pre`, then `h`, then `post`), in which no stream is yielded and no
error is seen:  (1) `ds_port_reset_vcall` is applied to the port of `h` in the state left
by the handles before it, and `poll_timeout_ms` is set to the minimum;  (2) at the end of
the pass `poll_timeout_ms` is the minimum;  (3) in the threaded build the loop goes on with
the next pass from that value, and in the single-threaded build the function returns `NULL`
without another poll;  (4) the next pass hands exactly one timeout to its poll or sleep:
when it polls, the infinite timeout if every port gave a handle and otherwise the back-off
successor of the minimum; in every case one of these two values or the maximum. -/
theorem hangup_resets_port_and_restarts_backoff (c : IpcConsts) (flags : BuildFlags)
    (r : PollRound) (f : Factory) (t : Nat) (pre post : List DiagnosticsIpcPollHandle)
    (h : DiagnosticsIpcPollHandle)
    (hhandles : (pollOrSleep c r f t).2.1 = pre ++ h :: post)
    (hret : (pollOrSleep c r f t).2.2 ≠ 0)
    (hev : r.events pre.length = DS_IPC_POLL_EVENTS_HANGUP)
    (hstream : (pollRound c r f t).stream = none)
    (herr : (pollRound c r f t).saw_error = false) :
    pollRound c r f t
      = handlePollEvents c r post (pre.length + 1)
          { handlePollEvents c r pre 0 (pollOrSleep c r f t).1 with
            f := ds_port_reset_vcall h.user_data
              (handlePollEvents c r pre 0 (pollOrSleep c r f t).1).f
            poll_timeout_ms := c.DS_IPC_POLL_TIMEOUT_MIN_MS } ∧
    (pollRound c r f t).poll_timeout_ms = c.DS_IPC_POLL_TIMEOUT_MIN_MS ∧
    (flags.PERFTRACING_DISABLE_THREADS = false → ∀ rest : List PollRound,
      pollLoop c flags (r :: rest) f t
        = pollLoop c flags rest (pollRound c r f t).f c.DS_IPC_POLL_TIMEOUT_MIN_MS) ∧
    (flags.PERFTRACING_DISABLE_THREADS = true → ∀ rest : List PollRound,
      pollLoop c flags (r :: rest) f t = ((pollRound c r f t).f, some none)) ∧
    (∀ r2 : PollRound,
      timeoutsUsed
          (pollOrSleep c r2 (pollRound c r f t).f c.DS_IPC_POLL_TIMEOUT_MIN_MS).1.f.calls
        = timeoutsUsed (pollRound c r f t).f.calls ++
          [(pollOrSleep c r2 (pollRound c r f t).f
            c.DS_IPC_POLL_TIMEOUT_MIN_MS).1.poll_timeout_ms] ∧
      ((gatherPollHandles r2 (List.range (pollRound c r f t).f._ds_port_array.length)
          (pollRound c r f t).f [] true).2.1 ≠ [] →
        (pollOrSleep c r2 (pollRound c r f t).f c.DS_IPC_POLL_TIMEOUT_MIN_MS).1.poll_timeout_ms
          = if (gatherPollHandles r2 (List.range (pollRound c r f t).f._ds_port_array.length)
              (pollRound c r f t).f [] true).2.2
            then c.DS_IPC_TIMEOUT_INFINITE
            else ipc_stream_factory_get_next_timeout c c.DS_IPC_POLL_TIMEOUT_MIN_MS) ∧
      ((pollOrSleep c r2 (pollRound c r f t).f c.DS_IPC_POLL_TIMEOUT_MIN_MS).1.poll_timeout_ms
          = c.DS_IPC_TIMEOUT_INFINITE ∨
        (pollOrSleep c r2 (pollRound c r f t).f c.DS_IPC_POLL_TIMEOUT_MIN_MS).1.poll_timeout_ms
          = ipc_stream_factory_get_next_timeout c c.DS_IPC_POLL_TIMEOUT_MIN_MS ∨
        (pollOrSleep c r2 (pollRound c r f t).f c.DS_IPC_POLL_TIMEOUT_MIN_MS).1.poll_timeout_ms
          = c.DS_IPC_POLL_TIMEOUT_MAX_MS)) := by
  have hround : pollRound c r f t
      = handlePollEvents c r post (pre.length + 1)
          { handlePollEvents c r pre 0 (pollOrSleep c r f t).1 with
            f := ds_port_reset_vcall h.user_data
              (handlePollEvents c r pre 0 (pollOrSleep c r f t).1).f
            poll_timeout_ms := c.DS_IPC_POLL_TIMEOUT_MIN_MS } := by
    have e0 : pollRound c r f t
        = handlePollEvents c r (pollOrSleep c r f t).2.1 0 (pollOrSleep c r f t).1 := by
      unfold pollRound
      simp only
      rw [if_pos hret]
    rw [e0, hhandles, handlePollEvents_append]
    have step : ∀ (n : Nat) (st : PollState),
        handlePollEvents c r (h :: post) n st
          = handlePollEvents c r post (n + 1) (handlePollEvent c r h (r.events n) st) :=
      fun _ _ => rfl
    rw [step, Nat.zero_add, hev]
    rfl
  have hmin : (pollRound c r f t).poll_timeout_ms = c.DS_IPC_POLL_TIMEOUT_MIN_MS := by
    rw [hround]
    exact handlePollEvents_timeout_min c r post _ _ rfl
  refine ⟨hround, hmin, ?_, ?_, ?_⟩
  · intro hth rest
    conv_lhs => unfold pollLoop
    simp only [hstream, herr, hth, hmin]
    simp
  · intro hth rest
    conv_lhs => unfold pollLoop
    simp only [hstream, herr, hth]
    simp
  · intro r2
    exact pollOrSleep_timeout c r2 (pollRound c r f t).f c.DS_IPC_POLL_TIMEOUT_MIN_MS

/-- Witness for C21 (amended): a connect port holding stream 7 and a listen port; the poll
reports a hang-up on the connect port.  At the end of the pass `poll_timeout_ms` is 10 and
the loop goes on; the failing reconnect of the next pass makes the next poll use 12 ms. -/
theorem hangup_resets_port_and_restarts_backoff_witness :
    (pollOrSleep dsIpcConsts hangupRound (factoryWith connectAndListenPorts)
        dsIpcConsts.DS_IPC_TIMEOUT_INFINITE).2.1
      = [] ++ { ipc := none, stream := some 7, events := DS_IPC_POLL_EVENTS_NONE,
                user_data := 0 } ::
          [{ ipc := (defaultListenPort DS_PORT_SUSPEND_MODE_NOSUSPEND).ipc, stream := none,
             events := DS_IPC_POLL_EVENTS_NONE, user_data := 1 }] ∧
    (pollOrSleep dsIpcConsts hangupRound (factoryWith connectAndListenPorts)
        dsIpcConsts.DS_IPC_TIMEOUT_INFINITE).2.2 ≠ 0 ∧
    hangupRound.events ([] : List DiagnosticsIpcPollHandle).length
      = DS_IPC_POLL_EVENTS_HANGUP ∧
    (pollRound dsIpcConsts hangupRound (factoryWith connectAndListenPorts)
      dsIpcConsts.DS_IPC_TIMEOUT_INFINITE).poll_timeout_ms = 10 ∧
    pollLoop dsIpcConsts defaultBuild [hangupRound, failingRound]
        (factoryWith connectAndListenPorts) dsIpcConsts.DS_IPC_TIMEOUT_INFINITE
      = pollLoop dsIpcConsts defaultBuild [failingRound]
          (pollRound dsIpcConsts hangupRound (factoryWith connectAndListenPorts)
            dsIpcConsts.DS_IPC_TIMEOUT_INFINITE).f 10 ∧
    timeoutsUsed (pollLoop dsIpcConsts defaultBuild [hangupRound, failingRound]
        (factoryWith connectAndListenPorts) dsIpcConsts.DS_IPC_TIMEOUT_INFINITE).1.calls
      = [4294967295, 12] :=
  ⟨by decide, by decide, by decide,
    (hangup_resets_port_and_restarts_backoff dsIpcConsts defaultBuild hangupRound
      (factoryWith connectAndListenPorts) dsIpcConsts.DS_IPC_TIMEOUT_INFINITE []
      [{ ipc := (defaultListenPort DS_PORT_SUSPEND_MODE_NOSUSPEND).ipc, stream := none,
         events := DS_IPC_POLL_EVENTS_NONE, user_data := 1 }]
      { ipc := none, stream := some 7, events := DS_IPC_POLL_EVENTS_NONE, user_data := 0 }
      (by decide) (by decide) (by decide) (by decide) (by decide)).2.1,
    (hangup_resets_port_and_restarts_backoff dsIpcConsts defaultBuild hangupRound
      (factoryWith connectAndListenPorts) dsIpcConsts.DS_IPC_TIMEOUT_INFINITE []
      [{ ipc := (defaultListenPort DS_PORT_SUSPEND_MODE_NOSUSPEND).ipc, stream := none,
         events := DS_IPC_POLL_EVENTS_NONE, user_data := 1 }]
      { ipc := none, stream := some 7, events := DS_IPC_POLL_EVENTS_NONE, user_data := 0 }
      (by decide) (by decide) (by decide) (by decide) (by decide)).2.2.1 rfl [failingRound],
    by decide⟩

end DsIpc
